import Mathlib

/-!
# billctl: billing calculator

A shallow embedding of `internal/config/config.go` and
`internal/calculator/calculator.go`, followed by the properties proved about it.

Modelling conventions.

* Go `int` is the 64-bit two's-complement integer: a value is an `Int`, and every
  addition and multiplication of the source is followed by `wrapInt`.
* Go `float64` is read in two ways. In the first part a money value is an exact rational
  (`Rat`): the reading of the statements that take the rates as exact rationals, which leaves
  out NaN, the infinities and rounding. In the second part (`Float64` and the namespace
  `IEEE`) a `float64` is an IEEE 754 binary64 value, with NaN, the two infinities, the negative
  zero and every operation rounded to nearest, ties to even; the statements on NaN, on a
  division by zero, on `float64(n)` and on printed amounts are proved there.
* A Go `string` is a `String`; the regular expressions only ever accept ASCII digits
  and `-`, so any other content is simply a non-matching character.
* `time.Now().Year()` is the explicit parameter `now`.
* A `*config.BillingConfig` is an address in a `Store`; the calculator keeps the address and
  its methods read the configuration found there when they are called. A method with a
  pointer receiver that writes its receiver returns the new contents.
* An `error` is a value of `Error`, which records the format string used and its
  arguments; `Error.text` renders the message.
* A `strings.Builder` is the list of the strings written to it, and the string it returns
  is their concatenation; a map literal is the list of its keys with their values.
-/

namespace Billctl

/-! ## Go integers -/

/-- Reduction of a mathematical integer to the range of Go's 64-bit `int`, from `-2^63` to
`2^63 - 1`: the value that is congruent to `x` modulo `2^64`. -/
def wrapInt (x : Int) : Int :=
  (x + 9223372036854775808) % 18446744073709551616 - 9223372036854775808

/-- Go `a + b` on `int`. -/
def goAdd (a b : Int) : Int := wrapInt (a + b)

/-- Go `a * b` on `int`. -/
def goMul (a b : Int) : Int := wrapInt (a * b)

/-- Go `a % b` on `int`: the remainder of the division truncated toward zero. -/
def goRem (a b : Int) : Int := Int.tmod a b

/-- The values a Go `int` can hold: from `-2^63` to `2^63 - 1`. -/
def InIntRange (x : Int) : Prop := -9223372036854775808 ≤ x ∧ x < 9223372036854775808

instance (x : Int) : Decidable (InIntRange x) := by
  unfold InIntRange; exact inferInstance

/-! ## config.go -/

/-- BillingConfig holds all billing configuration. -/
structure BillingConfig where
  MonthlySalary : Rat
  WeeklyHours : Int
  WorkDays : Int
  HoursPerDay : Int
  WeeksPerMonth : Int
  DefaultCurrency : String
  MonthlyHours : Int
  HourlyRate : Rat
  DailyRate : Rat
  WeeklyRate : Rat
deriving DecidableEq, Repr

/-- The method `calculateRates`: computes all derived rates from base configuration. When
`MonthlyHours` is 0 the quotient is 0 in `Rat`, where the `float64` division of Go gives an
infinity or NaN. -/
def BillingConfig.calculateRates (c : BillingConfig) : BillingConfig :=
  let c1 := { c with MonthlyHours := goMul c.WeeklyHours c.WeeksPerMonth }
  let c2 := { c1 with HourlyRate := c1.MonthlySalary / (c1.MonthlyHours : Rat) }
  let c3 := { c2 with DailyRate := c2.HourlyRate * (c2.HoursPerDay : Rat) }
  { c3 with WeeklyRate := c3.HourlyRate * (c3.WeeklyHours : Rat) }

/-- NewBillingConfig creates a new billing configuration with default values. -/
def NewBillingConfig : BillingConfig :=
  BillingConfig.calculateRates
    { MonthlySalary := 2200
      WeeklyHours := 40
      WorkDays := 5
      HoursPerDay := 8
      WeeksPerMonth := 4
      DefaultCurrency := "U$S"
      MonthlyHours := 0
      HourlyRate := 0
      DailyRate := 0
      WeeklyRate := 0 }

/-- The errors built with `fmt.Errorf` in the setters, one constructor per format string. -/
inductive ConfigError where
  /-- Format string `monthly salary must be positive, got: %.2f`. -/
  | monthlySalaryNotPositive (salary : Rat)
  /-- Format string `weekly hours must be positive, got: %d`. -/
  | weeklyHoursNotPositive (hours : Int)
  /-- Format string `hours per day must be positive, got: %d`. -/
  | hoursPerDayNotPositive (hours : Int)
  /-- Message `monthly salary must be positive` of `Validate`. -/
  | monthlySalaryInvalid
  /-- Message `weekly hours must be positive` of `Validate`. -/
  | weeklyHoursInvalid
  /-- Message `hours per day must be positive` of `Validate`. -/
  | hoursPerDayInvalid
  /-- Message `work days must be positive` of `Validate`. -/
  | workDaysInvalid
  /-- Message `weeks per month must be positive` of `Validate`. -/
  | weeksPerMonthInvalid
  /-- Message `default currency cannot be empty` of `Validate`. -/
  | defaultCurrencyEmpty
deriving DecidableEq, Repr

/-- SetMonthlySalary updates the monthly salary and recalculates rates: the configuration
after the call and the returned error (`none` is nil). -/
def BillingConfig.SetMonthlySalary (c : BillingConfig) (salary : Rat) :
    BillingConfig × Option ConfigError :=
  if salary ≤ 0 then (c, some (.monthlySalaryNotPositive salary))
  else (BillingConfig.calculateRates { c with MonthlySalary := salary }, none)

/-- SetWeeklyHours updates weekly hours and recalculates rates. -/
def BillingConfig.SetWeeklyHours (c : BillingConfig) (hours : Int) :
    BillingConfig × Option ConfigError :=
  if hours ≤ 0 then (c, some (.weeklyHoursNotPositive hours))
  else (BillingConfig.calculateRates { c with WeeklyHours := hours }, none)

/-- SetHoursPerDay updates hours per day and recalculates rates. -/
def BillingConfig.SetHoursPerDay (c : BillingConfig) (hours : Int) :
    BillingConfig × Option ConfigError :=
  if hours ≤ 0 then (c, some (.hoursPerDayNotPositive hours))
  else (BillingConfig.calculateRates { c with HoursPerDay := hours }, none)

/-- A call of one of the three setters, with its argument. -/
inductive ConfigOp where
  | setMonthlySalary (salary : Rat)
  | setWeeklyHours (hours : Int)
  | setHoursPerDay (hours : Int)
deriving DecidableEq, Repr

/-- The configuration after the call `op`, whether the call returns an error or not. -/
def ConfigOp.apply (c : BillingConfig) : ConfigOp → BillingConfig
  | .setMonthlySalary salary => (c.SetMonthlySalary salary).1
  | .setWeeklyHours hours => (c.SetWeeklyHours hours).1
  | .setHoursPerDay hours => (c.SetHoursPerDay hours).1

/-- The configuration after a sequence of setter calls made in order on `c`. -/
def runOps (c : BillingConfig) (ops : List ConfigOp) : BillingConfig :=
  ops.foldl ConfigOp.apply c

/-- The address held by a `*config.BillingConfig`. -/
abbrev ConfigPtr := Nat

/-- The configurations in memory, by address. -/
abbrev Store := ConfigPtr → BillingConfig

/-- A call `p.SetMonthlySalary(salary)` through the pointer `p`: the memory after the call and
the returned error. -/
def Store.SetMonthlySalary (st : Store) (p : ConfigPtr) (salary : Rat) :
    Store × Option ConfigError :=
  (Function.update st p ((st p).SetMonthlySalary salary).1, ((st p).SetMonthlySalary salary).2)

/-! ## calculator.go: data -/

/-- MonthInfo holds month calculation details. -/
structure MonthInfo where
  Input : String
  Days : Int
  Year : Int
  Month : Int
deriving DecidableEq, Repr

/-- TimeInput represents user input for time calculations. -/
structure TimeInput where
  Hours : List Int
  Days : List Int
  Weeks : List Int
  Months : List String
deriving DecidableEq, Repr

/-- CalculationResult holds the breakdown and total. -/
structure CalculationResult where
  MonthDetails : List MonthInfo
  TotalWeeks : Int
  TotalDays : Int
  TotalHours : Int
  TotalTime : Int
  TotalAmount : Rat
  Currency : String
deriving DecidableEq, Repr

/-- Calculator handles all billing calculations; `config` is a pointer. -/
structure Calculator where
  config : ConfigPtr
deriving DecidableEq, Repr

/-- NewCalculator creates a new calculator instance. -/
def NewCalculator (config : ConfigPtr) : Calculator := { config := config }

deriving instance DecidableEq for Except

/-- The errors built with `fmt.Errorf` in the calculator, one constructor per format string. -/
inductive Error where
  /-- Format string `invalid year in input: %s`. -/
  | invalidYearInput (input : String)
  /-- Format string `invalid month in input: %s`. -/
  | invalidMonthInput (input : String)
  /-- Format string `invalid month: %d (must be 1-12)`. -/
  | invalidMonth (month : Int)
  /-- Format string `invalid month format: %s (use MM or YYYY-MM)`. -/
  | invalidFormat (input : String)
  /-- Format string `hours cannot be negative: %d`. -/
  | hoursNegative (h : Int)
  /-- Format string `days cannot be negative: %d`. -/
  | daysNegative (d : Int)
  /-- Format string `weeks cannot be negative: %d`. -/
  | weeksNegative (w : Int)
  /-- Format string `invalid month '%s': %v`. -/
  | invalidMonthEntry (monthStr : String) (err : Error)
  /-- Format string `failed to parse month '%s': %v`. -/
  | failedToParseMonth (monthStr : String) (err : Error)
deriving DecidableEq, Repr

/-- The message of an error, as `fmt.Errorf` formats it. -/
def Error.text : Error → String
  | .invalidYearInput input => "invalid year in input: " ++ input
  | .invalidMonthInput input => "invalid month in input: " ++ input
  | .invalidMonth month => "invalid month: " ++ toString month ++ " (must be 1-12)"
  | .invalidFormat input => "invalid month format: " ++ input ++ " (use MM or YYYY-MM)"
  | .hoursNegative h => "hours cannot be negative: " ++ toString h
  | .daysNegative d => "days cannot be negative: " ++ toString d
  | .weeksNegative w => "weeks cannot be negative: " ++ toString w
  | .invalidMonthEntry monthStr err =>
      "invalid month '" ++ monthStr ++ "': " ++ Error.text err
  | .failedToParseMonth monthStr err =>
      "failed to parse month '" ++ monthStr ++ "': " ++ Error.text err

/-! ## calculator.go: calendar -/

/-- IsLeapYear checks if a year is a leap year. -/
def IsLeapYear (year : Int) : Bool :=
  goRem year 4 == 0 && (goRem year 100 != 0 || goRem year 400 == 0)

/-- GetDaysInMonth returns the number of days in a given month and year. -/
def GetDaysInMonth (month year : Int) : Int :=
  if month = 1 ∨ month = 3 ∨ month = 5 ∨ month = 7 ∨ month = 8 ∨ month = 10 ∨ month = 12 then 31
  else if month = 4 ∨ month = 6 ∨ month = 9 ∨ month = 11 then 30
  else if month = 2 then
    if IsLeapYear year then 29 else 28
  else 0

/-! ## Library functions used by the parser -/

/-- Greedy match of at most `max` characters of the class `\d` of Go's `regexp`, which holds
the ASCII digits only (`Char.isDigit`): the matched characters and the rest of the input. -/
def spanDigits : Nat → List Char → List Char × List Char
  | 0, cs => ([], cs)
  | _ + 1, [] => ([], [])
  | n + 1, c :: cs =>
      if c.isDigit then ((c :: (spanDigits n cs).1), (spanDigits n cs).2) else ([], c :: cs)

/-- The regular expression `^(\d{4})-(\d{1,2})$`, as `FindStringSubmatch` applies it: the two
captured groups when the whole input matches, `none` (Go's nil slice) otherwise. -/
def yearMonthRegex (input : String) : Option (String × String) :=
  let y := spanDigits 4 input.data
  if y.1.length = 4 then
    match y.2 with
    | [] => none
    | sep :: rest =>
        let m := spanDigits 2 rest
        if sep = '-' ∧ 1 ≤ m.1.length ∧ m.2 = [] then some (String.mk y.1, String.mk m.1) else none
  else none

/-- The regular expression `^(\d{1,2})$`, as `FindStringSubmatch` applies it. -/
def monthRegex (input : String) : Option String :=
  let m := spanDigits 2 input.data
  if 1 ≤ m.1.length ∧ m.2 = [] then some (String.mk m.1) else none

/-- The digit loop of `strconv.Atoi`, `n = n*10 + int(ch - '0')` for every character, failing
on a character that is not a digit: `n` is the value accumulated so far. -/
def parseDigits : List Char → Nat → Option Nat
  | [], n => some n
  | ch :: rest, n => if ch.isDigit then parseDigits rest (n * 10 + (ch.toNat - 48)) else none

/-- Go's `strconv.Atoi`: an optional sign followed by decimal digits, the value being within
the range of `int`; `none` stands for the `*NumError` returned otherwise. -/
def Atoi (s : String) : Option Int :=
  match s.data with
  | [] => none
  | c :: cs =>
      let body := if c = '-' ∨ c = '+' then cs else c :: cs
      match (if body = [] then none else parseDigits body 0) with
      | none => none
      | some n =>
          let v : Int := if c = '-' then -(n : Int) else (n : Int)
          if -9223372036854775808 ≤ v ∧ v < 9223372036854775808 then some v else none

/-! ## calculator.go: ParseMonth -/

/-- ParseMonth parses month input in MM or YYYY-MM format; `now` is `time.Now().Year()`. -/
def ParseMonth (now : Int) (input : String) : Except Error MonthInfo :=
  let info : MonthInfo := { Input := input, Days := 0, Year := 0, Month := 0 }
  match yearMonthRegex input with
  | some (m1, m2) =>
      match Atoi m1 with
      | none => .error (.invalidYearInput input)
      | some year =>
          match Atoi m2 with
          | none => .error (.invalidMonthInput input)
          | some month =>
              if month < 1 ∨ month > 12 then .error (.invalidMonth month)
              else
                .ok { info with Year := year, Month := month, Days := GetDaysInMonth month year }
  | none =>
      match monthRegex input with
      | some m1 =>
          match Atoi m1 with
          | none => .error (.invalidMonthInput input)
          | some month =>
              if month < 1 ∨ month > 12 then .error (.invalidMonth month)
              else
                .ok { info with Year := now, Month := month, Days := GetDaysInMonth month now }
      | none => .error (.invalidFormat input)

/-! ## calculator.go: ValidateInput and Calculate -/

/-- One of the first three loops of `ValidateInput`: the first negative value is reported
with the error `mkErr` of its category. -/
def checkNonNegative (mkErr : Int → Error) : List Int → Except Error Unit
  | [] => .ok ()
  | v :: rest => if v < 0 then .error (mkErr v) else checkNonNegative mkErr rest

/-- The loop over `input.Months` of `ValidateInput`. -/
def checkMonths (now : Int) : List String → Except Error Unit
  | [] => .ok ()
  | monthStr :: rest =>
      match ParseMonth now monthStr with
      | .error err => .error (.invalidMonthEntry monthStr err)
      | .ok _ => checkMonths now rest

/-- ValidateInput validates the time input; `.ok ()` is the nil error. -/
def Calculator.ValidateInput (_c : Calculator) (now : Int) (input : TimeInput) :
    Except Error Unit :=
  match checkNonNegative .hoursNegative input.Hours with
  | .error err => .error err
  | .ok _ =>
      match checkNonNegative .daysNegative input.Days with
      | .error err => .error err
      | .ok _ =>
          match checkNonNegative .weeksNegative input.Weeks with
          | .error err => .error err
          | .ok _ => checkMonths now input.Months

/-- The loop of `Calculate` that parses the months, appending to `result.MonthDetails`. -/
def parseMonths (now : Int) : List String → List MonthInfo → Except Error (List MonthInfo)
  | [], details => .ok details
  | monthStr :: rest, details =>
      match ParseMonth now monthStr with
      | .error err => .error (.failedToParseMonth monthStr err)
      | .ok monthInfo => parseMonths now rest (details ++ [monthInfo])

/-- One of the loops `total += v` of `Calculate` over a slice of integers. -/
def sumInts (values : List Int) (total : Int) : Int :=
  values.foldl (fun acc v => goAdd acc v) total

/-- The loop of `Calculate` that adds the hours of every month to `totalHours`. -/
def addMonthHours (hoursPerDay : Int) (details : List MonthInfo) (totalHours : Int) : Int :=
  details.foldl (fun acc monthInfo => goAdd acc (goMul monthInfo.Days hoursPerDay)) totalHours

/-- Calculate performs the main calculation, reading the configuration that the store `st`
holds at the calculator's pointer; an error stands for the pair `(nil, err)`. -/
def Calculator.Calculate (c : Calculator) (st : Store) (now : Int) (input : TimeInput)
    (currency : String) : Except Error CalculationResult :=
  let config := st c.config
  match c.ValidateInput now input with
  | .error err => .error err
  | .ok _ =>
      match parseMonths now input.Months [] with
      | .error err => .error err
      | .ok monthDetails =>
          let hours := sumInts input.Hours 0
          let days := sumInts input.Days 0
          let weeks := sumInts input.Weeks 0
          let totalHours0 := hours
          let totalHours1 := goAdd totalHours0 (goMul days config.HoursPerDay)
          let totalHours2 := goAdd totalHours1 (goMul weeks config.WeeklyHours)
          let totalHours := addMonthHours config.HoursPerDay monthDetails totalHours2
          .ok
            { MonthDetails := monthDetails
              TotalWeeks := weeks
              TotalDays := days
              TotalHours := hours
              TotalTime := totalHours
              TotalAmount := (totalHours : Rat) * config.HourlyRate
              Currency := currency }

/-! ## calculator.go: formatting -/

/-- The verb `%d` of `fmt.Sprintf` on an `int`: the decimal digits, after a `-` when
negative. -/
def formatInt (n : Int) : String := toString n

/-- The verb `%.2f` of `fmt.Sprintf` on a finite value: the value rounded to two decimals,
a tie going to the even last digit, after a `-` when the value is negative. -/
def formatFloat2 (x : Rat) : String :=
  let scaled : Rat := |x| * 100
  let whole : Nat := (Rat.floor scaled).toNat
  let rest : Rat := scaled - (whole : Rat)
  let n : Nat :=
    if rest < 1 / 2 then whole
    else if 1 / 2 < rest then whole + 1
    else if whole % 2 = 0 then whole else whole + 1
  let body := toString (n / 100) ++ "." ++ toString (n % 100 / 10) ++ toString (n % 10)
  if x < 0 then "-" ++ body else body

/-- The variable `totalMonthDays` of `FormatResult` after its loop. -/
def totalMonthDays (details : List MonthInfo) : Int :=
  details.foldl (fun acc monthInfo => goAdd acc monthInfo.Days) 0

/-- The slice `monthParts` of `FormatResult` after its loop. -/
def monthParts (details : List MonthInfo) : List String :=
  details.map fun monthInfo =>
    monthInfo.Input ++ " (" ++ formatInt monthInfo.Days ++ " días)"

/-- The line of `FormatResult` for the months. -/
def monthsLine (config : BillingConfig) (result : CalculationResult) : String :=
  let monthHours := goMul (totalMonthDays result.MonthDetails) config.HoursPerDay
  "  Meses: " ++ ", ".intercalate (monthParts result.MonthDetails) ++ " = "
    ++ formatInt (totalMonthDays result.MonthDetails) ++ " días × "
    ++ formatInt config.HoursPerDay ++ " horas = " ++ formatInt monthHours ++ " horas\n"

/-- The line of `FormatResult` for the weeks. -/
def weeksLine (config : BillingConfig) (result : CalculationResult) : String :=
  let weekHours := goMul result.TotalWeeks config.WeeklyHours
  "  Semanas: " ++ formatInt result.TotalWeeks ++ " × " ++ formatInt config.WeeklyHours
    ++ " horas = " ++ formatInt weekHours ++ " horas\n"

/-- The line of `FormatResult` for the days. -/
def daysLine (config : BillingConfig) (result : CalculationResult) : String :=
  let dayHours := goMul result.TotalDays config.HoursPerDay
  "  Días: " ++ formatInt result.TotalDays ++ " × " ++ formatInt config.HoursPerDay
    ++ " horas = " ++ formatInt dayHours ++ " horas\n"

/-- The line of `FormatResult` for the additional hours. -/
def hoursLine (result : CalculationResult) : String :=
  "  Horas adicionales: " ++ formatInt result.TotalHours ++ " horas\n"

/-- The variable `monthHours` of `FormatResult`, the hours shown by the months line; 0 when
that line is not written. -/
def monthsSectionHours (config : BillingConfig) (result : CalculationResult) : Int :=
  if result.MonthDetails.length > 0 then
    goMul (totalMonthDays result.MonthDetails) config.HoursPerDay
  else 0

/-- The variable `weekHours` of `FormatResult`, the hours shown by the weeks line; 0 when that
line is not written. -/
def weeksSectionHours (config : BillingConfig) (result : CalculationResult) : Int :=
  if result.TotalWeeks > 0 then goMul result.TotalWeeks config.WeeklyHours else 0

/-- The variable `dayHours` of `FormatResult`, the hours shown by the days line; 0 when that
line is not written. -/
def daysSectionHours (config : BillingConfig) (result : CalculationResult) : Int :=
  if result.TotalDays > 0 then goMul result.TotalDays config.HoursPerDay else 0

/-- The hours shown by the additional-hours line of `FormatResult`; 0 when that line is not
written. -/
def hoursSectionHours (result : CalculationResult) : Int :=
  if result.TotalHours > 0 then result.TotalHours else 0

/-- CalculateQuickRates calculates rates for common time periods: the map literal, as the list
of its keys with their values. -/
def Calculator.CalculateQuickRates (c : Calculator) (st : Store) (_currency : String) :
    List (String × Rat) :=
  let config := st c.config
  [("hourly", config.HourlyRate), ("daily", config.DailyRate), ("weekly", config.WeeklyRate),
    ("monthly", config.MonthlySalary)]

/-- The arguments of the successive `output.WriteString` calls of `FormatRates`. -/
def Calculator.formatRatesWrites (c : Calculator) (st : Store) (currency : String) :
    List String :=
  let config := st c.config
  ["=== TABLA DE TARIFAS ===\n\n",
    "Configuración base:\n",
    "  Salario mensual: " ++ currency ++ " " ++ formatFloat2 config.MonthlySalary ++ "\n",
    "  Horas semanales: " ++ formatInt config.WeeklyHours ++ "\n",
    "  Días laborales: " ++ formatInt config.WorkDays ++ "\n",
    "  Horas por día: " ++ formatInt config.HoursPerDay ++ "\n",
    "  Moneda: " ++ currency ++ "\n",
    "\nTarifas calculadas:\n",
    "  Por hora: " ++ currency ++ " " ++ formatFloat2 config.HourlyRate ++ "\n",
    "  Por día: " ++ currency ++ " " ++ formatFloat2 config.DailyRate ++ "\n",
    "  Por semana: " ++ currency ++ " " ++ formatFloat2 config.WeeklyRate ++ "\n",
    "  Por mes: " ++ currency ++ " " ++ formatFloat2 config.MonthlySalary ++ "\n",
    "\n"]

/-- FormatRates formats the rates table for display: the string built by the successive
writes. -/
def Calculator.FormatRates (c : Calculator) (st : Store) (currency : String) : String :=
  String.join (c.formatRatesWrites st currency)

/-! ## float64 as IEEE 754 binary64 -/

/-- A value of Go's `float64`: NaN, an infinity with its sign, the negative zero, or the finite
number `q`, `fin 0` being the positive zero. The values of the Go type are the `fin q` whose
`q` is a binary64 number, and the operations below return no other. -/
inductive Float64 where
  | nan
  | inf (neg : Bool)
  | negZero
  | fin (q : Rat)
deriving DecidableEq, Repr

/-- The power `2^k` of an integer exponent. -/
def pow2 (k : Int) : Rat :=
  if 0 ≤ k then ((2 ^ k.toNat : Nat) : Rat) else 1 / ((2 ^ (-k).toNat : Nat) : Rat)

/-- The loop that counts the halvings of `n` down to 1, run for at most `fuel` steps. -/
def log2Aux : Nat → Nat → Nat
  | 0, _ => 0
  | fuel + 1, n => if 2 ≤ n then log2Aux fuel (n / 2) + 1 else 0

/-- The exponent `e` with `2^e ≤ n < 2^(e+1)`, for a positive natural number `n`. -/
def natLog2 (n : Nat) : Nat := log2Aux n n

/-- The exponent `e` with `2^e ≤ q < 2^(e+1)`, for a positive `q`. -/
def floorLog2 (q : Rat) : Int :=
  let k : Int := (natLog2 q.num.natAbs : Int) - (natLog2 q.den : Int)
  if pow2 k ≤ q then k else k - 1

/-- The integer nearest to a non-negative `q`, a tie going to the even one. -/
def roundHalfEven (q : Rat) : Nat :=
  let whole : Nat := (Rat.floor q).toNat
  let rest : Rat := q - (whole : Rat)
  if rest < 1 / 2 then whole
  else if 1 / 2 < rest then whole + 1
  else if whole % 2 = 0 then whole else whole + 1

/-- The zero of the given sign. -/
def Float64.zero (neg : Bool) : Float64 := if neg then .negZero else .fin 0

/-- Rounding to binary64 in the default mode (to nearest, a tie going to the even
significand) of the real number of sign `neg` and magnitude `mag`: the significand has 53
bits, the exponent of a normal number goes from -1022 to 1023, the numbers below `2^-1022` are
the multiples of `2^-1074`, and a magnitude that rounds to `2^1024` gives the infinity. -/
def Float64.round (neg : Bool) (mag : Rat) : Float64 :=
  if mag = 0 then Float64.zero neg
  else
    let e := max (floorLog2 mag) (-1022)
    let ulp := pow2 (e - 52)
    let r : Rat := (roundHalfEven (mag / ulp) : Rat) * ulp
    if pow2 1024 ≤ r then .inf neg
    else if r = 0 then Float64.zero neg
    else .fin (if neg then -r else r)

/-- The conversion `float64(n)` of a Go `int`. -/
def Float64.ofInt (n : Int) : Float64 := Float64.round (decide (n < 0)) (n.natAbs : Rat)

/-- Go `x * y` on `float64`. -/
def Float64.mul (x y : Float64) : Float64 :=
  match x, y with
  | .nan, _ => .nan
  | _, .nan => .nan
  | .inf a, .inf b => .inf (xor a b)
  | .inf _, .negZero => .nan
  | .inf a, .fin q => if q = 0 then .nan else .inf (xor a (decide (q < 0)))
  | .negZero, .inf _ => .nan
  | .fin q, .inf b => if q = 0 then .nan else .inf (xor (decide (q < 0)) b)
  | .negZero, .negZero => .fin 0
  | .negZero, .fin q => Float64.zero (xor true (decide (q < 0)))
  | .fin q, .negZero => Float64.zero (xor (decide (q < 0)) true)
  | .fin a, .fin b => Float64.round (xor (decide (a < 0)) (decide (b < 0))) |a * b|

/-- Go `x / y` on `float64`; a division by zero gives an infinity, or NaN for `0 / 0`. -/
def Float64.div (x y : Float64) : Float64 :=
  match x, y with
  | .nan, _ => .nan
  | _, .nan => .nan
  | .inf _, .inf _ => .nan
  | .inf a, .negZero => .inf (xor a true)
  | .inf a, .fin q => .inf (xor a (decide (q < 0)))
  | .negZero, .inf b => Float64.zero (xor true b)
  | .fin q, .inf b => Float64.zero (xor (decide (q < 0)) b)
  | .negZero, .negZero => .nan
  | .negZero, .fin b => if b = 0 then .nan else Float64.zero (xor true (decide (b < 0)))
  | .fin a, .negZero => if a = 0 then .nan else .inf (xor (decide (a < 0)) true)
  | .fin a, .fin b =>
      if b = 0 then (if a = 0 then .nan else .inf (decide (a < 0)))
      else Float64.round (xor (decide (a < 0)) (decide (b < 0))) |a / b|

/-- Go `x <= 0` on `float64`: false for NaN, true for both zeros. -/
def Float64.leZero : Float64 → Bool
  | .nan => false
  | .inf neg => neg
  | .negZero => true
  | .fin q => decide (q ≤ 0)

/-- Go `x > 0` on `float64`: false for NaN and for both zeros. -/
def Float64.isPos : Float64 → Bool
  | .nan => false
  | .inf neg => !neg
  | .negZero => false
  | .fin q => decide (0 < q)

/-- The verb `%.2f` of `fmt.Sprintf` on a `float64`. -/
def Float64.format2 : Float64 → String
  | .nan => "NaN"
  | .inf neg => if neg then "-Inf" else "+Inf"
  | .negZero => "-0.00"
  | .fin q => formatFloat2 q

/-! ## The program over binary64

The same source with `float64` read as binary64. The parts of the program that hold no
`float64` (the calendar, `ParseMonth`, `ValidateInput`, the integer sums) are the ones
above. -/

namespace IEEE

/-- BillingConfig holds all billing configuration. -/
structure BillingConfig where
  MonthlySalary : Float64
  WeeklyHours : Int
  WorkDays : Int
  HoursPerDay : Int
  WeeksPerMonth : Int
  DefaultCurrency : String
  MonthlyHours : Int
  HourlyRate : Float64
  DailyRate : Float64
  WeeklyRate : Float64
deriving DecidableEq, Repr

/-- The method `calculateRates`: computes all derived rates from base configuration. -/
def BillingConfig.calculateRates (c : BillingConfig) : BillingConfig :=
  let c1 := { c with MonthlyHours := goMul c.WeeklyHours c.WeeksPerMonth }
  let c2 := { c1 with HourlyRate := Float64.div c1.MonthlySalary (Float64.ofInt c1.MonthlyHours) }
  let c3 := { c2 with DailyRate := Float64.mul c2.HourlyRate (Float64.ofInt c2.HoursPerDay) }
  { c3 with WeeklyRate := Float64.mul c3.HourlyRate (Float64.ofInt c3.WeeklyHours) }

/-- NewBillingConfig creates a new billing configuration with default values; the fields the
literal leaves out hold the zero value of their type. -/
def NewBillingConfig : BillingConfig :=
  BillingConfig.calculateRates
    { MonthlySalary := .fin 2200
      WeeklyHours := 40
      WorkDays := 5
      HoursPerDay := 8
      WeeksPerMonth := 4
      DefaultCurrency := "U$S"
      MonthlyHours := 0
      HourlyRate := .fin 0
      DailyRate := .fin 0
      WeeklyRate := .fin 0 }

/-- The errors built with `fmt.Errorf` in config.go, one constructor per format string. -/
inductive ConfigError where
  /-- Format string `monthly salary must be positive, got: %.2f`. -/
  | monthlySalaryNotPositive (salary : Float64)
  /-- Format string `weekly hours must be positive, got: %d`. -/
  | weeklyHoursNotPositive (hours : Int)
  /-- Format string `hours per day must be positive, got: %d`. -/
  | hoursPerDayNotPositive (hours : Int)
  /-- Message `monthly salary must be positive` of `Validate`. -/
  | monthlySalaryInvalid
  /-- Message `weekly hours must be positive` of `Validate`. -/
  | weeklyHoursInvalid
  /-- Message `hours per day must be positive` of `Validate`. -/
  | hoursPerDayInvalid
  /-- Message `work days must be positive` of `Validate`. -/
  | workDaysInvalid
  /-- Message `weeks per month must be positive` of `Validate`. -/
  | weeksPerMonthInvalid
  /-- Message `default currency cannot be empty` of `Validate`. -/
  | defaultCurrencyEmpty
deriving DecidableEq, Repr

/-- SetMonthlySalary updates the monthly salary and recalculates rates: the configuration
after the call and the returned error (`none` is nil). -/
def BillingConfig.SetMonthlySalary (c : BillingConfig) (salary : Float64) :
    BillingConfig × Option ConfigError :=
  if salary.leZero then (c, some (.monthlySalaryNotPositive salary))
  else (BillingConfig.calculateRates { c with MonthlySalary := salary }, none)

/-- SetWeeklyHours updates weekly hours and recalculates rates. -/
def BillingConfig.SetWeeklyHours (c : BillingConfig) (hours : Int) :
    BillingConfig × Option ConfigError :=
  if hours ≤ 0 then (c, some (.weeklyHoursNotPositive hours))
  else (BillingConfig.calculateRates { c with WeeklyHours := hours }, none)

/-- SetHoursPerDay updates hours per day and recalculates rates. -/
def BillingConfig.SetHoursPerDay (c : BillingConfig) (hours : Int) :
    BillingConfig × Option ConfigError :=
  if hours ≤ 0 then (c, some (.hoursPerDayNotPositive hours))
  else (BillingConfig.calculateRates { c with HoursPerDay := hours }, none)

/-- Validate checks if the configuration is valid: the configuration after the call, which
the method never writes, and the returned error (`none` is nil). -/
def BillingConfig.Validate (c : BillingConfig) : BillingConfig × Option ConfigError :=
  if c.MonthlySalary.leZero then (c, some .monthlySalaryInvalid)
  else if c.WeeklyHours ≤ 0 then (c, some .weeklyHoursInvalid)
  else if c.HoursPerDay ≤ 0 then (c, some .hoursPerDayInvalid)
  else if c.WorkDays ≤ 0 then (c, some .workDaysInvalid)
  else if c.WeeksPerMonth ≤ 0 then (c, some .weeksPerMonthInvalid)
  else if c.DefaultCurrency = "" then (c, some .defaultCurrencyEmpty)
  else (c, none)

/-- A call of one of the three setters, with its argument. -/
inductive ConfigOp where
  | setMonthlySalary (salary : Float64)
  | setWeeklyHours (hours : Int)
  | setHoursPerDay (hours : Int)
deriving DecidableEq, Repr

/-- The configuration after the call `op`, whether the call returns an error or not. -/
def ConfigOp.apply (c : BillingConfig) : ConfigOp → BillingConfig
  | .setMonthlySalary salary => (c.SetMonthlySalary salary).1
  | .setWeeklyHours hours => (c.SetWeeklyHours hours).1
  | .setHoursPerDay hours => (c.SetHoursPerDay hours).1

/-- The configuration after a sequence of setter calls made in order on `c`. -/
def runOps (c : BillingConfig) (ops : List ConfigOp) : BillingConfig :=
  ops.foldl ConfigOp.apply c

/-- The configurations in memory, by address. -/
abbrev Store := ConfigPtr → BillingConfig

/-- A call `p.SetMonthlySalary(salary)` through the pointer `p`: the memory after the call and
the returned error. -/
def Store.SetMonthlySalary (st : Store) (p : ConfigPtr) (salary : Float64) :
    Store × Option ConfigError :=
  (Function.update st p ((st p).SetMonthlySalary salary).1, ((st p).SetMonthlySalary salary).2)

/-- A call `p.SetWeeklyHours(hours)` through the pointer `p`. -/
def Store.SetWeeklyHours (st : Store) (p : ConfigPtr) (hours : Int) :
    Store × Option ConfigError :=
  (Function.update st p ((st p).SetWeeklyHours hours).1, ((st p).SetWeeklyHours hours).2)

/-- CalculationResult holds the breakdown and total. -/
structure CalculationResult where
  MonthDetails : List MonthInfo
  TotalWeeks : Int
  TotalDays : Int
  TotalHours : Int
  TotalTime : Int
  TotalAmount : Float64
  Currency : String
deriving DecidableEq, Repr

/-- Calculate performs the main calculation, reading the configuration that the store `st`
holds at the calculator's pointer; an error stands for the pair `(nil, err)`. -/
def Calculator.Calculate (c : Calculator) (st : Store) (now : Int) (input : TimeInput)
    (currency : String) : Except Error CalculationResult :=
  let config := st c.config
  match c.ValidateInput now input with
  | .error err => .error err
  | .ok _ =>
      match parseMonths now input.Months [] with
      | .error err => .error err
      | .ok monthDetails =>
          let hours := sumInts input.Hours 0
          let days := sumInts input.Days 0
          let weeks := sumInts input.Weeks 0
          let totalHours0 := hours
          let totalHours1 := goAdd totalHours0 (goMul days config.HoursPerDay)
          let totalHours2 := goAdd totalHours1 (goMul weeks config.WeeklyHours)
          let totalHours := addMonthHours config.HoursPerDay monthDetails totalHours2
          .ok
            { MonthDetails := monthDetails
              TotalWeeks := weeks
              TotalDays := days
              TotalHours := hours
              TotalTime := totalHours
              TotalAmount := Float64.mul (Float64.ofInt totalHours) config.HourlyRate
              Currency := currency }

/-- The line of `FormatResult` for the months, without its line break. -/
def monthsLine (config : BillingConfig) (result : CalculationResult) : String :=
  let monthHours := goMul (totalMonthDays result.MonthDetails) config.HoursPerDay
  "  Meses: " ++ ", ".intercalate (monthParts result.MonthDetails) ++ " = "
    ++ formatInt (totalMonthDays result.MonthDetails) ++ " días × "
    ++ formatInt config.HoursPerDay ++ " horas = " ++ formatInt monthHours ++ " horas"

/-- The line of `FormatResult` for the weeks, without its line break. -/
def weeksLine (config : BillingConfig) (result : CalculationResult) : String :=
  let weekHours := goMul result.TotalWeeks config.WeeklyHours
  "  Semanas: " ++ formatInt result.TotalWeeks ++ " × " ++ formatInt config.WeeklyHours
    ++ " horas = " ++ formatInt weekHours ++ " horas"

/-- The line of `FormatResult` for the days, without its line break. -/
def daysLine (config : BillingConfig) (result : CalculationResult) : String :=
  let dayHours := goMul result.TotalDays config.HoursPerDay
  "  Días: " ++ formatInt result.TotalDays ++ " × " ++ formatInt config.HoursPerDay
    ++ " horas = " ++ formatInt dayHours ++ " horas"

/-- The line of `FormatResult` for the additional hours, without its line break. -/
def hoursLine (result : CalculationResult) : String :=
  "  Horas adicionales: " ++ formatInt result.TotalHours ++ " horas"

/-- The arguments of the successive `output.WriteString` calls of `FormatResult`. -/
def Calculator.formatResultWrites (c : Calculator) (st : Store) (result : CalculationResult) :
    List String :=
  let config := st c.config
  ["=== CÁLCULO DE FACTURACIÓN ===\n\n", "Desglose de tiempo trabajado:\n"]
    ++ (if result.MonthDetails.length > 0 then [monthsLine config result ++ "\n"] else [])
    ++ (if result.TotalWeeks > 0 then [weeksLine config result ++ "\n"] else [])
    ++ (if result.TotalDays > 0 then [daysLine config result ++ "\n"] else [])
    ++ (if result.TotalHours > 0 then [hoursLine result ++ "\n"] else [])
    ++ ["\nRESUMEN:\n",
        "  Total de horas: " ++ formatInt result.TotalTime ++ "\n",
        "  Tarifa por hora: " ++ result.Currency ++ " " ++ config.HourlyRate.format2 ++ "\n",
        "  TOTAL A FACTURAR: " ++ result.Currency ++ " " ++ result.TotalAmount.format2 ++ "\n"]

/-- FormatResult formats the calculation result for display: the string built by the
successive writes. -/
def Calculator.FormatResult (c : Calculator) (st : Store) (result : CalculationResult) : String :=
  String.join (Calculator.formatResultWrites c st result)

/-- The lines that `FormatResult` writes, in order and without their line breaks: every write
of `formatResultWrites` is one line and its line break, except the title, which an empty line
follows, and the header of the summary, which follows an empty line. -/
def Calculator.formatResultLines (c : Calculator) (st : Store) (result : CalculationResult) :
    List String :=
  let config := st c.config
  ["=== CÁLCULO DE FACTURACIÓN ===", "", "Desglose de tiempo trabajado:"]
    ++ (if result.MonthDetails.length > 0 then [monthsLine config result] else [])
    ++ (if result.TotalWeeks > 0 then [weeksLine config result] else [])
    ++ (if result.TotalDays > 0 then [daysLine config result] else [])
    ++ (if result.TotalHours > 0 then [hoursLine result] else [])
    ++ ["", "RESUMEN:",
        "  Total de horas: " ++ formatInt result.TotalTime,
        "  Tarifa por hora: " ++ result.Currency ++ " " ++ config.HourlyRate.format2,
        "  TOTAL A FACTURAR: " ++ result.Currency ++ " " ++ result.TotalAmount.format2]

/-- The arguments of the successive `output.WriteString` calls of `FormatRates`. -/
def Calculator.formatRatesWrites (c : Calculator) (st : Store) (currency : String) :
    List String :=
  let config := st c.config
  ["=== TABLA DE TARIFAS ===\n\n",
    "Configuración base:\n",
    "  Salario mensual: " ++ currency ++ " " ++ config.MonthlySalary.format2 ++ "\n",
    "  Horas semanales: " ++ formatInt config.WeeklyHours ++ "\n",
    "  Días laborales: " ++ formatInt config.WorkDays ++ "\n",
    "  Horas por día: " ++ formatInt config.HoursPerDay ++ "\n",
    "  Moneda: " ++ currency ++ "\n",
    "\nTarifas calculadas:\n",
    "  Por hora: " ++ currency ++ " " ++ config.HourlyRate.format2 ++ "\n",
    "  Por día: " ++ currency ++ " " ++ config.DailyRate.format2 ++ "\n",
    "  Por semana: " ++ currency ++ " " ++ config.WeeklyRate.format2 ++ "\n",
    "  Por mes: " ++ currency ++ " " ++ config.MonthlySalary.format2 ++ "\n",
    "\n"]

/-- FormatRates formats the rates table for display: the string built by the successive
writes. -/
def Calculator.FormatRates (c : Calculator) (st : Store) (currency : String) : String :=
  String.join (Calculator.formatRatesWrites c st currency)

/-- GetMonthSummary returns a summary of hours and amount for a specific month: the returned
string and the returned error (`none` is nil). -/
def Calculator.GetMonthSummary (c : Calculator) (st : Store) (now : Int) (monthInput : String)
    (currency : String) : String × Option Error :=
  let config := st c.config
  match ParseMonth now monthInput with
  | .error err => ("", some err)
  | .ok monthInfo =>
      let hours := goMul monthInfo.Days config.HoursPerDay
      let amount := Float64.mul (Float64.ofInt hours) config.HourlyRate
      ("Mes " ++ monthInput ++ ": " ++ formatInt monthInfo.Days ++ " días × "
        ++ formatInt config.HoursPerDay ++ " horas = " ++ formatInt hours ++ " horas → "
        ++ currency ++ " " ++ amount.format2, none)

/-- A store that holds the default configuration at every address. -/
def defaultStore : Store := fun _ => NewBillingConfig

end IEEE

/-! ## Vocabulary of the statements -/

/-- The text `sub` occurs in the string `s`, as `strings.Contains(s, sub)` tests it. -/
def Contains (s sub : String) : Prop := sub.data <:+: s.data

instance (s sub : String) : Decidable (Contains s sub) := by
  unfold Contains; exact inferInstance

/-- The lines of a text: the pieces between its line breaks. -/
def textLines (s : String) : List (List Char) := s.data.splitOn '\n'

/-- The text `out` has a line that begins with `label`. -/
def HasLineStarting (out label : String) : Prop :=
  ∃ line ∈ textLines out, label.data <+: line

instance (out label : String) : Decidable (HasLineStarting out label) := by
  unfold HasLineStarting; exact inferInstance

/-- The number that a run of decimal digits denotes, most significant digit first. -/
def decimalValue (cs : List Char) : Nat :=
  Nat.ofDigits 10 (cs.reverse.map fun c => c.toNat - 48)

/-- One or two ASCII digits: the month part `m` of a month specifier. -/
def IsMonthDigits (m : List Char) : Prop :=
  (m.length = 1 ∨ m.length = 2) ∧ ∀ c ∈ m, c.isDigit = true

/-- The input is the four ASCII digits `y`, a `-`, and the one or two ASCII digits `m`. -/
def IsYearMonthForm (input : String) (y m : List Char) : Prop :=
  input.data = y ++ '-' :: m ∧ y.length = 4 ∧ (∀ c ∈ y, c.isDigit = true) ∧ IsMonthDigits m

/-- The input is the one or two ASCII digits `m` and nothing else. -/
def IsMonthForm (input : String) (m : List Char) : Prop :=
  input.data = m ∧ IsMonthDigits m

/-- A store that holds the default configuration at every address. -/
def defaultStore : Store := fun _ => NewBillingConfig

/-! ## Go integer arithmetic -/

theorem wrapInt_modEq (x : Int) : wrapInt x ≡ x [ZMOD 18446744073709551616] := by
  unfold wrapInt Int.ModEq
  omega

theorem wrapInt_range (x : Int) : InIntRange (wrapInt x) := by
  unfold wrapInt InIntRange
  omega

theorem wrapInt_of_range {x : Int} (h : InIntRange x) : wrapInt x = x := by
  unfold wrapInt; unfold InIntRange at h
  omega

theorem wrapInt_congr {a b : Int} (h : a ≡ b [ZMOD 18446744073709551616]) : wrapInt a = wrapInt b := by
  have h2 : (a + 9223372036854775808) % 18446744073709551616
      = (b + 9223372036854775808) % 18446744073709551616 := Int.ModEq.add_right _ h
  unfold wrapInt
  rw [h2]

theorem eq_wrapInt_of_modEq {a b : Int} (ha : InIntRange a) (h : a ≡ b [ZMOD 18446744073709551616]) :
    a = wrapInt b := by
  rw [← wrapInt_of_range ha]
  exact wrapInt_congr h

theorem goAdd_modEq (a b : Int) : goAdd a b ≡ a + b [ZMOD 18446744073709551616] := wrapInt_modEq _

theorem goMul_modEq (a b : Int) : goMul a b ≡ a * b [ZMOD 18446744073709551616] := wrapInt_modEq _

theorem inIntRange_zero : InIntRange 0 := by
  unfold InIntRange; omega

/-! ## The summation loops of Calculate -/

theorem sumInts_modEq (values : List Int) (total : Int) :
    sumInts values total ≡ total + values.sum [ZMOD 18446744073709551616] := by
  induction values generalizing total with
  | nil => simp [sumInts]
  | cons v rest ih =>
      have h1 : sumInts (v :: rest) total = sumInts rest (goAdd total v) := rfl
      rw [h1, List.sum_cons]
      refine (ih (goAdd total v)).trans ?_
      have := (goAdd_modEq total v).add_right rest.sum
      rw [add_assoc] at this
      exact this

theorem sumInts_range (values : List Int) {total : Int} (h : InIntRange total) :
    InIntRange (sumInts values total) := by
  induction values generalizing total with
  | nil => exact h
  | cons v rest ih => exact ih (wrapInt_range _)

theorem sumInts_zero (values : List Int) : sumInts values 0 = wrapInt values.sum := by
  apply eq_wrapInt_of_modEq (sumInts_range values inIntRange_zero)
  simpa using sumInts_modEq values 0

theorem addMonthHours_modEq (hoursPerDay : Int) (details : List MonthInfo) (totalHours : Int) :
    addMonthHours hoursPerDay details totalHours
      ≡ totalHours + (details.map fun m => m.Days * hoursPerDay).sum [ZMOD 18446744073709551616] := by
  induction details generalizing totalHours with
  | nil => simp [addMonthHours]
  | cons m rest ih =>
      have h1 : addMonthHours hoursPerDay (m :: rest) totalHours
          = addMonthHours hoursPerDay rest (goAdd totalHours (goMul m.Days hoursPerDay)) := rfl
      rw [h1, List.map_cons, List.sum_cons]
      refine (ih _).trans ?_
      have h2 : goAdd totalHours (goMul m.Days hoursPerDay)
          ≡ totalHours + m.Days * hoursPerDay [ZMOD 18446744073709551616] :=
        (goAdd_modEq _ _).trans ((goMul_modEq _ _).add_left totalHours)
      have := h2.add_right (rest.map fun m => m.Days * hoursPerDay).sum
      rw [add_assoc] at this
      exact this

theorem addMonthHours_range (hoursPerDay : Int) (details : List MonthInfo) {totalHours : Int}
    (h : InIntRange totalHours) : InIntRange (addMonthHours hoursPerDay details totalHours) := by
  induction details generalizing totalHours with
  | nil => exact h
  | cons m rest ih => exact ih (wrapInt_range _)

/-! ## The parsing loop of Calculate -/

theorem parseMonths_ok (now : Int) (months : List String) (details result : List MonthInfo)
    (h : parseMonths now months details = .ok result) :
    ∃ infos, result = details ++ infos ∧ months.map (ParseMonth now) = infos.map .ok := by
  induction months generalizing details with
  | nil =>
      refine ⟨[], ?_, rfl⟩
      simp only [parseMonths, Except.ok.injEq] at h
      simp [h]
  | cons monthStr rest ih =>
      simp only [parseMonths] at h
      cases hp : ParseMonth now monthStr with
      | error err => rw [hp] at h; simp at h
      | ok monthInfo =>
          rw [hp] at h
          obtain ⟨infos, h1, h2⟩ := ih _ h
          refine ⟨monthInfo :: infos, ?_, ?_⟩
          · simp [h1]
          · simp [hp, h2]

/-! ## Digits -/

theorem digit_toNat_sub_lt {c : Char} (h : c.isDigit = true) : c.toNat - 48 < 10 := by
  simp only [Char.isDigit, Bool.and_eq_true, decide_eq_true_eq] at h
  have h2 : c.val.toNat ≤ 57 := h.2
  show c.val.toNat - 48 < 10
  omega

theorem digit_ne_sign {c : Char} (h : c.isDigit = true) : ¬(c = '-' ∨ c = '+') := by
  rintro (rfl | rfl) <;> simp [Char.isDigit] at h

theorem decimalValue_cons (c : Char) (cs : List Char) :
    decimalValue (c :: cs) = (c.toNat - 48) * 10 ^ cs.length + decimalValue cs := by
  simp [decimalValue, Nat.ofDigits_append, Nat.ofDigits_singleton]
  ring

theorem decimalValue_lt (cs : List Char) (h : ∀ c ∈ cs, c.isDigit = true) :
    decimalValue cs < 10 ^ cs.length := by
  have := Nat.ofDigits_lt_base_pow_length (b := 10)
    (l := cs.reverse.map fun c => c.toNat - 48) (by norm_num) (by
      intro x hx
      simp only [List.mem_map, List.mem_reverse] at hx
      obtain ⟨c, hc, rfl⟩ := hx
      exact digit_toNat_sub_lt (h c hc))
  simpa [decimalValue] using this

theorem parseDigits_digits (cs : List Char) (n : Nat) (h : ∀ c ∈ cs, c.isDigit = true) :
    parseDigits cs n = some (n * 10 ^ cs.length + decimalValue cs) := by
  induction cs generalizing n with
  | nil => simp [parseDigits, decimalValue]
  | cons c rest ih =>
      have hc : c.isDigit = true := h c (List.mem_cons_self _ _)
      have hr : ∀ d ∈ rest, d.isDigit = true := fun d hd => h d (List.mem_cons_of_mem _ hd)
      simp only [parseDigits, hc, if_true, ih _ hr, decimalValue_cons, List.length_cons]
      congr 1
      ring

theorem Atoi_digits (cs : List Char) (hne : cs ≠ []) (hlen : cs.length ≤ 18)
    (h : ∀ c ∈ cs, c.isDigit = true) : Atoi (String.mk cs) = some (decimalValue cs : Int) := by
  cases cs with
  | nil => exact absurd rfl hne
  | cons c rest =>
      have hc : c.isDigit = true := h c (List.mem_cons_self _ _)
      have hsign := digit_ne_sign hc
      have hneg : c ≠ '-' := fun e => hsign (Or.inl e)
      have hlt := decimalValue_lt (c :: rest) h
      have hpow : (10 : Nat) ^ (c :: rest).length ≤ 10 ^ 18 :=
        Nat.pow_le_pow_right (by norm_num) hlen
      have hplus : c ≠ '+' := fun e => hsign (Or.inr e)
      have hnat : decimalValue (c :: rest) < 9223372036854775808 := by
        have : decimalValue (c :: rest) < 10 ^ 18 := lt_of_lt_of_le hlt hpow
        omega
      simp [Atoi, hneg, hplus, parseDigits_digits _ _ h, hnat]
      omega

/-! ## The regular expressions -/

theorem spanDigits_append (n : Nat) (p r : List Char) (hp : ∀ c ∈ p, c.isDigit = true)
    (hlen : p.length ≤ n)
    (hstop : p.length = n ∨ r = [] ∨ ∃ c r', r = c :: r' ∧ c.isDigit = false) :
    spanDigits n (p ++ r) = (p, r) := by
  induction p generalizing n with
  | nil =>
      cases n with
      | zero => simp [spanDigits]
      | succ k =>
          rcases hstop with h | h | ⟨c, r', rfl, hc⟩
          · simp at h
          · subst h; simp [spanDigits]
          · simp [spanDigits, hc]
  | cons c p ih =>
      cases n with
      | zero => simp at hlen
      | succ k =>
          have hc : c.isDigit = true := hp c (List.mem_cons_self _ _)
          have hp2 : ∀ d ∈ p, d.isDigit = true := fun d hd => hp d (List.mem_cons_of_mem _ hd)
          have hlen2 : p.length ≤ k := by simpa using hlen
          have hstop2 : p.length = k ∨ r = [] ∨ ∃ c r', r = c :: r' ∧ c.isDigit = false := by
            rcases hstop with h | h | h
            · left; simpa using h
            · right; left; exact h
            · right; right; exact h
          simp [spanDigits, hc, ih k hp2 hlen2 hstop2]

theorem spanDigits_spec (n : Nat) (cs : List Char) :
    cs = (spanDigits n cs).1 ++ (spanDigits n cs).2 ∧ (spanDigits n cs).1.length ≤ n ∧
      ∀ c ∈ (spanDigits n cs).1, c.isDigit = true := by
  induction n generalizing cs with
  | zero => simp [spanDigits]
  | succ k ih =>
      cases cs with
      | nil => simp [spanDigits]
      | cons c rest =>
          by_cases hc : c.isDigit = true
          · obtain ⟨h1, h2, h3⟩ := ih rest
            simp only [spanDigits, hc, if_true, List.cons_append, List.length_cons,
              List.mem_cons]
            refine ⟨by rw [← h1], by omega, ?_⟩
            rintro d (rfl | hd)
            · exact hc
            · exact h3 d hd
          · simp [spanDigits, hc]

theorem spanDigits_two_of_monthDigits {m : List Char} (hm : IsMonthDigits m) :
    spanDigits 2 m = (m, []) := by
  have h := spanDigits_append 2 m [] hm.2 (by rcases hm.1 with h | h <;> omega)
    (Or.inr (Or.inl rfl))
  simpa using h

theorem yearMonthRegex_of_form {input : String} {y m : List Char}
    (h : IsYearMonthForm input y m) :
    yearMonthRegex input = some (String.mk y, String.mk m) := by
  obtain ⟨hin, hy, hyd, hm⟩ := h
  have h1 : spanDigits 4 input.data = (y, '-' :: m) := by
    rw [hin]
    exact spanDigits_append 4 y _ hyd (le_of_eq hy) (Or.inl hy)
  have h2 := spanDigits_two_of_monthDigits hm
  have h3 : 1 ≤ m.length := by rcases hm.1 with h | h <;> omega
  simp [yearMonthRegex, h1, h2, hy, h3]

theorem yearMonthRegex_some {input a b : String} (h : yearMonthRegex input = some (a, b)) :
    IsYearMonthForm input a.data b.data := by
  unfold yearMonthRegex at h
  obtain ⟨e1, -, d1⟩ := spanDigits_spec 4 input.data
  by_cases hlen : (spanDigits 4 input.data).1.length = 4
  · simp only [hlen, if_true] at h
    cases hrest : (spanDigits 4 input.data).2 with
    | nil => rw [hrest] at h; simp at h
    | cons sep rest =>
        rw [hrest] at h
        obtain ⟨e2, l2, d2⟩ := spanDigits_spec 2 rest
        by_cases hc : sep = '-' ∧ 1 ≤ (spanDigits 2 rest).1.length ∧ (spanDigits 2 rest).2 = []
        · simp only [hc, and_self, if_true, Option.some.injEq, Prod.mk.injEq] at h
          obtain ⟨ha, hb⟩ := h
          obtain ⟨hsep, hl1, hnil⟩ := hc
          subst ha hb
          rw [hnil, List.append_nil] at e2
          refine ⟨?_, hlen, d1, ?_, d2⟩
          · rw [hrest, hsep, e2] at e1
            exact e1
          · show (spanDigits 2 rest).1.length = 1 ∨ (spanDigits 2 rest).1.length = 2
            omega
        · simp only [if_neg hc] at h
          simp at h
  · simp [hlen] at h

theorem monthRegex_of_form {input : String} {m : List Char} (h : IsMonthForm input m) :
    monthRegex input = some (String.mk m) := by
  obtain ⟨hin, hm⟩ := h
  have h2 := spanDigits_two_of_monthDigits hm
  have h3 : 1 ≤ m.length := by rcases hm.1 with h | h <;> omega
  simp [monthRegex, hin, h2, h3]

theorem monthRegex_some {input a : String} (h : monthRegex input = some a) :
    IsMonthForm input a.data := by
  unfold monthRegex at h
  obtain ⟨e2, l2, d2⟩ := spanDigits_spec 2 input.data
  by_cases hc : 1 ≤ (spanDigits 2 input.data).1.length ∧ (spanDigits 2 input.data).2 = []
  · simp only [hc, and_self, if_true, Option.some.injEq] at h
    subst h
    obtain ⟨hl1, hnil⟩ := hc
    rw [hnil, List.append_nil] at e2
    refine ⟨e2, ?_, d2⟩
    show (spanDigits 2 input.data).1.length = 1 ∨ (spanDigits 2 input.data).1.length = 2
    omega
  · rw [if_neg hc] at h
    simp at h

theorem yearMonthRegex_none_of_monthForm {input : String} {m : List Char}
    (h : IsMonthForm input m) : yearMonthRegex input = none := by
  cases hr : yearMonthRegex input with
  | none => rfl
  | some ab =>
      obtain ⟨a, b⟩ := ab
      obtain ⟨hin, hy, -, -⟩ := yearMonthRegex_some hr
      obtain ⟨hin2, hm, -⟩ := h
      have hl : input.data.length = a.data.length + (b.data.length + 1) := by
        rw [hin]; simp
      rw [hin2] at hl
      omega

/-! ## ParseMonth on each form of input -/

theorem ParseMonth_of_yearMonthForm (now : Int) {input : String} {y m : List Char}
    (h : IsYearMonthForm input y m) :
    ParseMonth now input =
      if (decimalValue m : Int) < 1 ∨ (decimalValue m : Int) > 12 then
        .error (.invalidMonth (decimalValue m))
      else
        .ok { Input := input, Days := GetDaysInMonth (decimalValue m) (decimalValue y),
              Year := decimalValue y, Month := decimalValue m } := by
  have hre := yearMonthRegex_of_form h
  obtain ⟨-, hy, hyd, hm⟩ := h
  have hay := Atoi_digits y (by intro e; rw [e] at hy; simp at hy) (by omega) hyd
  have ham := Atoi_digits m (by intro e; rw [e] at hm; rcases hm.1 with h | h <;> simp at h)
    (by rcases hm.1 with h | h <;> omega) hm.2
  simp only [ParseMonth, hre, hay, ham]

theorem ParseMonth_of_monthForm (now : Int) {input : String} {m : List Char}
    (h : IsMonthForm input m) :
    ParseMonth now input =
      if (decimalValue m : Int) < 1 ∨ (decimalValue m : Int) > 12 then
        .error (.invalidMonth (decimalValue m))
      else
        .ok { Input := input, Days := GetDaysInMonth (decimalValue m) now,
              Year := now, Month := decimalValue m } := by
  have hre := monthRegex_of_form h
  have hno := yearMonthRegex_none_of_monthForm h
  obtain ⟨-, hm⟩ := h
  have ham := Atoi_digits m (by intro e; rw [e] at hm; rcases hm.1 with h | h <;> simp at h)
    (by rcases hm.1 with h | h <;> omega) hm.2
  simp only [ParseMonth, hre, hno, ham]

theorem ParseMonth_of_noForm (now : Int) {input : String}
    (h1 : ¬∃ y m, IsYearMonthForm input y m) (h2 : ¬∃ m, IsMonthForm input m) :
    ParseMonth now input = .error (.invalidFormat input) := by
  have hno : yearMonthRegex input = none := by
    cases hr : yearMonthRegex input with
    | none => rfl
    | some ab => exact absurd ⟨_, _, yearMonthRegex_some hr⟩ h1
  have hno2 : monthRegex input = none := by
    cases hr : monthRegex input with
    | none => rfl
    | some a => exact absurd ⟨_, monthRegex_some hr⟩ h2
  simp only [ParseMonth, hno, hno2]

/-- Claim C1, as the code has it: on success the three totals are the sums of the inputs and
TotalTime is TotalHours + TotalDays * HoursPerDay + TotalWeeks * WeeklyHours + the sum of
Days * HoursPerDay over the parsed months, each reduced to the 64-bit range of Go's int; they
are the exact sums whenever those fit in that range. -/
theorem Calculate_totals (c : Calculator) (st : Store) (now : Int) (input : TimeInput)
    (currency : String) (r : CalculationResult)
    (h : c.Calculate st now input currency = .ok r) :
    (r.TotalHours = wrapInt input.Hours.sum ∧ r.TotalDays = wrapInt input.Days.sum ∧
      r.TotalWeeks = wrapInt input.Weeks.sum ∧
      input.Months.map (ParseMonth now) = r.MonthDetails.map .ok ∧
      r.TotalTime = wrapInt (r.TotalHours + r.TotalDays * (st c.config).HoursPerDay
        + r.TotalWeeks * (st c.config).WeeklyHours
        + (r.MonthDetails.map fun m => m.Days * (st c.config).HoursPerDay).sum)) ∧
    (InIntRange input.Hours.sum → r.TotalHours = input.Hours.sum) ∧
    (InIntRange input.Days.sum → r.TotalDays = input.Days.sum) ∧
    (InIntRange input.Weeks.sum → r.TotalWeeks = input.Weeks.sum) ∧
    (InIntRange (r.TotalHours + r.TotalDays * (st c.config).HoursPerDay
        + r.TotalWeeks * (st c.config).WeeklyHours
        + (r.MonthDetails.map fun m => m.Days * (st c.config).HoursPerDay).sum) →
      r.TotalTime = r.TotalHours + r.TotalDays * (st c.config).HoursPerDay
        + r.TotalWeeks * (st c.config).WeeklyHours
        + (r.MonthDetails.map fun m => m.Days * (st c.config).HoursPerDay).sum) := by
  have main : r.TotalHours = wrapInt input.Hours.sum ∧ r.TotalDays = wrapInt input.Days.sum ∧
      r.TotalWeeks = wrapInt input.Weeks.sum ∧
      input.Months.map (ParseMonth now) = r.MonthDetails.map .ok ∧
      r.TotalTime = wrapInt (r.TotalHours + r.TotalDays * (st c.config).HoursPerDay
        + r.TotalWeeks * (st c.config).WeeklyHours
        + (r.MonthDetails.map fun m => m.Days * (st c.config).HoursPerDay).sum) := by
    unfold Calculator.Calculate at h
    cases hv : c.ValidateInput now input with
    | error err => rw [hv] at h; simp at h
    | ok u =>
        rw [hv] at h
        cases hp : parseMonths now input.Months [] with
        | error err => rw [hp] at h; simp at h
        | ok monthDetails =>
            rw [hp] at h
            simp only [Except.ok.injEq] at h
            obtain ⟨infos, h1, h2⟩ := parseMonths_ok now _ _ _ hp
            simp only [List.nil_append] at h1
            subst h1
            subst h
            refine ⟨sumInts_zero _, sumInts_zero _, sumInts_zero _, h2, ?_⟩
            apply eq_wrapInt_of_modEq (addMonthHours_range _ _ (wrapInt_range _))
            refine (addMonthHours_modEq _ _ _).trans ?_
            refine Int.ModEq.add_right _ ?_
            refine (goAdd_modEq _ _).trans ?_
            refine Int.ModEq.add ?_ (goMul_modEq _ _)
            exact (goAdd_modEq _ _).trans ((goMul_modEq _ _).add_left _)
  obtain ⟨m1, m2, m3, m4, m5⟩ := main
  refine ⟨⟨m1, m2, m3, m4, m5⟩, ?_, ?_, ?_, ?_⟩
  · intro hr; rw [m1, wrapInt_of_range hr]
  · intro hr; rw [m2, wrapInt_of_range hr]
  · intro hr; rw [m3, wrapInt_of_range hr]
  · intro hr; rw [m5]; exact wrapInt_of_range hr

/-- Claim C1 as stated fails: with hours [9223372036854775807, 1] Calculate succeeds and
TotalHours is -9223372036854775808, not the sum 9223372036854775808 of the inputs. -/
theorem Calculate_totals_not_exact :
    ∃ r, (NewCalculator 0).Calculate defaultStore 2025
        ⟨[9223372036854775807, 1], [], [], []⟩ "U$S" = .ok r ∧
      r.TotalHours = -9223372036854775808 ∧
      r.TotalHours ≠ List.sum [9223372036854775807, 1] :=
  ⟨_, rfl, rfl, by decide⟩

/-- Claim C1 at the spec's example: the default configuration with hours [4], days [3],
weeks [1] and months ["2024-01"] gives TotalTime = 316, the exact total. -/
theorem Calculate_totals_witness :
    ∃ r, (NewCalculator 0).Calculate defaultStore 2025 ⟨[4], [3], [1], ["2024-01"]⟩ "U$S" = .ok r ∧
      r.TotalTime = 316 ∧ r.TotalHours = 4 ∧ r.TotalDays = 3 ∧ r.TotalWeeks = 1 ∧
      r.TotalTime = r.TotalHours + r.TotalDays * (defaultStore 0).HoursPerDay
        + r.TotalWeeks * (defaultStore 0).WeeklyHours
        + (r.MonthDetails.map fun m => m.Days * (defaultStore 0).HoursPerDay).sum :=
  ⟨_, rfl, rfl,
    (Calculate_totals (NewCalculator 0) defaultStore 2025 ⟨[4], [3], [1], ["2024-01"]⟩ "U$S" _
      rfl).2.1 (by decide),
    (Calculate_totals (NewCalculator 0) defaultStore 2025 ⟨[4], [3], [1], ["2024-01"]⟩ "U$S" _
      rfl).2.2.1 (by decide),
    (Calculate_totals (NewCalculator 0) defaultStore 2025 ⟨[4], [3], [1], ["2024-01"]⟩ "U$S" _
      rfl).2.2.2.1 (by decide),
    (Calculate_totals (NewCalculator 0) defaultStore 2025 ⟨[4], [3], [1], ["2024-01"]⟩ "U$S" _
      rfl).2.2.2.2 (by decide)⟩

/-! ## Validation and the parsing loop -/

theorem parseMonths_of_checkMonths (now : Int) (months : List String) (details : List MonthInfo)
    (h : checkMonths now months = .ok ()) : ∃ result, parseMonths now months details = .ok result := by
  induction months generalizing details with
  | nil => exact ⟨details, rfl⟩
  | cons monthStr rest ih =>
      simp only [checkMonths] at h
      cases hp : ParseMonth now monthStr with
      | error err => rw [hp] at h; simp at h
      | ok monthInfo =>
          rw [hp] at h
          simp only [parseMonths, hp]
          exact ih _ h

theorem checkMonths_of_validateInput (c : Calculator) (now : Int) (input : TimeInput)
    (h : c.ValidateInput now input = .ok ()) : checkMonths now input.Months = .ok () := by
  unfold Calculator.ValidateInput at h
  cases h1 : checkNonNegative .hoursNegative input.Hours with
  | error err => rw [h1] at h; simp at h
  | ok u1 =>
      rw [h1] at h
      cases h2 : checkNonNegative .daysNegative input.Days with
      | error err => rw [h2] at h; simp at h
      | ok u2 =>
          rw [h2] at h
          cases h3 : checkNonNegative .weeksNegative input.Weeks with
          | error err => rw [h3] at h; simp at h
          | ok u3 => rw [h3] at h; exact h

/-- Claim C3: Calculate returns an error exactly when ValidateInput does, and it is the same
error (there is then no result); when ValidateInput succeeds Calculate returns a result. -/
theorem Calculate_error_iff (c : Calculator) (st : Store) (now : Int) (input : TimeInput)
    (currency : String) :
    (∀ e, c.Calculate st now input currency = .error e ↔ c.ValidateInput now input = .error e) ∧
    ((∃ r, c.Calculate st now input currency = .ok r) ↔ c.ValidateInput now input = .ok ()) := by
  cases hv : c.ValidateInput now input with
  | error err =>
      have hc : c.Calculate st now input currency = .error err := by
        simp only [Calculator.Calculate, hv]
      rw [hc]
      simp
  | ok u =>
      obtain ⟨result, hp⟩ :=
        parseMonths_of_checkMonths now input.Months [] (checkMonths_of_validateInput c now input hv)
      have hc : ∃ r, c.Calculate st now input currency = .ok r := by
        simp only [Calculator.Calculate, hv, hp]
        exact ⟨_, rfl⟩
      obtain ⟨r, hr⟩ := hc
      rw [hr]
      simp

/-- Claim C3 at the spec's example: months ["invalid"] makes Calculate fail with the error of
ValidateInput, and no result is returned. -/
theorem Calculate_error_iff_witness :
    (NewCalculator 0).ValidateInput 2025 ⟨[], [], [], ["invalid"]⟩
      = .error (.invalidMonthEntry "invalid" (.invalidFormat "invalid")) ∧
    (NewCalculator 0).Calculate defaultStore 2025 ⟨[], [], [], ["invalid"]⟩ "U$S"
      = .error (.invalidMonthEntry "invalid" (.invalidFormat "invalid")) ∧
    ¬∃ r, (NewCalculator 0).Calculate defaultStore 2025 ⟨[], [], [], ["invalid"]⟩ "U$S" = .ok r :=
  ⟨by decide,
    ((Calculate_error_iff (NewCalculator 0) defaultStore 2025 ⟨[], [], [], ["invalid"]⟩ "U$S").1
      _).mpr (by decide),
    fun h => by
      have hv := (Calculate_error_iff (NewCalculator 0) defaultStore 2025
        ⟨[], [], [], ["invalid"]⟩ "U$S").2.mp h
      revert hv
      decide⟩

theorem checkNonNegative_ok_iff (mkErr : Int → Error) (values : List Int) :
    checkNonNegative mkErr values = .ok () ↔ ∀ v ∈ values, 0 ≤ v := by
  induction values with
  | nil => simp [checkNonNegative]
  | cons v rest ih =>
      by_cases hv : v < 0
      · simp only [checkNonNegative, hv, if_true, List.mem_cons, forall_eq_or_imp]
        constructor
        · intro h; simp at h
        · intro h; omega
      · simp only [checkNonNegative, hv, if_false, List.mem_cons, forall_eq_or_imp, ih]
        constructor
        · intro h; exact ⟨by omega, h⟩
        · intro h; exact h.2

theorem checkMonths_ok_iff (now : Int) (months : List String) :
    checkMonths now months = .ok () ↔ ∀ m ∈ months, ∃ info, ParseMonth now m = .ok info := by
  induction months with
  | nil => simp [checkMonths]
  | cons monthStr rest ih =>
      cases hp : ParseMonth now monthStr with
      | error err => simp [checkMonths, hp]
      | ok monthInfo => simp [checkMonths, hp, ih]

/-- Claim C4: ValidateInput succeeds if and only if every element of Hours, Days and Weeks is
at least 0 and ParseMonth succeeds on every string of Months. -/
theorem ValidateInput_ok_iff (c : Calculator) (now : Int) (input : TimeInput) :
    c.ValidateInput now input = .ok () ↔
      (∀ h ∈ input.Hours, 0 ≤ h) ∧ (∀ d ∈ input.Days, 0 ≤ d) ∧ (∀ w ∈ input.Weeks, 0 ≤ w) ∧
        ∀ m ∈ input.Months, ∃ info, ParseMonth now m = .ok info := by
  rw [← checkNonNegative_ok_iff .hoursNegative, ← checkNonNegative_ok_iff .daysNegative,
    ← checkNonNegative_ok_iff .weeksNegative, ← checkMonths_ok_iff]
  unfold Calculator.ValidateInput
  cases h1 : checkNonNegative .hoursNegative input.Hours with
  | error err => simp
  | ok u1 =>
      cases h2 : checkNonNegative .daysNegative input.Days with
      | error err => simp
      | ok u2 =>
          cases h3 : checkNonNegative .weeksNegative input.Weeks with
          | error err => simp
          | ok u3 => simp

/-- Claim C4 at the tested inputs: hours [-5], days [-3], weeks [-1], months ["invalid"] and
months ["13"] are rejected; hours [8,4], days [5,10], weeks [2], months ["01","2024-02"] is
accepted. -/
theorem ValidateInput_ok_iff_witness :
    (NewCalculator 0).ValidateInput 2025 ⟨[-5], [], [], []⟩ ≠ .ok () ∧
    (NewCalculator 0).ValidateInput 2025 ⟨[], [-3], [], []⟩ ≠ .ok () ∧
    (NewCalculator 0).ValidateInput 2025 ⟨[], [], [-1], []⟩ ≠ .ok () ∧
    (NewCalculator 0).ValidateInput 2025 ⟨[], [], [], ["invalid"]⟩ ≠ .ok () ∧
    (NewCalculator 0).ValidateInput 2025 ⟨[], [], [], ["13"]⟩ ≠ .ok () ∧
    (NewCalculator 0).ValidateInput 2025 ⟨[8, 4], [5, 10], [2], ["01", "2024-02"]⟩ = .ok () := by
  refine ⟨?_, ?_, ?_, ?_, ?_, ?_⟩
  · intro h
    have := ((ValidateInput_ok_iff _ _ _).mp h).1
    revert this; decide
  · intro h
    have := ((ValidateInput_ok_iff _ _ _).mp h).2.1
    revert this; decide
  · intro h
    have := ((ValidateInput_ok_iff _ _ _).mp h).2.2.1
    revert this; decide
  · intro h
    obtain ⟨info, hi⟩ := ((ValidateInput_ok_iff _ _ _).mp h).2.2.2 "invalid" (by simp)
    rw [show ParseMonth 2025 "invalid" = .error (.invalidFormat "invalid") from by decide] at hi
    cases hi
  · intro h
    obtain ⟨info, hi⟩ := ((ValidateInput_ok_iff _ _ _).mp h).2.2.2 "13" (by simp)
    rw [show ParseMonth 2025 "13" = .error (.invalidMonth 13) from by decide] at hi
    cases hi
  · refine (ValidateInput_ok_iff _ _ _).mpr ⟨by decide, by decide, by decide, ?_⟩
    intro m hm
    simp only [List.mem_cons, List.mem_singleton, List.not_mem_nil, or_false] at hm
    rcases hm with rfl | rfl
    · exact ⟨_, rfl⟩
    · exact ⟨_, rfl⟩

/-- Claim C5: on four ASCII digits, a '-', and one or two ASCII digits that denote a month
number between 1 and 12, ParseMonth succeeds with Input = the raw input, Year = the number the
four digits denote (whatever the current year), Month = the month number and
Days = GetDaysInMonth(Month, Year). -/
theorem ParseMonth_yearMonth (now : Int) (input : String) (y m : List Char)
    (hform : IsYearMonthForm input y m) (h1 : 1 ≤ decimalValue m) (h12 : decimalValue m ≤ 12) :
    ParseMonth now input =
      .ok { Input := input, Days := GetDaysInMonth (decimalValue m) (decimalValue y),
            Year := decimalValue y, Month := decimalValue m } := by
  rw [ParseMonth_of_yearMonthForm now hform, if_neg]
  omega

/-- Claim C5 at the tested inputs: "2024-02" gives 2024, 2, 29 and "2023-02" gives
2023, 2, 28, with the current year 1999. -/
theorem ParseMonth_yearMonth_witness :
    (IsYearMonthForm "2024-02" ['2', '0', '2', '4'] ['0', '2'] ∧
      ParseMonth 1999 "2024-02" = .ok { Input := "2024-02", Days := 29, Year := 2024, Month := 2 }) ∧
    (IsYearMonthForm "2023-02" ['2', '0', '2', '3'] ['0', '2'] ∧
      ParseMonth 1999 "2023-02"
        = .ok { Input := "2023-02", Days := 28, Year := 2023, Month := 2 }) :=
  ⟨⟨⟨rfl, rfl, by decide, Or.inr rfl, by decide⟩,
      ParseMonth_yearMonth 1999 "2024-02" ['2', '0', '2', '4'] ['0', '2']
        ⟨rfl, rfl, by decide, Or.inr rfl, by decide⟩ (by decide) (by decide)⟩,
    ⟨⟨rfl, rfl, by decide, Or.inr rfl, by decide⟩,
      ParseMonth_yearMonth 1999 "2023-02" ['2', '0', '2', '3'] ['0', '2']
        ⟨rfl, rfl, by decide, Or.inr rfl, by decide⟩ (by decide) (by decide)⟩⟩

/-- Claim C6: ParseMonth returns the invalid-format error exactly on the inputs that have
neither accepted form, the invalid-month error exactly on the inputs of an accepted form whose
month number is outside 1..12 (the error carries that number), no other error, and a result
on every input of an accepted form whose month number is in 1..12. -/
theorem ParseMonth_errors (now : Int) (input : String) :
    ((∃ s, ParseMonth now input = .error (.invalidFormat s)) ↔
      (¬∃ y m, IsYearMonthForm input y m) ∧ ¬∃ m, IsMonthForm input m) ∧
    (∀ k, ParseMonth now input = .error (.invalidMonth k) ↔
      ∃ m, ((∃ y, IsYearMonthForm input y m) ∨ IsMonthForm input m) ∧
        k = decimalValue m ∧ (decimalValue m < 1 ∨ 12 < decimalValue m)) ∧
    (∀ e, ParseMonth now input = .error e →
      e = .invalidFormat input ∨ ∃ k : Int, (k < 1 ∨ 12 < k) ∧ e = .invalidMonth k) ∧
    ((∃ info, ParseMonth now input = .ok info) ↔
      ∃ m, ((∃ y, IsYearMonthForm input y m) ∨ IsMonthForm input m) ∧
        1 ≤ decimalValue m ∧ decimalValue m ≤ 12) := by
  have huniq : ∀ m m', ((∃ y, IsYearMonthForm input y m) ∨ IsMonthForm input m) →
      ((∃ y, IsYearMonthForm input y m') ∨ IsMonthForm input m') → m = m' := by
    intro m m' h h'
    have e1 : ∀ y m, IsYearMonthForm input y m →
        yearMonthRegex input = some (String.mk y, String.mk m) :=
      fun y m h => yearMonthRegex_of_form h
    rcases h with ⟨y, h⟩ | h <;> rcases h' with ⟨y', h'⟩ | h'
    · have := (e1 y m h).symm.trans (e1 y' m' h')
      simp only [Option.some.injEq, Prod.mk.injEq] at this
      exact congrArg String.data this.2
    · have := (e1 y m h).symm.trans (yearMonthRegex_none_of_monthForm h')
      simp at this
    · have := (e1 y' m' h').symm.trans (yearMonthRegex_none_of_monthForm h)
      simp at this
    · exact h.1.symm.trans h'.1
  by_cases hf : ∃ m, (∃ y, IsYearMonthForm input y m) ∨ IsMonthForm input m
  · obtain ⟨m, hm⟩ := hf
    have hval : ∃ year : Int, ParseMonth now input =
        if (decimalValue m : Int) < 1 ∨ (decimalValue m : Int) > 12 then
          .error (.invalidMonth (decimalValue m))
        else
          .ok { Input := input, Days := GetDaysInMonth (decimalValue m) year,
                Year := year, Month := decimalValue m } := by
      rcases hm with ⟨y, h⟩ | h
      · exact ⟨_, ParseMonth_of_yearMonthForm now h⟩
      · exact ⟨_, ParseMonth_of_monthForm now h⟩
    obtain ⟨year, hval⟩ := hval
    have hsome : ¬((¬∃ y m, IsYearMonthForm input y m) ∧ ¬∃ m, IsMonthForm input m) := by
      rintro ⟨n1, n2⟩
      rcases hm with ⟨y, h⟩ | h
      · exact n1 ⟨y, m, h⟩
      · exact n2 ⟨m, h⟩
    by_cases hr : (decimalValue m : Int) < 1 ∨ (decimalValue m : Int) > 12
    · rw [if_pos hr] at hval
      have hr' : decimalValue m < 1 ∨ 12 < decimalValue m := by omega
      refine ⟨?_, ?_, ?_, ?_⟩
      · constructor
        · rintro ⟨s, hs⟩; rw [hval] at hs; cases hs
        · intro h; exact absurd h hsome
      · intro k
        rw [hval]
        constructor
        · intro hk
          simp only [Except.error.injEq, Error.invalidMonth.injEq] at hk
          exact ⟨m, hm, hk.symm, hr'⟩
        · rintro ⟨m', hm', hk, -⟩
          rw [huniq m' m hm' hm] at hk
          rw [hk]
      · intro e he
        rw [hval] at he
        simp only [Except.error.injEq] at he
        exact Or.inr ⟨_, by omega, he.symm⟩
      · rw [hval]
        constructor
        · rintro ⟨info, hi⟩; cases hi
        · rintro ⟨m', hm', h1, h12⟩
          rw [huniq m' m hm' hm] at h1 h12
          omega
    · rw [if_neg hr] at hval
      have hr' : 1 ≤ decimalValue m ∧ decimalValue m ≤ 12 := by omega
      refine ⟨?_, ?_, ?_, ?_⟩
      · constructor
        · rintro ⟨s, hs⟩; rw [hval] at hs; cases hs
        · intro h; exact absurd h hsome
      · intro k
        constructor
        · intro hk; rw [hval] at hk; cases hk
        · rintro ⟨m', hm', -, hk⟩
          rw [huniq m' m hm' hm] at hk
          omega
      · intro e he
        rw [hval] at he; cases he
      · constructor
        · intro _; exact ⟨m, hm, hr'⟩
        · intro _; exact ⟨_, hval⟩
  · have n1 : ¬∃ y m, IsYearMonthForm input y m := fun ⟨y, m, h⟩ => hf ⟨m, Or.inl ⟨y, h⟩⟩
    have n2 : ¬∃ m, IsMonthForm input m := fun ⟨m, h⟩ => hf ⟨m, Or.inr h⟩
    have hval := ParseMonth_of_noForm now n1 n2
    refine ⟨?_, ?_, ?_, ?_⟩
    · rw [hval]
      simp [n1, n2]
    · intro k
      rw [hval]
      constructor
      · intro hk; cases hk
      · rintro ⟨m, hm, -⟩; exact absurd ⟨m, hm⟩ hf
    · intro e he
      rw [hval] at he
      simp only [Except.error.injEq] at he
      exact Or.inl he.symm
    · rw [hval]
      constructor
      · rintro ⟨info, hi⟩; cases hi
      · rintro ⟨m, hm, -⟩; exact absurd ⟨m, hm⟩ hf

/-- Claim C6 at the tested inputs: "invalid" is a format error; "2024-0", "13" and "2024-13"
are month errors. -/
theorem ParseMonth_errors_witness :
    ParseMonth 2025 "invalid" = .error (.invalidFormat "invalid") ∧
    ParseMonth 2025 "2024-0" = .error (.invalidMonth 0) ∧
    ParseMonth 2025 "13" = .error (.invalidMonth 13) ∧
    ParseMonth 2025 "2024-13" = .error (.invalidMonth 13) :=
  ⟨by decide,
    ((ParseMonth_errors 2025 "2024-0").2.1 0).mpr
      ⟨['0'], Or.inl ⟨['2', '0', '2', '4'], rfl, rfl, by decide, Or.inl rfl, by decide⟩,
        by decide, by decide⟩,
    ((ParseMonth_errors 2025 "13").2.1 13).mpr
      ⟨['1', '3'], Or.inr ⟨rfl, Or.inr rfl, by decide⟩, by decide, by decide⟩,
    ((ParseMonth_errors 2025 "2024-13").2.1 13).mpr
      ⟨['1', '3'], Or.inl ⟨['2', '0', '2', '4'], rfl, rfl, by decide, Or.inr rfl, by decide⟩,
        by decide, by decide⟩⟩

/-- Claim C7: on one or two ASCII digits that denote a month number between 1 and 12, and for
every current year, ParseMonth succeeds with Input = the raw input, Year = the current year,
Month = the month number and Days = GetDaysInMonth(Month, current year): the result is
determined by the input and the current year. -/
theorem ParseMonth_month (now : Int) (input : String) (m : List Char)
    (hform : IsMonthForm input m) (h1 : 1 ≤ decimalValue m) (h12 : decimalValue m ≤ 12) :
    ParseMonth now input =
      .ok { Input := input, Days := GetDaysInMonth (decimalValue m) now,
            Year := now, Month := decimalValue m } := by
  rw [ParseMonth_of_monthForm now hform, if_neg]
  omega

/-- Claim C7 at the tested input: "01" read in the year 2031 gives Year 2031, Month 1 and
Days 31. -/
theorem ParseMonth_month_witness :
    IsMonthForm "01" ['0', '1'] ∧
    ParseMonth 2031 "01" = .ok { Input := "01", Days := 31, Year := 2031, Month := 1 } :=
  ⟨⟨rfl, Or.inr rfl, by decide⟩,
    ParseMonth_month 2031 "01" ['0', '1'] ⟨rfl, Or.inr rfl, by decide⟩ (by decide) (by decide)⟩

/-- Claim C8: GetDaysInMonth is 31 for the months 1, 3, 5, 7, 8, 10, 12, 30 for the months
4, 6, 9, 11, 29 for month 2 of a leap year, 28 for month 2 of any other year, and 0 for every
month number outside 1..12, zero and negative numbers included. -/
theorem GetDaysInMonth_table (m y : Int) :
    ((m = 1 ∨ m = 3 ∨ m = 5 ∨ m = 7 ∨ m = 8 ∨ m = 10 ∨ m = 12) → GetDaysInMonth m y = 31) ∧
    ((m = 4 ∨ m = 6 ∨ m = 9 ∨ m = 11) → GetDaysInMonth m y = 30) ∧
    (m = 2 ∧ IsLeapYear y = true → GetDaysInMonth m y = 29) ∧
    (m = 2 ∧ IsLeapYear y = false → GetDaysInMonth m y = 28) ∧
    ((m < 1 ∨ 12 < m) → GetDaysInMonth m y = 0) := by
  refine ⟨?_, ?_, ?_, ?_, ?_⟩
  · intro h
    simp only [GetDaysInMonth, h, if_true]
  · intro h
    have h31 : ¬(m = 1 ∨ m = 3 ∨ m = 5 ∨ m = 7 ∨ m = 8 ∨ m = 10 ∨ m = 12) := by omega
    simp only [GetDaysInMonth, h31, h, if_false, if_true]
  · rintro ⟨rfl, hl⟩
    simp [GetDaysInMonth, hl]
  · rintro ⟨rfl, hl⟩
    simp [GetDaysInMonth, hl]
  · intro h
    have h31 : ¬(m = 1 ∨ m = 3 ∨ m = 5 ∨ m = 7 ∨ m = 8 ∨ m = 10 ∨ m = 12) := by omega
    have h30 : ¬(m = 4 ∨ m = 6 ∨ m = 9 ∨ m = 11) := by omega
    have h2 : ¬(m = 2) := by omega
    simp only [GetDaysInMonth, h31, h30, h2, if_false]

/-- Claim C8 at the tested inputs: (2, 2024) = 29, (2, 2023) = 28, (13, 2024) = 0 and
(0, 2024) = 0. -/
theorem GetDaysInMonth_table_witness :
    GetDaysInMonth 2 2024 = 29 ∧ GetDaysInMonth 2 2023 = 28 ∧ GetDaysInMonth 13 2024 = 0 ∧
      GetDaysInMonth 0 2024 = 0 :=
  ⟨(GetDaysInMonth_table 2 2024).2.2.1 ⟨rfl, by decide⟩,
    (GetDaysInMonth_table 2 2023).2.2.2.1 ⟨rfl, by decide⟩,
    (GetDaysInMonth_table 13 2024).2.2.2.2 (Or.inr (by decide)),
    (GetDaysInMonth_table 0 2024).2.2.2.2 (Or.inl (by decide))⟩

/-- Claim C9: with the remainder of Go (division truncated toward zero), IsLeapYear y holds
if and only if y % 4 == 0 and (y % 100 != 0 or y % 400 == 0), that is if and only if y is
divisible by 4 and either not divisible by 100 or divisible by 400. -/
theorem IsLeapYear_iff (y : Int) :
    (IsLeapYear y = true ↔
      Int.tmod y 4 = 0 ∧ (Int.tmod y 100 ≠ 0 ∨ Int.tmod y 400 = 0)) ∧
    (IsLeapYear y = true ↔ 4 ∣ y ∧ (¬ 100 ∣ y ∨ 400 ∣ y)) := by
  have h : IsLeapYear y = true ↔
      Int.tmod y 4 = 0 ∧ (Int.tmod y 100 ≠ 0 ∨ Int.tmod y 400 = 0) := by
    simp [IsLeapYear, goRem]
  refine ⟨h, ?_⟩
  rw [h, Int.dvd_iff_tmod_eq_zero, Int.dvd_iff_tmod_eq_zero, Int.dvd_iff_tmod_eq_zero]

/-- Claim C9 at the tested years: 2000, 2004 and 2020 are leap years; 1900, 2001 and 2100 are
not. -/
theorem IsLeapYear_iff_witness :
    IsLeapYear 2000 = true ∧ IsLeapYear 2004 = true ∧ IsLeapYear 2020 = true ∧
      IsLeapYear 1900 = false ∧ IsLeapYear 2001 = false ∧ IsLeapYear 2100 = false :=
  ⟨(IsLeapYear_iff 2000).2.mpr ⟨by decide, Or.inr (by decide)⟩,
    (IsLeapYear_iff 2004).2.mpr ⟨by decide, Or.inl (by decide)⟩,
    (IsLeapYear_iff 2020).2.mpr ⟨by decide, Or.inl (by decide)⟩,
    by decide, by decide, by decide⟩

theorem GetDaysInMonth_bounds (m y : Int) (h1 : 1 ≤ m) (h12 : m ≤ 12) :
    28 ≤ GetDaysInMonth m y ∧ GetDaysInMonth m y ≤ 31 := by
  unfold GetDaysInMonth
  split
  · omega
  · split
    · omega
    · split
      · split <;> omega
      · omega

/-- Claim C10: whenever ParseMonth succeeds, the returned MonthInfo has Month in 1..12, Days in
28..31 (the day count of that month and year, never 0) and Input equal to the raw input. -/
theorem ParseMonth_ok_bounds (now : Int) (input : String) (info : MonthInfo)
    (h : ParseMonth now input = .ok info) :
    1 ≤ info.Month ∧ info.Month ≤ 12 ∧ 28 ≤ info.Days ∧ info.Days ≤ 31 ∧
      info.Days = GetDaysInMonth info.Month info.Year ∧ info.Input = input := by
  have key : ∀ (year month : Int),
      (if month < 1 ∨ month > 12 then (.error (.invalidMonth month) : Except Error MonthInfo)
        else .ok { Input := input, Days := GetDaysInMonth month year, Year := year,
                   Month := month }) = .ok info →
      1 ≤ info.Month ∧ info.Month ≤ 12 ∧ 28 ≤ info.Days ∧ info.Days ≤ 31 ∧
        info.Days = GetDaysInMonth info.Month info.Year ∧ info.Input = input := by
    intro year month hk
    by_cases hr : month < 1 ∨ month > 12
    · rw [if_pos hr] at hk; cases hk
    · rw [if_neg hr] at hk
      simp only [Except.ok.injEq] at hk
      subst hk
      have hb := GetDaysInMonth_bounds month year (by omega) (by omega)
      dsimp only
      exact ⟨by omega, by omega, hb.1, hb.2, rfl, rfl⟩
  cases hre : yearMonthRegex input with
  | some ab =>
      obtain ⟨m1, m2⟩ := ab
      cases hy : Atoi m1 with
      | none => simp only [ParseMonth, hre, hy] at h; cases h
      | some year =>
          cases hm : Atoi m2 with
          | none => simp only [ParseMonth, hre, hy, hm] at h; cases h
          | some month => simp only [ParseMonth, hre, hy, hm] at h; exact key year month h
  | none =>
      cases hre2 : monthRegex input with
      | none => simp only [ParseMonth, hre, hre2] at h; cases h
      | some m1 =>
          cases hm : Atoi m1 with
          | none => simp only [ParseMonth, hre, hre2, hm] at h; cases h
          | some month => simp only [ParseMonth, hre, hre2, hm] at h; exact key now month h

/-- Claim C10 at an input: "2024-02" parses to Month 2 and Days 29, within the bounds. -/
theorem ParseMonth_ok_bounds_witness :
    ParseMonth 2025 "2024-02" = .ok { Input := "2024-02", Days := 29, Year := 2024, Month := 2 } ∧
    (1 : Int) ≤ 2 ∧ (2 : Int) ≤ 12 ∧ (28 : Int) ≤ 29 ∧ (29 : Int) ≤ 31 ∧
      (29 : Int) = GetDaysInMonth 2 2024 ∧ "2024-02" = "2024-02" :=
  ⟨by decide,
    ParseMonth_ok_bounds 2025 "2024-02" { Input := "2024-02", Days := 29, Year := 2024, Month := 2 }
      (by decide)⟩

/-! ## What a successful Calculate returns -/

theorem Calculate_ok_iff_validate (c : Calculator) (st : Store) (now : Int) (input : TimeInput)
    (currency : String) :
    (∃ r, c.Calculate st now input currency = .ok r) ↔ c.ValidateInput now input = .ok () := by
  cases hv : c.ValidateInput now input with
  | error err =>
      have hc : c.Calculate st now input currency = .error err := by
        simp only [Calculator.Calculate, hv]
      rw [hc]
      simp
  | ok u =>
      obtain ⟨result, hp⟩ :=
        parseMonths_of_checkMonths now input.Months [] (checkMonths_of_validateInput c now input hv)
      have hc : ∃ r, c.Calculate st now input currency = .ok r := by
        simp only [Calculator.Calculate, hv, hp]
        exact ⟨_, rfl⟩
      simp [hc]

theorem Calculate_ok_fields (c : Calculator) (st : Store) (now : Int) (input : TimeInput)
    (currency : String) (r : CalculationResult)
    (h : c.Calculate st now input currency = .ok r) :
    input.Months.map (ParseMonth now) = r.MonthDetails.map .ok ∧
    r.TotalHours = wrapInt input.Hours.sum ∧ r.TotalDays = wrapInt input.Days.sum ∧
    r.TotalWeeks = wrapInt input.Weeks.sum ∧
    r.TotalTime = wrapInt (input.Hours.sum + input.Days.sum * (st c.config).HoursPerDay
      + input.Weeks.sum * (st c.config).WeeklyHours
      + (r.MonthDetails.map fun m => m.Days * (st c.config).HoursPerDay).sum) ∧
    r.TotalAmount = (r.TotalTime : Rat) * (st c.config).HourlyRate := by
  unfold Calculator.Calculate at h
  cases hv : c.ValidateInput now input with
  | error err => rw [hv] at h; simp at h
  | ok u =>
      rw [hv] at h
      cases hp : parseMonths now input.Months [] with
      | error err => rw [hp] at h; simp at h
      | ok monthDetails =>
          rw [hp] at h
          simp only [Except.ok.injEq] at h
          obtain ⟨infos, h1, h2⟩ := parseMonths_ok now _ _ _ hp
          simp only [List.nil_append] at h1
          subst h1
          subst h
          refine ⟨h2, sumInts_zero _, sumInts_zero _, sumInts_zero _, ?_, rfl⟩
          apply eq_wrapInt_of_modEq (addMonthHours_range _ _ (wrapInt_range _))
          refine (addMonthHours_modEq _ _ _).trans ?_
          refine Int.ModEq.add_right _ ?_
          refine (goAdd_modEq _ _).trans ?_
          have hh := sumInts_modEq input.Hours 0
          have hd := sumInts_modEq input.Days 0
          have hw := sumInts_modEq input.Weeks 0
          simp only [zero_add] at hh hd hw
          refine Int.ModEq.add ?_ ((goMul_modEq _ _).trans (hw.mul_right _))
          refine (goAdd_modEq _ _).trans ?_
          exact Int.ModEq.add hh ((goMul_modEq _ _).trans (hd.mul_right _))

/-- Claim C11: on success MonthDetails has the length of input.Months and its element at
every index is the MonthInfo that ParseMonth returns for the specifier at that index (with the
same current year): one entry per specifier, in input order, duplicates kept. -/
theorem Calculate_monthDetails (c : Calculator) (st : Store) (now : Int) (input : TimeInput)
    (currency : String) (r : CalculationResult)
    (h : c.Calculate st now input currency = .ok r) :
    r.MonthDetails.length = input.Months.length ∧
    ∀ (i : Nat) (hi : i < input.Months.length) (hj : i < r.MonthDetails.length),
      ParseMonth now (input.Months.get ⟨i, hi⟩) = .ok (r.MonthDetails.get ⟨i, hj⟩) := by
  have hmap := (Calculate_ok_fields c st now input currency r h).1
  have hlen : r.MonthDetails.length = input.Months.length := by
    have := congrArg List.length hmap
    simpa using this.symm
  refine ⟨hlen, ?_⟩
  intro i hi hj
  have h1 : (input.Months.map (ParseMonth now))[i]? = (r.MonthDetails.map Except.ok)[i]? := by
    rw [hmap]
  simp only [List.getElem?_map, List.getElem?_eq_getElem hi, List.getElem?_eq_getElem hj,
    Option.map_some', Option.some.injEq] at h1
  simpa using h1

/-- Claim C11 at an input with a repeated specifier: months ["2024-02", "01", "2024-02"] give
three entries, in that order. -/
theorem Calculate_monthDetails_witness :
    ∃ r, (NewCalculator 0).Calculate defaultStore 2025
        ⟨[], [], [], ["2024-02", "01", "2024-02"]⟩ "U$S" = .ok r ∧
      r.MonthDetails = [⟨"2024-02", 29, 2024, 2⟩, ⟨"01", 31, 2025, 1⟩, ⟨"2024-02", 29, 2024, 2⟩] ∧
      r.MonthDetails.length = 3 ∧
      ParseMonth 2025 "01" = .ok ⟨"01", 31, 2025, 1⟩ :=
  ⟨_, rfl, rfl,
    (Calculate_monthDetails (NewCalculator 0) defaultStore 2025
      ⟨[], [], [], ["2024-02", "01", "2024-02"]⟩ "U$S" _ rfl).1,
    (Calculate_monthDetails (NewCalculator 0) defaultStore 2025
      ⟨[], [], [], ["2024-02", "01", "2024-02"]⟩ "U$S" _ rfl).2 1 (by decide) (by decide)⟩

/-! ## The first violation found by ValidateInput -/

theorem checkNonNegative_error (mkErr : Int → Error) (values : List Int) (e : Error)
    (h : checkNonNegative mkErr values = .error e) :
    ∃ pre v post, values = pre ++ v :: post ∧ (∀ x ∈ pre, 0 ≤ x) ∧ v < 0 ∧ e = mkErr v := by
  induction values with
  | nil => simp [checkNonNegative] at h
  | cons v rest ih =>
      by_cases hv : v < 0
      · simp only [checkNonNegative, hv, if_true, Except.error.injEq] at h
        exact ⟨[], v, rest, rfl, by simp, hv, h.symm⟩
      · simp only [checkNonNegative, hv, if_false] at h
        obtain ⟨pre, w, post, h1, h2, h3, h4⟩ := ih h
        refine ⟨v :: pre, w, post, by simp [h1], ?_, h3, h4⟩
        intro x hx
        rcases List.mem_cons.mp hx with rfl | hx
        · omega
        · exact h2 x hx

theorem checkMonths_error (now : Int) (months : List String) (e : Error)
    (h : checkMonths now months = .error e) :
    ∃ pre m post err, months = pre ++ m :: post ∧
      (∀ x ∈ pre, ∃ info, ParseMonth now x = .ok info) ∧
      ParseMonth now m = .error err ∧ e = .invalidMonthEntry m err := by
  induction months with
  | nil => simp [checkMonths] at h
  | cons m rest ih =>
      cases hp : ParseMonth now m with
      | error err =>
          simp only [checkMonths, hp, Except.error.injEq] at h
          exact ⟨[], m, rest, err, rfl, by simp, hp, h.symm⟩
      | ok info =>
          simp only [checkMonths, hp] at h
          obtain ⟨pre, w, post, err, h1, h2, h3, h4⟩ := ih h
          refine ⟨m :: pre, w, post, err, by simp [h1], ?_, h3, h4⟩
          intro x hx
          rcases List.mem_cons.mp hx with rfl | hx
          · exact ⟨info, hp⟩
          · exact h2 x hx

/-- Claim C12: when ValidateInput fails, the error carries the offending value and is the
first violation in the order hours, days, weeks, months: the lowest-index negative element of
Hours if there is one, otherwise that of Days, otherwise that of Weeks, otherwise the
lowest-index string of Months that ParseMonth rejects, with the error of ParseMonth inside. -/
theorem ValidateInput_first_violation (c : Calculator) (now : Int) (input : TimeInput)
    (e : Error) (h : c.ValidateInput now input = .error e) :
    (∃ pre v post, input.Hours = pre ++ v :: post ∧ (∀ x ∈ pre, 0 ≤ x) ∧ v < 0 ∧
      e = .hoursNegative v ∧ e.text = "hours cannot be negative: " ++ toString v) ∨
    ((∀ x ∈ input.Hours, 0 ≤ x) ∧
      ∃ pre v post, input.Days = pre ++ v :: post ∧ (∀ x ∈ pre, 0 ≤ x) ∧ v < 0 ∧
        e = .daysNegative v ∧ e.text = "days cannot be negative: " ++ toString v) ∨
    ((∀ x ∈ input.Hours, 0 ≤ x) ∧ (∀ x ∈ input.Days, 0 ≤ x) ∧
      ∃ pre v post, input.Weeks = pre ++ v :: post ∧ (∀ x ∈ pre, 0 ≤ x) ∧ v < 0 ∧
        e = .weeksNegative v ∧ e.text = "weeks cannot be negative: " ++ toString v) ∨
    ((∀ x ∈ input.Hours, 0 ≤ x) ∧ (∀ x ∈ input.Days, 0 ≤ x) ∧ (∀ x ∈ input.Weeks, 0 ≤ x) ∧
      ∃ pre m post err, input.Months = pre ++ m :: post ∧
        (∀ x ∈ pre, ∃ info, ParseMonth now x = .ok info) ∧ ParseMonth now m = .error err ∧
        e = .invalidMonthEntry m err ∧ e.text = "invalid month '" ++ m ++ "': " ++ err.text) := by
  unfold Calculator.ValidateInput at h
  cases h1 : checkNonNegative .hoursNegative input.Hours with
  | error err =>
      rw [h1] at h
      simp only [Except.error.injEq] at h
      subst h
      obtain ⟨pre, v, post, e1, e2, e3, e4⟩ := checkNonNegative_error _ _ _ h1
      subst e4
      exact Or.inl ⟨pre, v, post, e1, e2, e3, rfl, rfl⟩
  | ok u1 =>
      rw [h1] at h
      have ok1 := (checkNonNegative_ok_iff _ _).mp h1
      cases h2 : checkNonNegative .daysNegative input.Days with
      | error err =>
          rw [h2] at h
          simp only [Except.error.injEq] at h
          subst h
          obtain ⟨pre, v, post, e1, e2, e3, e4⟩ := checkNonNegative_error _ _ _ h2
          subst e4
          exact Or.inr (Or.inl ⟨ok1, pre, v, post, e1, e2, e3, rfl, rfl⟩)
      | ok u2 =>
          rw [h2] at h
          have ok2 := (checkNonNegative_ok_iff _ _).mp h2
          cases h3 : checkNonNegative .weeksNegative input.Weeks with
          | error err =>
              rw [h3] at h
              simp only [Except.error.injEq] at h
              subst h
              obtain ⟨pre, v, post, e1, e2, e3, e4⟩ := checkNonNegative_error _ _ _ h3
              subst e4
              exact Or.inr (Or.inr (Or.inl ⟨ok1, ok2, pre, v, post, e1, e2, e3, rfl, rfl⟩))
          | ok u3 =>
              rw [h3] at h
              have ok3 := (checkNonNegative_ok_iff _ _).mp h3
              obtain ⟨pre, m, post, err, e1, e2, e3, e4⟩ := checkMonths_error _ _ _ h
              subst e4
              exact Or.inr (Or.inr (Or.inr
                ⟨ok1, ok2, ok3, pre, m, post, err, e1, e2, e3, rfl, rfl⟩))

/-- Claim C12 at an input with several violations: hours [3, -5, -7], days [-1] and months
["invalid"] are rejected with the error for the hour -5, the first negative of Hours. -/
theorem ValidateInput_first_violation_witness :
    (NewCalculator 0).ValidateInput 2025 ⟨[3, -5, -7], [-1], [], ["invalid"]⟩
      = .error (.hoursNegative (-5)) ∧
    (Error.hoursNegative (-5)).text = "hours cannot be negative: -5" ∧
    ∃ pre v post, [3, -5, -7] = pre ++ v :: post ∧ (∀ x ∈ pre, (0 : Int) ≤ x) ∧ v < 0 ∧
      Error.hoursNegative (-5) = .hoursNegative v := by
  refine ⟨by decide, by decide, ?_⟩
  have h := ValidateInput_first_violation (NewCalculator 0) 2025
    ⟨[3, -5, -7], [-1], [], ["invalid"]⟩ (.hoursNegative (-5)) (by decide)
  rcases h with ⟨pre, v, post, e1, e2, e3, e4, -⟩ | ⟨ok1, -⟩ | ⟨ok1, -⟩ | ⟨ok1, -⟩
  · exact ⟨pre, v, post, e1, e2, e3, e4⟩
  · exact absurd ok1 (by decide)
  · exact absurd ok1 (by decide)
  · exact absurd ok1 (by decide)

/-! ## The configuration -/

theorem calculateRates_fields (c : BillingConfig) :
    c.calculateRates.MonthlySalary = c.MonthlySalary ∧
    c.calculateRates.WeeklyHours = c.WeeklyHours ∧
    c.calculateRates.WorkDays = c.WorkDays ∧
    c.calculateRates.HoursPerDay = c.HoursPerDay ∧
    c.calculateRates.WeeksPerMonth = c.WeeksPerMonth ∧
    c.calculateRates.DefaultCurrency = c.DefaultCurrency ∧
    c.calculateRates.MonthlyHours = goMul c.WeeklyHours c.WeeksPerMonth ∧
    c.calculateRates.HourlyRate
      = c.MonthlySalary / (goMul c.WeeklyHours c.WeeksPerMonth : Rat) ∧
    c.calculateRates.DailyRate = c.calculateRates.HourlyRate * (c.HoursPerDay : Rat) ∧
    c.calculateRates.WeeklyRate = c.calculateRates.HourlyRate * (c.WeeklyHours : Rat) :=
  ⟨rfl, rfl, rfl, rfl, rfl, rfl, rfl, rfl, rfl, rfl⟩

/-- Claim C13: NewBillingConfig returns MonthlySalary = 2200, WeeklyHours = 40, WorkDays = 5,
HoursPerDay = 8, WeeksPerMonth = 4, DefaultCurrency = "U$S", and the derived MonthlyHours = 160,
HourlyRate = 2200 / (40 * 4) = 13.75, DailyRate = 110 and WeeklyRate = 550. -/
theorem NewBillingConfig_values :
    NewBillingConfig.MonthlySalary = 2200 ∧ NewBillingConfig.WeeklyHours = 40 ∧
    NewBillingConfig.WorkDays = 5 ∧ NewBillingConfig.HoursPerDay = 8 ∧
    NewBillingConfig.WeeksPerMonth = 4 ∧ NewBillingConfig.DefaultCurrency = "U$S" ∧
    NewBillingConfig.MonthlyHours = 160 ∧
    NewBillingConfig.HourlyRate = 2200 / (40 * 4) ∧ NewBillingConfig.HourlyRate = 55 / 4 ∧
    NewBillingConfig.DailyRate = 110 ∧ NewBillingConfig.WeeklyRate = 550 := by
  have hm : NewBillingConfig.MonthlyHours = 160 := by decide
  have hr : NewBillingConfig.HourlyRate = 55 / 4 := by
    norm_num [NewBillingConfig, BillingConfig.calculateRates, goMul, wrapInt]
  have hd : NewBillingConfig.DailyRate = 110 := by
    norm_num [NewBillingConfig, BillingConfig.calculateRates, goMul, wrapInt]
  have hw : NewBillingConfig.WeeklyRate = 550 := by
    norm_num [NewBillingConfig, BillingConfig.calculateRates, goMul, wrapInt]
  refine ⟨rfl, rfl, rfl, rfl, rfl, rfl, hm, ?_, hr, hd, hw⟩
  rw [hr]; norm_num

/-- Claim C14: each of SetMonthlySalary, SetWeeklyHours and SetHoursPerDay returns an error
if and only if its argument is at most 0; the configuration is then left as it was, every
field included; otherwise the targeted base field holds the argument and the other base
fields are unchanged. -/
theorem setters_contract (c : BillingConfig) :
    (∀ v : Rat,
      ((c.SetMonthlySalary v).2 ≠ none ↔ v ≤ 0) ∧
      (v ≤ 0 → (c.SetMonthlySalary v).1 = c) ∧
      (0 < v → (c.SetMonthlySalary v).1.MonthlySalary = v ∧
        (c.SetMonthlySalary v).1.WeeklyHours = c.WeeklyHours ∧
        (c.SetMonthlySalary v).1.WorkDays = c.WorkDays ∧
        (c.SetMonthlySalary v).1.HoursPerDay = c.HoursPerDay ∧
        (c.SetMonthlySalary v).1.WeeksPerMonth = c.WeeksPerMonth ∧
        (c.SetMonthlySalary v).1.DefaultCurrency = c.DefaultCurrency)) ∧
    (∀ v : Int,
      ((c.SetWeeklyHours v).2 ≠ none ↔ v ≤ 0) ∧
      (v ≤ 0 → (c.SetWeeklyHours v).1 = c) ∧
      (0 < v → (c.SetWeeklyHours v).1.WeeklyHours = v ∧
        (c.SetWeeklyHours v).1.MonthlySalary = c.MonthlySalary ∧
        (c.SetWeeklyHours v).1.WorkDays = c.WorkDays ∧
        (c.SetWeeklyHours v).1.HoursPerDay = c.HoursPerDay ∧
        (c.SetWeeklyHours v).1.WeeksPerMonth = c.WeeksPerMonth ∧
        (c.SetWeeklyHours v).1.DefaultCurrency = c.DefaultCurrency)) ∧
    (∀ v : Int,
      ((c.SetHoursPerDay v).2 ≠ none ↔ v ≤ 0) ∧
      (v ≤ 0 → (c.SetHoursPerDay v).1 = c) ∧
      (0 < v → (c.SetHoursPerDay v).1.HoursPerDay = v ∧
        (c.SetHoursPerDay v).1.MonthlySalary = c.MonthlySalary ∧
        (c.SetHoursPerDay v).1.WeeklyHours = c.WeeklyHours ∧
        (c.SetHoursPerDay v).1.WorkDays = c.WorkDays ∧
        (c.SetHoursPerDay v).1.WeeksPerMonth = c.WeeksPerMonth ∧
        (c.SetHoursPerDay v).1.DefaultCurrency = c.DefaultCurrency)) := by
  refine ⟨?_, ?_, ?_⟩
  · intro v
    by_cases hv : v ≤ 0
    · have h0 : ¬ 0 < v := not_lt.mpr hv
      simp [BillingConfig.SetMonthlySalary, hv, h0]
    · have h0 : 0 < v := not_le.mp hv
      simp only [BillingConfig.SetMonthlySalary, hv, if_false, ne_eq, not_true_eq_false,
        false_iff, not_false_eq_true, h0, forall_true_left, true_and, IsEmpty.forall_iff]
      exact ⟨rfl, rfl, rfl, rfl, rfl, rfl⟩
  · intro v
    by_cases hv : v ≤ 0
    · have h0 : ¬ 0 < v := not_lt.mpr hv
      simp [BillingConfig.SetWeeklyHours, hv, h0]
    · have h0 : 0 < v := not_le.mp hv
      simp only [BillingConfig.SetWeeklyHours, hv, if_false, ne_eq, not_true_eq_false,
        false_iff, not_false_eq_true, h0, forall_true_left, true_and, IsEmpty.forall_iff]
      exact ⟨rfl, rfl, rfl, rfl, rfl, rfl⟩
  · intro v
    by_cases hv : v ≤ 0
    · have h0 : ¬ 0 < v := not_lt.mpr hv
      simp [BillingConfig.SetHoursPerDay, hv, h0]
    · have h0 : 0 < v := not_le.mp hv
      simp only [BillingConfig.SetHoursPerDay, hv, if_false, ne_eq, not_true_eq_false,
        false_iff, not_false_eq_true, h0, forall_true_left, true_and, IsEmpty.forall_iff]
      exact ⟨rfl, rfl, rfl, rfl, rfl, rfl⟩

/-- Claim C14 on the default configuration: SetWeeklyHours(0) and SetHoursPerDay(-3) fail and
change nothing; SetWeeklyHours(35) succeeds and sets WeeklyHours to 35, keeping HoursPerDay. -/
theorem setters_contract_witness :
    (NewBillingConfig.SetWeeklyHours 0).2 ≠ none ∧
    (NewBillingConfig.SetWeeklyHours 0).1 = NewBillingConfig ∧
    (NewBillingConfig.SetHoursPerDay (-3)).1 = NewBillingConfig ∧
    (NewBillingConfig.SetWeeklyHours 35).1.WeeklyHours = 35 ∧
    (NewBillingConfig.SetWeeklyHours 35).1.HoursPerDay = NewBillingConfig.HoursPerDay :=
  ⟨((setters_contract NewBillingConfig).2.1 0).1.mpr (by decide),
    ((setters_contract NewBillingConfig).2.1 0).2.1 (by decide),
    ((setters_contract NewBillingConfig).2.2 (-3)).2.1 (by decide),
    (((setters_contract NewBillingConfig).2.1 35).2.2 (by decide)).1,
    (((setters_contract NewBillingConfig).2.1 35).2.2 (by decide)).2.2.2.1⟩

theorem runOps_induction (P : BillingConfig → Prop) (c : BillingConfig) (ops : List ConfigOp)
    (h0 : P c) (hstep : ∀ c op, P c → P (ConfigOp.apply c op)) : P (runOps c ops) := by
  induction ops generalizing c with
  | nil => exact h0
  | cons op rest ih => exact ih (ConfigOp.apply c op) (hstep c op h0)

theorem calculateRates_derived (c : BillingConfig) :
    c.calculateRates.MonthlyHours
        = goMul c.calculateRates.WeeklyHours c.calculateRates.WeeksPerMonth ∧
      c.calculateRates.HourlyRate
        = c.calculateRates.MonthlySalary / (c.calculateRates.MonthlyHours : Rat) ∧
      c.calculateRates.DailyRate
        = c.calculateRates.HourlyRate * (c.calculateRates.HoursPerDay : Rat) ∧
      c.calculateRates.WeeklyRate
        = c.calculateRates.HourlyRate * (c.calculateRates.WeeklyHours : Rat) :=
  ⟨rfl, rfl, rfl, rfl⟩

theorem apply_eq_or_calculateRates (c : BillingConfig) (op : ConfigOp) :
    ConfigOp.apply c op = c ∨ ∃ c', ConfigOp.apply c op = BillingConfig.calculateRates c' := by
  cases op with
  | setMonthlySalary v =>
      by_cases hv : v ≤ 0
      · left; simp [ConfigOp.apply, BillingConfig.SetMonthlySalary, hv]
      · right; exact ⟨{ c with MonthlySalary := v }, by
          simp [ConfigOp.apply, BillingConfig.SetMonthlySalary, hv]⟩
  | setWeeklyHours v =>
      by_cases hv : v ≤ 0
      · left; simp [ConfigOp.apply, BillingConfig.SetWeeklyHours, hv]
      · right; exact ⟨{ c with WeeklyHours := v }, by
          simp [ConfigOp.apply, BillingConfig.SetWeeklyHours, hv]⟩
  | setHoursPerDay v =>
      by_cases hv : v ≤ 0
      · left; simp [ConfigOp.apply, BillingConfig.SetHoursPerDay, hv]
      · right; exact ⟨{ c with HoursPerDay := v }, by
          simp [ConfigOp.apply, BillingConfig.SetHoursPerDay, hv]⟩

theorem runOps_derived (ops : List ConfigOp) :
    (runOps NewBillingConfig ops).MonthlyHours
        = goMul (runOps NewBillingConfig ops).WeeklyHours
            (runOps NewBillingConfig ops).WeeksPerMonth ∧
      (runOps NewBillingConfig ops).HourlyRate
        = (runOps NewBillingConfig ops).MonthlySalary
            / ((runOps NewBillingConfig ops).MonthlyHours : Rat) ∧
      (runOps NewBillingConfig ops).DailyRate
        = (runOps NewBillingConfig ops).HourlyRate
            * ((runOps NewBillingConfig ops).HoursPerDay : Rat) ∧
      (runOps NewBillingConfig ops).WeeklyRate
        = (runOps NewBillingConfig ops).HourlyRate
            * ((runOps NewBillingConfig ops).WeeklyHours : Rat) := by
  refine runOps_induction
    (fun c => c.MonthlyHours = goMul c.WeeklyHours c.WeeksPerMonth ∧
      c.HourlyRate = c.MonthlySalary / (c.MonthlyHours : Rat) ∧
      c.DailyRate = c.HourlyRate * (c.HoursPerDay : Rat) ∧
      c.WeeklyRate = c.HourlyRate * (c.WeeklyHours : Rat)) _ ops ?_ ?_
  · exact calculateRates_derived _
  · intro c op hc
    rcases apply_eq_or_calculateRates c op with h | ⟨c', h⟩
    · rw [h]; exact hc
    · rw [h]; exact calculateRates_derived c'

/-- Claim C15, as the code has it: for the configuration returned by NewBillingConfig and
after any sequence of setter calls, successful or failing, MonthlyHours is
WeeklyHours * WeeksPerMonth reduced to the 64-bit range of Go's int (the exact product
whenever it fits), HourlyRate = MonthlySalary / MonthlyHours whenever MonthlyHours is not 0,
DailyRate = HourlyRate * HoursPerDay and WeeklyRate = HourlyRate * WeeklyHours. -/
theorem derived_fields_consistent (ops : List ConfigOp) (c : BillingConfig)
    (hc : runOps NewBillingConfig ops = c) :
    c.MonthlyHours = wrapInt (c.WeeklyHours * c.WeeksPerMonth) ∧
    (InIntRange (c.WeeklyHours * c.WeeksPerMonth) →
      c.MonthlyHours = c.WeeklyHours * c.WeeksPerMonth) ∧
    (c.MonthlyHours ≠ 0 → c.HourlyRate = c.MonthlySalary / (c.MonthlyHours : Rat)) ∧
    c.DailyRate = c.HourlyRate * (c.HoursPerDay : Rat) ∧
    c.WeeklyRate = c.HourlyRate * (c.WeeklyHours : Rat) := by
  subst hc
  obtain ⟨h1, h2, h3, h4⟩ := runOps_derived ops
  refine ⟨h1, ?_, fun _ => h2, h3, h4⟩
  intro hr
  rw [h1]
  exact wrapInt_of_range hr

/-- Claim C15 as stated fails: after SetWeeklyHours(2305843009213693952), which succeeds,
MonthlyHours is -9223372036854775808 and not WeeklyHours * WeeksPerMonth. -/
theorem derived_fields_overflow :
    (NewBillingConfig.SetWeeklyHours 2305843009213693952).2 = none ∧
    (runOps NewBillingConfig [.setWeeklyHours 2305843009213693952]).MonthlyHours
      = -9223372036854775808 ∧
    (runOps NewBillingConfig [.setWeeklyHours 2305843009213693952]).MonthlyHours
      ≠ (runOps NewBillingConfig [.setWeeklyHours 2305843009213693952]).WeeklyHours
        * (runOps NewBillingConfig [.setWeeklyHours 2305843009213693952]).WeeksPerMonth := by
  refine ⟨by decide, by decide, by decide⟩

/-- Claim C15 after a failing and two successful calls on the default configuration:
SetWeeklyHours(-1), SetWeeklyHours(35), SetMonthlySalary(2800) give MonthlyHours = 35 * 4 and
HourlyRate = 2800 / 140 = 20. -/
theorem derived_fields_consistent_witness :
    (runOps NewBillingConfig
        [.setWeeklyHours (-1), .setWeeklyHours 35, .setMonthlySalary 2800]).MonthlyHours
      = 35 * 4 ∧
    (runOps NewBillingConfig
        [.setWeeklyHours (-1), .setWeeklyHours 35, .setMonthlySalary 2800]).HourlyRate = 20 := by
  have h := derived_fields_consistent
    [.setWeeklyHours (-1), .setWeeklyHours 35, .setMonthlySalary 2800] _ rfl
  have hp : ¬((2800 : Rat) ≤ 0) := by norm_num
  have hw : (runOps NewBillingConfig
      [.setWeeklyHours (-1), .setWeeklyHours 35, .setMonthlySalary 2800]).WeeklyHours = 35 := by
    simp [runOps, ConfigOp.apply, BillingConfig.SetWeeklyHours, BillingConfig.SetMonthlySalary,
      hp, BillingConfig.calculateRates]
  have hk : (runOps NewBillingConfig
      [.setWeeklyHours (-1), .setWeeklyHours 35, .setMonthlySalary 2800]).WeeksPerMonth = 4 := by
    simp [runOps, ConfigOp.apply, BillingConfig.SetWeeklyHours, BillingConfig.SetMonthlySalary,
      hp, BillingConfig.calculateRates, NewBillingConfig]
  have hs : (runOps NewBillingConfig
      [.setWeeklyHours (-1), .setWeeklyHours 35, .setMonthlySalary 2800]).MonthlySalary
      = 2800 := by
    simp [runOps, ConfigOp.apply, BillingConfig.SetWeeklyHours, BillingConfig.SetMonthlySalary,
      hp, BillingConfig.calculateRates]
  have hm := h.2.1 (by rw [hw, hk]; decide)
  rw [hw, hk] at hm
  refine ⟨hm, ?_⟩
  rw [h.2.2.1 (by rw [hm]; decide), hm, hs]
  norm_num

theorem NewBillingConfig_positive :
    0 < NewBillingConfig.MonthlySalary ∧ 0 < NewBillingConfig.WeeklyHours ∧
      0 < NewBillingConfig.HoursPerDay ∧ 0 < NewBillingConfig.WorkDays ∧
      0 < NewBillingConfig.WeeksPerMonth ∧ NewBillingConfig.DefaultCurrency ≠ "" := by
  refine ⟨?_, by decide, by decide, by decide, by decide, by decide⟩
  show (0 : Rat) < 2200
  norm_num

theorem Store_SetMonthlySalary_ok (st0 st : Store) (p : ConfigPtr) (v : Rat)
    (hset : st0.SetMonthlySalary p v = (st, none)) :
    0 < v ∧ st p = BillingConfig.calculateRates { st0 p with MonthlySalary := v } := by
  have h1 := congrArg Prod.fst hset
  have h2 := congrArg Prod.snd hset
  simp only [Store.SetMonthlySalary] at h1 h2
  have hpos : ¬ v ≤ 0 := by
    intro hle
    simp [BillingConfig.SetMonthlySalary, hle] at h2
  refine ⟨not_le.mp hpos, ?_⟩
  rw [← h1]
  simp [BillingConfig.SetMonthlySalary, hpos]

/-- Claim C18, as the code has it: CalculateQuickRates returns exactly the keys hourly, daily,
weekly and monthly with the current HourlyRate, DailyRate, WeeklyRate and MonthlySalary; after
a successful SetMonthlySalary(v) on a configuration satisfying the positivity invariant these
are v / MonthlyHours, hourly * HoursPerDay, hourly * WeeklyHours and v, where MonthlyHours is
WeeklyHours * WeeksPerMonth in Go's 64-bit int, provided MonthlyHours is not 0; when
WeeklyHours * WeeksPerMonth fits in 64 bits, hourly = v / (WeeklyHours * WeeksPerMonth). -/
theorem QuickRates_after_SetMonthlySalary (st0 st : Store) (c : Calculator) (v : Rat)
    (currency : String)
    (hpos : 0 < (st0 c.config).MonthlySalary ∧ 0 < (st0 c.config).WeeklyHours ∧
      0 < (st0 c.config).HoursPerDay ∧ 0 < (st0 c.config).WorkDays ∧
      0 < (st0 c.config).WeeksPerMonth ∧ (st0 c.config).DefaultCurrency ≠ "")
    (hset : st0.SetMonthlySalary c.config v = (st, none)) :
    c.CalculateQuickRates st currency
      = [("hourly", (st c.config).HourlyRate), ("daily", (st c.config).DailyRate),
          ("weekly", (st c.config).WeeklyRate), ("monthly", (st c.config).MonthlySalary)] ∧
    (goMul (st0 c.config).WeeklyHours (st0 c.config).WeeksPerMonth ≠ 0 →
      c.CalculateQuickRates st currency
        = [("hourly", v / (goMul (st0 c.config).WeeklyHours (st0 c.config).WeeksPerMonth : Rat)),
            ("daily", v / (goMul (st0 c.config).WeeklyHours (st0 c.config).WeeksPerMonth : Rat)
              * ((st0 c.config).HoursPerDay : Rat)),
            ("weekly", v / (goMul (st0 c.config).WeeklyHours (st0 c.config).WeeksPerMonth : Rat)
              * ((st0 c.config).WeeklyHours : Rat)),
            ("monthly", v)]) ∧
    (InIntRange ((st0 c.config).WeeklyHours * (st0 c.config).WeeksPerMonth) →
      0 < (st0 c.config).WeeklyHours * (st0 c.config).WeeksPerMonth ∧
      c.CalculateQuickRates st currency
        = [("hourly", v / (((st0 c.config).WeeklyHours * (st0 c.config).WeeksPerMonth : Int) : Rat)),
            ("daily", v / (((st0 c.config).WeeklyHours * (st0 c.config).WeeksPerMonth : Int) : Rat)
              * ((st0 c.config).HoursPerDay : Rat)),
            ("weekly", v / (((st0 c.config).WeeklyHours * (st0 c.config).WeeksPerMonth : Int) : Rat)
              * ((st0 c.config).WeeklyHours : Rat)),
            ("monthly", v)]) := by
  obtain ⟨-, hst⟩ := Store_SetMonthlySalary_ok st0 st c.config v hset
  have hmap : c.CalculateQuickRates st currency
      = [("hourly", v / (goMul (st0 c.config).WeeklyHours (st0 c.config).WeeksPerMonth : Rat)),
          ("daily", v / (goMul (st0 c.config).WeeklyHours (st0 c.config).WeeksPerMonth : Rat)
            * ((st0 c.config).HoursPerDay : Rat)),
          ("weekly", v / (goMul (st0 c.config).WeeklyHours (st0 c.config).WeeksPerMonth : Rat)
            * ((st0 c.config).WeeklyHours : Rat)),
          ("monthly", v)] := by
    simp only [Calculator.CalculateQuickRates, hst]
    rfl
  refine ⟨rfl, fun _ => hmap, ?_⟩
  intro hr
  refine ⟨Int.mul_pos hpos.2.1 hpos.2.2.2.2.1, ?_⟩
  rw [hmap]
  have hw : goMul (st0 c.config).WeeklyHours (st0 c.config).WeeksPerMonth
      = (st0 c.config).WeeklyHours * (st0 c.config).WeeksPerMonth := wrapInt_of_range hr
  rw [hw]

/-- Claim C18 as stated fails: on a configuration with WeeklyHours = 2305843009213693952, which
satisfies the positivity invariant, SetMonthlySalary(2200) succeeds and CalculateQuickRates
then gives the negative hourly rate 2200 / (-9223372036854775808), not
2200 / (WeeklyHours * WeeksPerMonth). -/
theorem QuickRates_overflow :
    ∃ st, Store.SetMonthlySalary
        (fun _ => runOps NewBillingConfig [.setWeeklyHours 2305843009213693952]) 0 2200
        = (st, none) ∧
      0 < (runOps NewBillingConfig [.setWeeklyHours 2305843009213693952]).WeeklyHours ∧
      0 < (runOps NewBillingConfig [.setWeeklyHours 2305843009213693952]).WeeksPerMonth ∧
      List.lookup "hourly" ((NewCalculator 0).CalculateQuickRates st "U$S")
        = some (2200 / ((-9223372036854775808 : Int) : Rat)) ∧
      List.lookup "hourly" ((NewCalculator 0).CalculateQuickRates st "U$S")
        ≠ some (2200 / ((2305843009213693952 * 4 : Int) : Rat)) := by
  have hp : ¬((2200 : Rat) ≤ 0) := by norm_num
  have hset : Store.SetMonthlySalary
      (fun _ => runOps NewBillingConfig [.setWeeklyHours 2305843009213693952]) 0 2200
      = (Function.update (fun _ => runOps NewBillingConfig [.setWeeklyHours 2305843009213693952])
          0 (BillingConfig.calculateRates
            { runOps NewBillingConfig [.setWeeklyHours 2305843009213693952] with
              MonthlySalary := 2200 }), none) := by
    simp only [Store.SetMonthlySalary, BillingConfig.SetMonthlySalary, hp, if_false]
  have hm : goMul (runOps NewBillingConfig [.setWeeklyHours 2305843009213693952]).WeeklyHours
      (runOps NewBillingConfig [.setWeeklyHours 2305843009213693952]).WeeksPerMonth
      = -9223372036854775808 := by decide
  have hlook : List.lookup "hourly" ((NewCalculator 0).CalculateQuickRates
      (Function.update (fun _ => runOps NewBillingConfig [.setWeeklyHours 2305843009213693952])
          0 (BillingConfig.calculateRates
            { runOps NewBillingConfig [.setWeeklyHours 2305843009213693952] with
              MonthlySalary := 2200 })) "U$S")
      = some (2200 / ((-9223372036854775808 : Int) : Rat)) := by
    simp only [Calculator.CalculateQuickRates, NewCalculator, Function.update_same,
      (calculateRates_fields _).2.2.2.2.2.2.2.1, hm]
    rfl
  refine ⟨_, hset, by decide, by decide, hlook, ?_⟩
  rw [hlook]
  norm_num

/-- Claim C18 on the default configuration: after SetMonthlySalary(4400) the quick rates are
hourly 27.5, daily 220, weekly 1100 and monthly 4400. -/
theorem QuickRates_after_SetMonthlySalary_witness :
    ∃ st, defaultStore.SetMonthlySalary 0 4400 = (st, none) ∧
      (NewCalculator 0).CalculateQuickRates st "EUR"
        = [("hourly", 55 / 2), ("daily", 220), ("weekly", 1100), ("monthly", 4400)] := by
  have hset : defaultStore.SetMonthlySalary 0 4400
      = (Function.update defaultStore 0
          (BillingConfig.calculateRates { NewBillingConfig with MonthlySalary := 4400 }), none) := by
    have hpos : ¬((4400 : Rat) ≤ 0) := by norm_num
    simp [Store.SetMonthlySalary, BillingConfig.SetMonthlySalary, defaultStore, hpos]
  refine ⟨_, hset, ?_⟩
  rw [((QuickRates_after_SetMonthlySalary defaultStore _ (NewCalculator 0) 4400 "EUR"
    NewBillingConfig_positive hset).2.2 (by decide)).2]
  norm_num [defaultStore, NewCalculator, NewBillingConfig, BillingConfig.calculateRates]

/-! ## Order of the inputs -/

theorem ValidateInput_ok_iff_checks (c : Calculator) (now : Int) (input : TimeInput) :
    c.ValidateInput now input = .ok () ↔
      (∀ h ∈ input.Hours, 0 ≤ h) ∧ (∀ d ∈ input.Days, 0 ≤ d) ∧ (∀ w ∈ input.Weeks, 0 ≤ w) ∧
        ∀ m ∈ input.Months, ∃ info, ParseMonth now m = .ok info := by
  rw [← checkNonNegative_ok_iff .hoursNegative, ← checkNonNegative_ok_iff .daysNegative,
    ← checkNonNegative_ok_iff .weeksNegative, ← checkMonths_ok_iff]
  unfold Calculator.ValidateInput
  cases h1 : checkNonNegative .hoursNegative input.Hours with
  | error err => simp
  | ok u1 =>
      cases h2 : checkNonNegative .daysNegative input.Days with
      | error err => simp
      | ok u2 =>
          cases h3 : checkNonNegative .weeksNegative input.Weeks with
          | error err => simp
          | ok u3 => simp

theorem monthHours_sum_eq (now hoursPerDay : Int) (months : List String)
    (details : List MonthInfo) (h : months.map (ParseMonth now) = details.map .ok) :
    (details.map fun m => m.Days * hoursPerDay).sum
      = (months.map fun s =>
          match ParseMonth now s with
          | .ok m => m.Days * hoursPerDay
          | .error _ => 0).sum := by
  have h1 : (details.map fun m => m.Days * hoursPerDay)
      = (details.map (Except.ok : MonthInfo → Except Error MonthInfo)).map fun x =>
          match x with
          | .ok m => m.Days * hoursPerDay
          | .error _ => 0 := by
    simp [List.map_map, Function.comp_def]
  rw [h1, ← h, List.map_map]
  rfl

/-- Claim C19: when the Hours, Days, Weeks and Months of two inputs are permutations of each
other, Calculate succeeds on one if and only if it succeeds on the other, and on success
TotalHours, TotalDays, TotalWeeks, TotalTime and TotalAmount are the same in both results. -/
theorem Calculate_perm (c : Calculator) (st : Store) (now : Int) (input1 input2 : TimeInput)
    (currency : String) (hh : input1.Hours.Perm input2.Hours)
    (hd : input1.Days.Perm input2.Days) (hw : input1.Weeks.Perm input2.Weeks)
    (hm : input1.Months.Perm input2.Months) :
    ((∃ r, c.Calculate st now input1 currency = .ok r) ↔
      ∃ r, c.Calculate st now input2 currency = .ok r) ∧
    ∀ r1 r2, c.Calculate st now input1 currency = .ok r1 →
      c.Calculate st now input2 currency = .ok r2 →
      r1.TotalHours = r2.TotalHours ∧ r1.TotalDays = r2.TotalDays ∧
        r1.TotalWeeks = r2.TotalWeeks ∧ r1.TotalTime = r2.TotalTime ∧
        r1.TotalAmount = r2.TotalAmount := by
  constructor
  · rw [Calculate_ok_iff_validate, Calculate_ok_iff_validate, ValidateInput_ok_iff_checks,
      ValidateInput_ok_iff_checks]
    simp only [hh.mem_iff, hd.mem_iff, hw.mem_iff, hm.mem_iff]
  · intro r1 r2 h1 h2
    obtain ⟨a1, a2, a3, a4, a5, a6⟩ := Calculate_ok_fields c st now input1 currency r1 h1
    obtain ⟨b1, b2, b3, b4, b5, b6⟩ := Calculate_ok_fields c st now input2 currency r2 h2
    have sh : input1.Hours.sum = input2.Hours.sum := hh.sum_eq
    have sd : input1.Days.sum = input2.Days.sum := hd.sum_eq
    have sw : input1.Weeks.sum = input2.Weeks.sum := hw.sum_eq
    have sm : (r1.MonthDetails.map fun m => m.Days * (st c.config).HoursPerDay).sum
        = (r2.MonthDetails.map fun m => m.Days * (st c.config).HoursPerDay).sum := by
      rw [monthHours_sum_eq now _ _ _ a1, monthHours_sum_eq now _ _ _ b1]
      exact (hm.map _).sum_eq
    have ht : r1.TotalTime = r2.TotalTime := by rw [a5, b5, sh, sd, sw, sm]
    refine ⟨by rw [a2, b2, sh], by rw [a3, b3, sd], by rw [a4, b4, sw], ht, ?_⟩
    rw [a6, b6, ht]

/-- Claim C19 at two inputs that differ by the order of their elements: both succeed with
TotalTime = 637. -/
theorem Calculate_perm_witness :
    ∃ r1 r2,
      (NewCalculator 0).Calculate defaultStore 2025
        ⟨[4, 9], [3, 1], [1, 2], ["2024-01", "02"]⟩ "U$S" = .ok r1 ∧
      (NewCalculator 0).Calculate defaultStore 2025
        ⟨[9, 4], [1, 3], [2, 1], ["02", "2024-01"]⟩ "U$S" = .ok r2 ∧
      r1.TotalTime = 637 ∧ r1.TotalTime = r2.TotalTime ∧ r1.TotalAmount = r2.TotalAmount :=
  ⟨_, _, rfl, rfl, rfl,
    ((Calculate_perm (NewCalculator 0) defaultStore 2025
        ⟨[4, 9], [3, 1], [1, 2], ["2024-01", "02"]⟩ ⟨[9, 4], [1, 3], [2, 1], ["02", "2024-01"]⟩
        "U$S" (by decide) (by decide) (by decide) (by decide)).2 _ _ rfl rfl).2.2.2.1,
    ((Calculate_perm (NewCalculator 0) defaultStore 2025
        ⟨[4, 9], [3, 1], [1, 2], ["2024-01", "02"]⟩ ⟨[9, 4], [1, 3], [2, 1], ["02", "2024-01"]⟩
        "U$S" (by decide) (by decide) (by decide) (by decide)).2 _ _ rfl rfl).2.2.2.2⟩

/-! ## Lists of characters and of integers -/

theorem take3_of_starts {x w : List Char} (hx : 3 ≤ x.length) (h : x <+: w) :
    w.take 3 = x.take 3 := by
  obtain ⟨t, rfl⟩ := h
  exact List.take_append_of_le_length hx

theorem mem_ite_singleton {p : Prop} [Decidable p] (a w : String) :
    w ∈ (if p then [a] else []) ↔ p ∧ w = a := by
  by_cases hp : p <;> simp [hp]

theorem sum_nonneg_of_forall {values : List Int} (h : ∀ v ∈ values, 0 ≤ v) : 0 ≤ values.sum :=
  List.sum_nonneg h

/-! ## Formatting -/

theorem formatFloat2_of_cents (x : Rat) (n : Nat) (h : x * 100 = (n : Rat)) :
    formatFloat2 x = toString (n / 100) ++ "." ++ toString (n % 100 / 10) ++ toString (n % 10) := by
  have hx : 0 ≤ x := by
    have h0 : (0 : Rat) ≤ x * 100 := by rw [h]; exact Nat.cast_nonneg n
    have h100 : (0 : Rat) < 100 := by norm_num
    exact nonneg_of_mul_nonneg_left h0 h100
  have habs : |x| * 100 = (n : Rat) := by rw [abs_of_nonneg hx, h]
  have hfl : Rat.floor (n : Rat) = (n : Int) := by
    have h1 : (⌊(n : Rat)⌋ : Int) = (n : Int) := Int.floor_natCast n
    exact h1
  have hneg : ¬ x < 0 := not_lt.mpr hx
  simp only [formatFloat2, habs, hfl, Int.toNat_ofNat, sub_self, hneg, if_false]
  norm_num

/-! ## The rates table -/

theorem contains_join_of_mem {ws : List String} {w : String} (hw : w ∈ ws) :
    Contains (String.join ws) w := by
  unfold Contains
  rw [String.data_join]
  obtain ⟨pre, post, rfl⟩ := List.append_of_mem hw
  refine ⟨(pre.map String.data).flatten, (post.map String.data).flatten, ?_⟩
  simp

set_option maxRecDepth 100000 in
theorem FormatRates_default_EUR :
    (NewCalculator 0).FormatRates defaultStore "EUR"
      = "=== TABLA DE TARIFAS ===\n\nConfiguración base:\n  Salario mensual: EUR 2200.00\n"
        ++ "  Horas semanales: 40\n  Días laborales: 5\n  Horas por día: 8\n  Moneda: EUR\n"
        ++ "\nTarifas calculadas:\n  Por hora: EUR 13.75\n  Por día: EUR 110.00\n"
        ++ "  Por semana: EUR 550.00\n  Por mes: EUR 2200.00\n\n" := by
  have hs : formatFloat2 (2200 : Rat) = "2200.00" := by
    rw [formatFloat2_of_cents 2200 220000 (by norm_num)]; decide
  have hh : formatFloat2 (55 / 4 : Rat) = "13.75" := by
    rw [formatFloat2_of_cents (55 / 4) 1375 (by norm_num)]; decide
  have hd : formatFloat2 (110 : Rat) = "110.00" := by
    rw [formatFloat2_of_cents 110 11000 (by norm_num)]; decide
  have hw : formatFloat2 (550 : Rat) = "550.00" := by
    rw [formatFloat2_of_cents 550 55000 (by norm_num)]; decide
  have e1 : NewBillingConfig.MonthlySalary = 2200 := rfl
  have e2 : NewBillingConfig.HourlyRate = 55 / 4 := by
    norm_num [NewBillingConfig, BillingConfig.calculateRates, goMul, wrapInt]
  have e3 : NewBillingConfig.DailyRate = 110 := by
    norm_num [NewBillingConfig, BillingConfig.calculateRates, goMul, wrapInt]
  have e4 : NewBillingConfig.WeeklyRate = 550 := by
    norm_num [NewBillingConfig, BillingConfig.calculateRates, goMul, wrapInt]
  simp only [Calculator.FormatRates, Calculator.formatRatesWrites, defaultStore, e1, e2, e3, e4,
    hs, hh, hd, hw]
  decide

set_option maxRecDepth 100000 in
/-- Claim C23 evaluated at the tested currency "EUR": the output of FormatRates on the default
configuration contains every substring the test expects except the header
"=== TABLA DE TARIFAS FIMAL ===", which it does not contain; its header is
"=== TABLA DE TARIFAS ===". -/
theorem FormatRates_test_substrings :
    ¬Contains ((NewCalculator 0).FormatRates defaultStore "EUR")
      "=== TABLA DE TARIFAS FIMAL ===" ∧
    Contains ((NewCalculator 0).FormatRates defaultStore "EUR") "=== TABLA DE TARIFAS ===" ∧
    Contains ((NewCalculator 0).FormatRates defaultStore "EUR") "Configuración base:" ∧
    Contains ((NewCalculator 0).FormatRates defaultStore "EUR") "Salario mensual: EUR 2200.00" ∧
    Contains ((NewCalculator 0).FormatRates defaultStore "EUR") "Horas semanales: 40" ∧
    Contains ((NewCalculator 0).FormatRates defaultStore "EUR") "Días laborales: 5" ∧
    Contains ((NewCalculator 0).FormatRates defaultStore "EUR") "Horas por día: 8" ∧
    Contains ((NewCalculator 0).FormatRates defaultStore "EUR") "Moneda: EUR" ∧
    Contains ((NewCalculator 0).FormatRates defaultStore "EUR") "Tarifas calculadas:" ∧
    Contains ((NewCalculator 0).FormatRates defaultStore "EUR") "Por hora: EUR" ∧
    Contains ((NewCalculator 0).FormatRates defaultStore "EUR") "Por día: EUR" ∧
    Contains ((NewCalculator 0).FormatRates defaultStore "EUR") "Por semana: EUR" ∧
    Contains ((NewCalculator 0).FormatRates defaultStore "EUR") "Por mes: EUR" := by
  rw [FormatRates_default_EUR]
  refine ⟨by decide, by decide, by decide, by decide, by decide, by decide, by decide,
    by decide, by decide, by decide, by decide, by decide, by decide⟩

/-- Claim C24, as the code has it: "2024-02" denotes February 2024 with 29 days, 2024 being a
leap year: ParseMonth succeeds with Days = 29 whatever the current year, so Calculate on
months ["2024-02"] with the default configuration bills 29 * 8 = 232 hours. -/
theorem ParseMonth_2024_02 (now : Int) :
    ParseMonth now "2024-02" = .ok { Input := "2024-02", Days := 29, Year := 2024, Month := 2 } ∧
    IsLeapYear 2024 = true ∧
    ∃ r, (NewCalculator 0).Calculate defaultStore now ⟨[], [], [], ["2024-02"]⟩ "U$S" = .ok r ∧
      r.TotalTime = 29 * 8 ∧ r.TotalTime = 232 := by
  have hp : ParseMonth now "2024-02"
      = .ok { Input := "2024-02", Days := 29, Year := 2024, Month := 2 } := by
    rw [@ParseMonth_of_yearMonthForm now "2024-02" ['2', '0', '2', '4'] ['0', '2']
      ⟨rfl, rfl, by decide, Or.inr rfl, by decide⟩]
    decide
  refine ⟨hp, by decide, ?_⟩
  have hc : (NewCalculator 0).Calculate defaultStore now ⟨[], [], [], ["2024-02"]⟩ "U$S"
      = .ok { MonthDetails := [{ Input := "2024-02", Days := 29, Year := 2024, Month := 2 }]
              TotalWeeks := 0
              TotalDays := 0
              TotalHours := 0
              TotalTime := 232
              TotalAmount := ((232 : Int) : Rat) * (defaultStore 0).HourlyRate
              Currency := "U$S" } := by
    simp only [Calculator.Calculate, Calculator.ValidateInput, checkNonNegative, checkMonths,
      parseMonths, hp]
    rfl
  exact ⟨_, hc, by decide, rfl⟩

/-- Claim C24 as stated fails: ParseMonth gives 29 days for "2024-02", not the 28 of the help
text, and Calculate bills 232 hours, not 224. -/
theorem ParseMonth_2024_02_not_28 :
    (∃ info, ParseMonth 2025 "2024-02" = .ok info ∧ info.Days = 29 ∧ info.Days ≠ 28) ∧
    ∃ r, (NewCalculator 0).Calculate defaultStore 2025 ⟨[], [], [], ["2024-02"]⟩ "U$S" = .ok r ∧
      r.TotalTime = 232 ∧ r.TotalTime ≠ 224 :=
  ⟨⟨_, rfl, rfl, by decide⟩, ⟨_, rfl, rfl, by decide⟩⟩

theorem sectionHours_printed (config : BillingConfig) (result : CalculationResult) :
    (result.MonthDetails.length > 0 →
      monthsLine config result
        = "  Meses: " ++ ", ".intercalate (monthParts result.MonthDetails) ++ " = "
          ++ formatInt (totalMonthDays result.MonthDetails) ++ " días × "
          ++ formatInt config.HoursPerDay ++ " horas = "
          ++ formatInt (monthsSectionHours config result) ++ " horas\n") ∧
    (result.TotalWeeks > 0 →
      weeksLine config result
        = "  Semanas: " ++ formatInt result.TotalWeeks ++ " × " ++ formatInt config.WeeklyHours
          ++ " horas = " ++ formatInt (weeksSectionHours config result) ++ " horas\n") ∧
    (result.TotalDays > 0 →
      daysLine config result
        = "  Días: " ++ formatInt result.TotalDays ++ " × " ++ formatInt config.HoursPerDay
          ++ " horas = " ++ formatInt (daysSectionHours config result) ++ " horas\n") ∧
    (result.TotalHours > 0 →
      hoursLine result
        = "  Horas adicionales: " ++ formatInt (hoursSectionHours result) ++ " horas\n") := by
  refine ⟨?_, ?_, ?_, ?_⟩
  · intro h; simp only [monthsLine, monthsSectionHours, h, if_true]
  · intro h; simp only [weeksLine, weeksSectionHours, h, if_true]
  · intro h; simp only [daysLine, daysSectionHours, h, if_true]
  · intro h; simp only [hoursLine, hoursSectionHours, h, if_true]

/-! ## The breakdown of FormatResult and the total -/

theorem foldl_days_modEq (details : List MonthInfo) (total : Int) :
    details.foldl (fun acc monthInfo => goAdd acc monthInfo.Days) total
      ≡ total + (details.map fun m => m.Days).sum [ZMOD 18446744073709551616] := by
  induction details generalizing total with
  | nil => simp
  | cons m rest ih =>
      simp only [List.foldl_cons, List.map_cons, List.sum_cons]
      refine (ih _).trans ?_
      have := (goAdd_modEq total m.Days).add_right (rest.map fun m => m.Days).sum
      rw [add_assoc] at this
      exact this

theorem monthsSectionHours_modEq (config : BillingConfig) (result : CalculationResult) :
    monthsSectionHours config result
      ≡ (result.MonthDetails.map fun m => m.Days * config.HoursPerDay).sum
        [ZMOD 18446744073709551616] := by
  unfold monthsSectionHours
  by_cases hlen : result.MonthDetails.length > 0
  · rw [if_pos hlen, List.sum_map_mul_right]
    refine (goMul_modEq _ _).trans (Int.ModEq.mul_right _ ?_)
    have := foldl_days_modEq result.MonthDetails 0
    simpa [totalMonthDays] using this
  · have hnil : result.MonthDetails = [] := by
      cases hd : result.MonthDetails with
      | nil => rfl
      | cons a b => rw [hd] at hlen; simp at hlen
    rw [if_neg hlen, hnil]
    simp

theorem sectionHours_of_nonneg (total factor : Int) (h : 0 ≤ total) :
    (if total > 0 then goMul total factor else 0) ≡ total * factor
      [ZMOD 18446744073709551616] := by
  by_cases hp : total > 0
  · rw [if_pos hp]
    exact goMul_modEq _ _
  · have h0 : total = 0 := by omega
    rw [if_neg hp, h0]
    simp

/-- Claim C25, as the code has it: for a result returned by a successful Calculate on an input
whose sums of hours, days and weeks fit in the 64-bit range of Go's int, the hour figures that
FormatResult computes for its sections with the same configuration (an omitted section
counting as 0) add up to TotalTime modulo 2^64, and exactly to TotalTime whenever their sum
fits in that range. -/
theorem breakdown_sums_to_total (c : Calculator) (st : Store) (now : Int) (input : TimeInput)
    (currency : String) (r : CalculationResult)
    (h : c.Calculate st now input currency = .ok r)
    (hh : InIntRange input.Hours.sum) (hd : InIntRange input.Days.sum)
    (hw : InIntRange input.Weeks.sum) :
    monthsSectionHours (st c.config) r + weeksSectionHours (st c.config) r
        + daysSectionHours (st c.config) r + hoursSectionHours r
      ≡ r.TotalTime [ZMOD 18446744073709551616] ∧
    (InIntRange (monthsSectionHours (st c.config) r + weeksSectionHours (st c.config) r
        + daysSectionHours (st c.config) r + hoursSectionHours r) →
      monthsSectionHours (st c.config) r + weeksSectionHours (st c.config) r
        + daysSectionHours (st c.config) r + hoursSectionHours r = r.TotalTime) := by
  obtain ⟨-, a2, a3, a4, a5, -⟩ := Calculate_ok_fields c st now input currency r h
  have hv := (Calculate_ok_iff_validate c st now input currency).mp ⟨r, h⟩
  obtain ⟨v1, v2, v3, -⟩ := (ValidateInput_ok_iff_checks c now input).mp hv
  have s1 := sum_nonneg_of_forall v1
  have s2 := sum_nonneg_of_forall v2
  have s3 := sum_nonneg_of_forall v3
  rw [wrapInt_of_range hh] at a2
  rw [wrapInt_of_range hd] at a3
  rw [wrapInt_of_range hw] at a4
  have e1 := monthsSectionHours_modEq (st c.config) r
  have e2 : weeksSectionHours (st c.config) r ≡ input.Weeks.sum * (st c.config).WeeklyHours
      [ZMOD 18446744073709551616] := by
    unfold weeksSectionHours
    rw [a4]
    exact sectionHours_of_nonneg _ _ s3
  have e3 : daysSectionHours (st c.config) r ≡ input.Days.sum * (st c.config).HoursPerDay
      [ZMOD 18446744073709551616] := by
    unfold daysSectionHours
    rw [a3]
    exact sectionHours_of_nonneg _ _ s2
  have e4 : hoursSectionHours r = input.Hours.sum := by
    unfold hoursSectionHours
    rw [a2]
    split <;> omega
  have hsum : monthsSectionHours (st c.config) r + weeksSectionHours (st c.config) r
      + daysSectionHours (st c.config) r + hoursSectionHours r
      ≡ input.Hours.sum + input.Days.sum * (st c.config).HoursPerDay
        + input.Weeks.sum * (st c.config).WeeklyHours
        + (r.MonthDetails.map fun m => m.Days * (st c.config).HoursPerDay).sum
        [ZMOD 18446744073709551616] := by
    rw [e4]
    have := ((e1.add e2).add e3).add_right input.Hours.sum
    refine this.trans ?_
    have hre : (r.MonthDetails.map fun m => m.Days * (st c.config).HoursPerDay).sum
        + input.Weeks.sum * (st c.config).WeeklyHours
        + input.Days.sum * (st c.config).HoursPerDay + input.Hours.sum
        = input.Hours.sum + input.Days.sum * (st c.config).HoursPerDay
          + input.Weeks.sum * (st c.config).WeeklyHours
          + (r.MonthDetails.map fun m => m.Days * (st c.config).HoursPerDay).sum := by ring
    rw [hre]
  constructor
  · rw [a5]
    exact hsum.trans (wrapInt_modEq _).symm
  · intro hr
    rw [a5]
    exact eq_wrapInt_of_modEq hr hsum

/-- Claim C25 as stated fails: Calculate succeeds on hours [9223372036854775807, 1] with
TotalTime = -9223372036854775808, while every section of FormatResult is omitted for that
result, so the breakdown adds up to 0. -/
theorem breakdown_overflow :
    ∃ r, (NewCalculator 0).Calculate defaultStore 2025
        ⟨[9223372036854775807, 1], [], [], []⟩ "U$S" = .ok r ∧
      r.TotalTime = -9223372036854775808 ∧
      monthsSectionHours (defaultStore 0) r + weeksSectionHours (defaultStore 0) r
        + daysSectionHours (defaultStore 0) r + hoursSectionHours r = 0 ∧
      monthsSectionHours (defaultStore 0) r + weeksSectionHours (defaultStore 0) r
        + daysSectionHours (defaultStore 0) r + hoursSectionHours r ≠ r.TotalTime :=
  ⟨_, rfl, rfl, by decide, by decide⟩

/-- Claim C25 at the spec's example: hours [4], days [3], weeks [1], months ["2024-01"] give
the figures 248, 40, 24 and 4, which add up to TotalTime = 316. -/
theorem breakdown_sums_to_total_witness :
    ∃ r, (NewCalculator 0).Calculate defaultStore 2025 ⟨[4], [3], [1], ["2024-01"]⟩ "U$S" = .ok r ∧
      monthsSectionHours (defaultStore 0) r = 248 ∧ weeksSectionHours (defaultStore 0) r = 40 ∧
      daysSectionHours (defaultStore 0) r = 24 ∧ hoursSectionHours r = 4 ∧ r.TotalTime = 316 ∧
      monthsSectionHours (defaultStore 0) r + weeksSectionHours (defaultStore 0) r
        + daysSectionHours (defaultStore 0) r + hoursSectionHours r = r.TotalTime :=
  ⟨_, rfl, by decide, by decide, by decide, by decide, rfl,
    (breakdown_sums_to_total (NewCalculator 0) defaultStore 2025 ⟨[4], [3], [1], ["2024-01"]⟩
      "U$S" _ rfl (by decide) (by decide) (by decide)).2 (by decide)⟩

/-! # The program over binary64 -/

/-! ## binary64: rounding and the conversion of integers -/

theorem pow2_eq_zpow (k : Int) : pow2 k = (2 : Rat) ^ k := by
  unfold pow2
  by_cases hk : 0 ≤ k
  · rw [if_pos hk]
    obtain ⟨n, rfl⟩ := Int.eq_ofNat_of_zero_le hk
    simp
  · rw [if_neg hk]
    have hk2 : 0 ≤ -k := by omega
    obtain ⟨n, hn⟩ := Int.eq_ofNat_of_zero_le hk2
    have hk3 : k = -(n : Int) := by omega
    subst hk3
    simp

theorem roundHalfEven_natCast (n : Nat) : roundHalfEven (n : Rat) = n := by
  have hfl : Rat.floor (n : Rat) = (n : Int) := by
    have h1 : (⌊(n : Rat)⌋ : Int) = (n : Int) := Int.floor_natCast n
    exact h1
  simp only [roundHalfEven, hfl, Int.toNat_ofNat, sub_self]
  norm_num

theorem log2Aux_eq (fuel n : Nat) (h : n ≤ fuel) : log2Aux fuel n = Nat.log2 n := by
  induction fuel generalizing n with
  | zero =>
      have hn : n = 0 := by omega
      subst hn
      rw [Nat.log2]
      simp [log2Aux]
  | succ fuel ih =>
      rw [Nat.log2]
      by_cases h2 : 2 ≤ n
      · have hle : n / 2 ≤ fuel := by omega
        simp [log2Aux, h2, ih (n / 2) hle]
      · simp [log2Aux, h2]

theorem natLog2_eq (n : Nat) : natLog2 n = Nat.log2 n := log2Aux_eq n n (Nat.le_refl n)

theorem floorLog2_natCast (m : Nat) (hm : m ≠ 0) : floorLog2 (m : Rat) = (Nat.log2 m : Int) := by
  have h1 : 2 ^ Nat.log2 m ≤ m := Nat.log2_self_le hm
  have h2 : pow2 ((Nat.log2 m : Int) - (Nat.log2 1 : Int)) ≤ (m : Rat) := by
    have h0 : Nat.log2 1 = 0 := by decide!
    rw [h0, pow2_eq_zpow]
    simp only [Nat.cast_zero, sub_zero, zpow_natCast]
    exact_mod_cast h1
  simp only [floorLog2, Rat.num_natCast, Int.natAbs_ofNat, Rat.den_natCast, natLog2_eq]
  rw [if_pos h2]
  have h0 : Nat.log2 1 = 0 := by decide!
  rw [h0]; simp
theorem natLog2_bounds (n : Nat) (hn : n ≠ 0) : 2 ^ natLog2 n ≤ n ∧ n < 2 ^ (natLog2 n + 1) := by
  rw [natLog2_eq]
  exact ⟨Nat.log2_self_le hn, Nat.lt_log2_self⟩

theorem floorLog2_spec (q : Rat) (hq : 0 < q) :
    pow2 (floorLog2 q) ≤ q ∧ q < pow2 (floorLog2 q + 1) := by
  have hnum : 0 < q.num := Rat.num_pos.mpr hq
  have ha0 : q.num.natAbs ≠ 0 := by omega
  have hb0 : q.den ≠ 0 := q.den_nz
  obtain ⟨a1, a2⟩ := natLog2_bounds q.num.natAbs ha0
  obtain ⟨b1, b2⟩ := natLog2_bounds q.den hb0
  have hqe : q = (q.num.natAbs : Rat) / (q.den : Rat) := by
    have h1 : ((q.num.natAbs : Nat) : Rat) = (q.num : Rat) := by
      rw [Nat.cast_natAbs, abs_of_pos hnum]
    rw [h1]
    exact (Rat.num_div_den q).symm
  have hbpos : (0 : Rat) < (q.den : Rat) := by exact_mod_cast Nat.pos_of_ne_zero hb0
  have A1 : ((2 : Rat) ^ natLog2 q.num.natAbs) ≤ (q.num.natAbs : Rat) := by exact_mod_cast a1
  have A2 : (q.num.natAbs : Rat) < (2 : Rat) ^ (natLog2 q.num.natAbs + 1) := by exact_mod_cast a2
  have B1 : ((2 : Rat) ^ natLog2 q.den) ≤ (q.den : Rat) := by exact_mod_cast b1
  have B2 : (q.den : Rat) < (2 : Rat) ^ (natLog2 q.den + 1) := by exact_mod_cast b2
  have hup : q < pow2 ((natLog2 q.num.natAbs : Int) - (natLog2 q.den : Int) + 1) := by
    rw [pow2_eq_zpow]
    refine lt_of_eq_of_lt hqe ?_
    rw [div_lt_iff₀ hbpos]
    have e : ((natLog2 q.num.natAbs : Int) - (natLog2 q.den : Int) + 1)
        = ((natLog2 q.num.natAbs + 1 : Nat) : Int) - ((natLog2 q.den : Nat) : Int) := by
      push_cast; ring
    rw [e, zpow_sub₀ (by norm_num : (2 : Rat) ≠ 0), zpow_natCast, zpow_natCast]
    have hp : (0 : Rat) < (2 : Rat) ^ natLog2 q.den := by positivity
    calc (q.num.natAbs : Rat) < (2 : Rat) ^ (natLog2 q.num.natAbs + 1) := A2
      _ = (2 : Rat) ^ (natLog2 q.num.natAbs + 1) / (2 : Rat) ^ natLog2 q.den
            * (2 : Rat) ^ natLog2 q.den := by field_simp
      _ ≤ (2 : Rat) ^ (natLog2 q.num.natAbs + 1) / (2 : Rat) ^ natLog2 q.den * (q.den : Rat) := by
            apply mul_le_mul_of_nonneg_left B1
            positivity
  have hlow : pow2 ((natLog2 q.num.natAbs : Int) - (natLog2 q.den : Int) - 1) ≤ q := by
    rw [pow2_eq_zpow]
    refine le_of_le_of_eq ?_ hqe.symm
    rw [le_div_iff₀ hbpos]
    have e : ((natLog2 q.num.natAbs : Int) - (natLog2 q.den : Int) - 1)
        = ((natLog2 q.num.natAbs : Nat) : Int) - ((natLog2 q.den + 1 : Nat) : Int) := by
      push_cast; ring
    rw [e, zpow_sub₀ (by norm_num : (2 : Rat) ≠ 0), zpow_natCast, zpow_natCast]
    have hp : (0 : Rat) < (2 : Rat) ^ (natLog2 q.den + 1) := by positivity
    calc (2 : Rat) ^ natLog2 q.num.natAbs / (2 : Rat) ^ (natLog2 q.den + 1) * (q.den : Rat)
        ≤ (2 : Rat) ^ natLog2 q.num.natAbs / (2 : Rat) ^ (natLog2 q.den + 1)
            * (2 : Rat) ^ (natLog2 q.den + 1) := by
            apply mul_le_mul_of_nonneg_left (le_of_lt B2)
            positivity
      _ = (2 : Rat) ^ natLog2 q.num.natAbs := by field_simp
      _ ≤ (q.num.natAbs : Rat) := A1
  simp only [floorLog2]
  split
  · rename_i h
    exact ⟨h, hup⟩
  · rename_i h
    refine ⟨hlow, ?_⟩
    rw [sub_add_cancel]
    exact not_le.mp h

theorem roundHalfEven_spec (q : Rat) (hq : 0 ≤ q) :
    |(roundHalfEven q : Rat) - q| ≤ 1 / 2 := by
  have hfl : Rat.floor q = ⌊q⌋ := rfl
  have h0 : 0 ≤ ⌊q⌋ := Int.floor_nonneg.mpr hq
  have hcast : (((Rat.floor q).toNat : Nat) : Rat) = ((⌊q⌋ : Int) : Rat) := by
    rw [hfl]
    have : (((⌊q⌋).toNat : Nat) : Int) = ⌊q⌋ := Int.toNat_of_nonneg h0
    exact_mod_cast this
  have h1 : ((⌊q⌋ : Int) : Rat) ≤ q := Int.floor_le q
  have h2 : q < ((⌊q⌋ : Int) : Rat) + 1 := Int.lt_floor_add_one q
  simp only [roundHalfEven]
  split
  · rename_i h
    rw [hcast] at h ⊢
    rw [abs_le]
    constructor <;> linarith
  · split
    · rename_i h h'
      rw [hcast] at h h'
      push_cast
      rw [hcast, abs_le]
      constructor <;> linarith
    · rename_i h h'
      rw [hcast] at h h'
      have he : q - ((⌊q⌋ : Int) : Rat) = 1 / 2 := le_antisymm (not_lt.mp h') (not_lt.mp h)
      split
      · rw [hcast, abs_le]
        constructor <;> linarith
      · push_cast
        rw [hcast, abs_le]
        constructor <;> linarith

theorem round_natCast (neg : Bool) (m : Nat) (hm0 : m ≠ 0) (hm : m ≤ 9007199254740992) :
    Float64.round neg (m : Rat) = .fin (if neg then -(m : Rat) else (m : Rat)) := by
  have hmq : (m : Rat) ≠ 0 := by exact_mod_cast hm0
  have hL : Nat.log2 m < 54 := by
    rw [Nat.log2_lt hm0]
    omega
  have he : max (floorLog2 (m : Rat)) (-1022) = (Nat.log2 m : Int) := by
    rw [floorLog2_natCast m hm0]
    omega
  have hr : ((roundHalfEven ((m : Rat) / pow2 ((Nat.log2 m : Int) - 52)) : Nat) : Rat)
      * pow2 ((Nat.log2 m : Int) - 52) = (m : Rat) := by
    by_cases h52 : Nat.log2 m ≤ 52
    · have hd : (m : Rat) / pow2 ((Nat.log2 m : Int) - 52)
          = ((m * 2 ^ (52 - Nat.log2 m) : Nat) : Rat) := by
        rw [pow2_eq_zpow]
        have e1 : ((Nat.log2 m : Int) - 52) = -((52 - Nat.log2 m : Nat) : Int) := by omega
        rw [e1, zpow_neg, zpow_natCast]
        push_cast
        field_simp
      rw [hd, roundHalfEven_natCast, pow2_eq_zpow]
      have e1 : ((Nat.log2 m : Int) - 52) = -((52 - Nat.log2 m : Nat) : Int) := by omega
      rw [e1, zpow_neg, zpow_natCast]
      push_cast
      field_simp
    · have h53 : Nat.log2 m = 53 := by omega
      have hge : 2 ^ Nat.log2 m ≤ m := Nat.log2_self_le hm0
      rw [h53] at hge
      have hm53 : m = 9007199254740992 := by omega
      subst hm53
      rw [h53]
      have hp : pow2 (((53 : Nat) : Int) - 52) = 2 := by decide!
      rw [hp]
      have hq : ((9007199254740992 : Nat) : Rat) / 2 = ((4503599627370496 : Nat) : Rat) := by
        norm_num
      rw [hq, roundHalfEven_natCast]
      norm_num
  have hbig : ¬ pow2 1024 ≤ (m : Rat) := by
    rw [pow2_eq_zpow]
    have h1 : (m : Rat) ≤ 9007199254740992 := by exact_mod_cast hm
    have h2 : (9007199254740992 : Rat) < (2 : Rat) ^ (1024 : Int) := by norm_num
    intro h
    linarith
  simp only [Float64.round, hmq, if_false, he, hr, hbig]

theorem ofInt_exact (n : Int) (hn : |n| ≤ 9007199254740992) : Float64.ofInt n = .fin (n : Rat) := by
  by_cases h0 : n = 0
  · subst h0
    decide!
  · have hm0 : n.natAbs ≠ 0 := by omega
    have hm : n.natAbs ≤ 9007199254740992 := by
      have : (n.natAbs : Int) = |n| := Int.natCast_natAbs n
      omega
    unfold Float64.ofInt
    rw [round_natCast _ _ hm0 hm]
    by_cases hneg : n < 0
    · have e : ((n.natAbs : Nat) : Rat) = -(n : Rat) := by
        rw [Nat.cast_natAbs, abs_of_neg hneg]
        simp
      simp [hneg, e]
    · have e : ((n.natAbs : Nat) : Rat) = (n : Rat) := by
        rw [Nat.cast_natAbs, abs_of_nonneg (not_lt.mp hneg)]
      simp [hneg, e]

/-! ## binary64: comparisons with zero -/

theorem leZero_eq_false_iff (x : Float64) (hx : x ≠ .nan) :
    x.leZero = false ↔ x.isPos = true := by
  cases x with
  | nan => exact absurd rfl hx
  | inf neg => cases neg <;> simp [Float64.leZero, Float64.isPos]
  | negZero => simp [Float64.leZero, Float64.isPos]
  | fin q => simp [Float64.leZero, Float64.isPos]

theorem isPos_leZero (x : Float64) (h : x.isPos = true) : x.leZero = false := by
  cases x with
  | nan => simp [Float64.isPos] at h
  | inf neg => cases neg <;> simp_all [Float64.leZero, Float64.isPos]
  | negZero => simp [Float64.isPos] at h
  | fin q =>
      simp only [Float64.isPos, decide_eq_true_eq] at h
      simp [Float64.leZero, h]

/-! ## The configuration over binary64 -/

theorem ieee_runOps_induction (P : IEEE.BillingConfig → Prop) (Q : IEEE.ConfigOp → Prop)
    (c : IEEE.BillingConfig) (ops : List IEEE.ConfigOp) (h0 : P c)
    (hq : ∀ op ∈ ops, Q op)
    (hstep : ∀ c op, Q op → P c → P (IEEE.ConfigOp.apply c op)) : P (IEEE.runOps c ops) := by
  induction ops generalizing c with
  | nil => exact h0
  | cons op rest ih =>
      exact ih (IEEE.ConfigOp.apply c op) (hstep c op (hq op (List.mem_cons_self _ _)) h0)
        (fun o ho => hq o (List.mem_cons_of_mem _ ho))

theorem ieee_Validate_of_positive (c : IEEE.BillingConfig) (h1 : c.MonthlySalary.leZero = false)
    (h2 : 0 < c.WeeklyHours) (h3 : 0 < c.HoursPerDay) (h4 : 0 < c.WorkDays)
    (h5 : 0 < c.WeeksPerMonth) (h6 : c.DefaultCurrency ≠ "") : c.Validate = (c, none) := by
  simp [IEEE.BillingConfig.Validate, h1, not_le.mpr h2, not_le.mpr h3, not_le.mpr h4,
    not_le.mpr h5, h6]

theorem ieee_apply_positive (c : IEEE.BillingConfig) (op : IEEE.ConfigOp)
    (hop : op ≠ .setMonthlySalary .nan)
    (h : c.MonthlySalary.isPos = true ∧ 0 < c.WeeklyHours ∧ 0 < c.HoursPerDay ∧ 0 < c.WorkDays ∧
      0 < c.WeeksPerMonth ∧ c.DefaultCurrency ≠ "" ∧
      c.MonthlyHours = goMul c.WeeklyHours c.WeeksPerMonth) :
    (IEEE.ConfigOp.apply c op).MonthlySalary.isPos = true ∧
      0 < (IEEE.ConfigOp.apply c op).WeeklyHours ∧
      0 < (IEEE.ConfigOp.apply c op).HoursPerDay ∧ 0 < (IEEE.ConfigOp.apply c op).WorkDays ∧
      0 < (IEEE.ConfigOp.apply c op).WeeksPerMonth ∧
      (IEEE.ConfigOp.apply c op).DefaultCurrency ≠ "" ∧
      (IEEE.ConfigOp.apply c op).MonthlyHours
        = goMul (IEEE.ConfigOp.apply c op).WeeklyHours (IEEE.ConfigOp.apply c op).WeeksPerMonth := by
  obtain ⟨h1, h2, h3, h4, h5, h6, h7⟩ := h
  cases op with
  | setMonthlySalary v =>
      cases hv : v.leZero with
      | true =>
          simp only [IEEE.ConfigOp.apply, IEEE.BillingConfig.SetMonthlySalary, hv, if_true]
          exact ⟨h1, h2, h3, h4, h5, h6, h7⟩
      | false =>
          have hvn : v ≠ .nan := fun e => hop (by rw [e])
          simp only [IEEE.ConfigOp.apply, IEEE.BillingConfig.SetMonthlySalary, hv]
          exact ⟨(leZero_eq_false_iff v hvn).mp hv, h2, h3, h4, h5, h6, rfl⟩
  | setWeeklyHours v =>
      by_cases hv : v ≤ 0
      · simp only [IEEE.ConfigOp.apply, IEEE.BillingConfig.SetWeeklyHours, hv, if_true]
        exact ⟨h1, h2, h3, h4, h5, h6, h7⟩
      · simp only [IEEE.ConfigOp.apply, IEEE.BillingConfig.SetWeeklyHours, hv, if_false]
        exact ⟨h1, not_le.mp hv, h3, h4, h5, h6, rfl⟩
  | setHoursPerDay v =>
      by_cases hv : v ≤ 0
      · simp only [IEEE.ConfigOp.apply, IEEE.BillingConfig.SetHoursPerDay, hv, if_true]
        exact ⟨h1, h2, h3, h4, h5, h6, h7⟩
      · simp only [IEEE.ConfigOp.apply, IEEE.BillingConfig.SetHoursPerDay, hv, if_false]
        exact ⟨h1, h2, not_le.mp hv, h4, h5, h6, rfl⟩

theorem ieee_NewBillingConfig_positive :
    IEEE.NewBillingConfig.MonthlySalary.isPos = true ∧ 0 < IEEE.NewBillingConfig.WeeklyHours ∧
      0 < IEEE.NewBillingConfig.HoursPerDay ∧ 0 < IEEE.NewBillingConfig.WorkDays ∧
      0 < IEEE.NewBillingConfig.WeeksPerMonth ∧ IEEE.NewBillingConfig.DefaultCurrency ≠ "" ∧
      IEEE.NewBillingConfig.MonthlyHours
        = goMul IEEE.NewBillingConfig.WeeklyHours IEEE.NewBillingConfig.WeeksPerMonth := by
  refine ⟨?_, by decide, by decide, by decide, by decide, by decide, rfl⟩
  show Float64.isPos (.fin 2200) = true
  simp [Float64.isPos]

/-- Claim C16, as the code has it: the configuration returned by NewBillingConfig and every
configuration reached from it by setter calls with arbitrary arguments, a NaN salary apart,
has MonthlySalary > 0, WeeklyHours > 0, HoursPerDay > 0, WorkDays > 0, WeeksPerMonth > 0 and a
non-empty DefaultCurrency, so Validate succeeds on it; MonthlyHours is positive whenever
WeeklyHours * WeeksPerMonth fits in the 64-bit range of Go's int. -/
theorem positivity_invariant (ops : List IEEE.ConfigOp) (c : IEEE.BillingConfig)
    (hc : IEEE.runOps IEEE.NewBillingConfig ops = c)
    (hnan : ∀ op ∈ ops, op ≠ .setMonthlySalary .nan) :
    c.MonthlySalary.isPos = true ∧ 0 < c.WeeklyHours ∧ 0 < c.HoursPerDay ∧ 0 < c.WorkDays ∧
      0 < c.WeeksPerMonth ∧ c.DefaultCurrency ≠ "" ∧ c.Validate = (c, none) ∧
      (InIntRange (c.WeeklyHours * c.WeeksPerMonth) → 0 < c.MonthlyHours) := by
  subst hc
  have hp := ieee_runOps_induction
    (fun c => c.MonthlySalary.isPos = true ∧ 0 < c.WeeklyHours ∧ 0 < c.HoursPerDay ∧
      0 < c.WorkDays ∧ 0 < c.WeeksPerMonth ∧ c.DefaultCurrency ≠ "" ∧
      c.MonthlyHours = goMul c.WeeklyHours c.WeeksPerMonth)
    (fun op => op ≠ .setMonthlySalary .nan) IEEE.NewBillingConfig ops
    ieee_NewBillingConfig_positive hnan ieee_apply_positive
  obtain ⟨h1, h2, h3, h4, h5, h6, h7⟩ := hp
  refine ⟨h1, h2, h3, h4, h5, h6,
    ieee_Validate_of_positive _ (isPos_leZero _ h1) h2 h3 h4 h5 h6, ?_⟩
  intro hr
  rw [h7]
  show 0 < wrapInt _
  rw [wrapInt_of_range hr]
  exact Int.mul_pos h2 h5

/-- Claim C16 as stated fails twice. SetWeeklyHours(4611686018427387904) succeeds on the
default configuration and leaves MonthlyHours = 0, the divisor of HourlyRate, which becomes
the positive infinity. SetMonthlySalary(NaN) succeeds as well, NaN <= 0 being false, and
stores a salary that is not greater than 0, on which Validate still succeeds. -/
theorem positivity_fails :
    (IEEE.NewBillingConfig.SetWeeklyHours 4611686018427387904).2 = none ∧
    (IEEE.runOps IEEE.NewBillingConfig [.setWeeklyHours 4611686018427387904]).MonthlyHours = 0 ∧
    (IEEE.runOps IEEE.NewBillingConfig [.setWeeklyHours 4611686018427387904]).HourlyRate
      = .inf false ∧
    0 < (IEEE.runOps IEEE.NewBillingConfig [.setWeeklyHours 4611686018427387904]).WeeklyHours ∧
    0 < (IEEE.runOps IEEE.NewBillingConfig [.setWeeklyHours 4611686018427387904]).WeeksPerMonth ∧
    (IEEE.NewBillingConfig.SetMonthlySalary .nan).2 = none ∧
    (IEEE.runOps IEEE.NewBillingConfig [.setMonthlySalary .nan]).MonthlySalary = .nan ∧
    (IEEE.runOps IEEE.NewBillingConfig [.setMonthlySalary .nan]).MonthlySalary.isPos = false ∧
    (IEEE.runOps IEEE.NewBillingConfig [.setMonthlySalary .nan]).Validate.2 = none := by
  refine ⟨by decide!, by decide!, by decide!, by decide!, by decide!, by decide!, by decide!,
    by decide!, by decide!⟩

/-- Claim C16 after SetMonthlySalary(-5), SetHoursPerDay(0), SetWeeklyHours(35): the fields
stay positive and Validate succeeds. -/
theorem positivity_invariant_witness :
    (IEEE.runOps IEEE.NewBillingConfig
      [.setMonthlySalary (.fin (-5)), .setHoursPerDay 0, .setWeeklyHours 35]).Validate.2 = none ∧
    (IEEE.runOps IEEE.NewBillingConfig
      [.setMonthlySalary (.fin (-5)), .setHoursPerDay 0, .setWeeklyHours 35]).MonthlySalary.isPos
      = true ∧
    0 < (IEEE.runOps IEEE.NewBillingConfig
      [.setMonthlySalary (.fin (-5)), .setHoursPerDay 0, .setWeeklyHours 35]).HoursPerDay :=
  ⟨congrArg Prod.snd (positivity_invariant
      [.setMonthlySalary (.fin (-5)), .setHoursPerDay 0, .setWeeklyHours 35] _ rfl
      (by decide)).2.2.2.2.2.2.1,
    (positivity_invariant
      [.setMonthlySalary (.fin (-5)), .setHoursPerDay 0, .setWeeklyHours 35] _ rfl
      (by decide)).1,
    (positivity_invariant
      [.setMonthlySalary (.fin (-5)), .setHoursPerDay 0, .setWeeklyHours 35] _ rfl
      (by decide)).2.2.1⟩

/-- Claim C17, as the code has it: for a configuration whose MonthlySalary is not NaN,
Validate succeeds if and only if MonthlySalary, WeeklyHours, HoursPerDay, WorkDays and
WeeksPerMonth are greater than 0 and DefaultCurrency is non-empty; when it fails the error is
the one of the first violated condition in that order; it never changes the configuration,
whatever the salary. -/
theorem Validate_contract (c : IEEE.BillingConfig) :
    c.Validate.1 = c ∧
    (c.MonthlySalary ≠ .nan →
      (c.Validate.2 = none ↔
        c.MonthlySalary.isPos = true ∧ 0 < c.WeeklyHours ∧ 0 < c.HoursPerDay ∧ 0 < c.WorkDays ∧
          0 < c.WeeksPerMonth ∧ c.DefaultCurrency ≠ "") ∧
      (c.MonthlySalary.isPos = false → c.Validate.2 = some .monthlySalaryInvalid)) ∧
    (c.MonthlySalary.isPos = true → c.WeeklyHours ≤ 0 →
      c.Validate.2 = some .weeklyHoursInvalid) ∧
    (c.MonthlySalary.isPos = true → 0 < c.WeeklyHours → c.HoursPerDay ≤ 0 →
      c.Validate.2 = some .hoursPerDayInvalid) ∧
    (c.MonthlySalary.isPos = true → 0 < c.WeeklyHours → 0 < c.HoursPerDay → c.WorkDays ≤ 0 →
      c.Validate.2 = some .workDaysInvalid) ∧
    (c.MonthlySalary.isPos = true → 0 < c.WeeklyHours → 0 < c.HoursPerDay → 0 < c.WorkDays →
      c.WeeksPerMonth ≤ 0 → c.Validate.2 = some .weeksPerMonthInvalid) ∧
    (c.MonthlySalary.isPos = true → 0 < c.WeeklyHours → 0 < c.HoursPerDay → 0 < c.WorkDays →
      0 < c.WeeksPerMonth → c.DefaultCurrency = "" →
      c.Validate.2 = some .defaultCurrencyEmpty) := by
  refine ⟨?_, ?_, ?_, ?_, ?_, ?_, ?_⟩
  · unfold IEEE.BillingConfig.Validate
    repeat' split
    all_goals rfl
  · intro hnan
    constructor
    · constructor
      · intro h
        unfold IEEE.BillingConfig.Validate at h
        cases h1 : c.MonthlySalary.leZero with
        | true => simp [h1] at h
        | false =>
            by_cases h2 : c.WeeklyHours ≤ 0
            · simp [h1, h2] at h
            by_cases h3 : c.HoursPerDay ≤ 0
            · simp [h1, h2, h3] at h
            by_cases h4 : c.WorkDays ≤ 0
            · simp [h1, h2, h3, h4] at h
            by_cases h5 : c.WeeksPerMonth ≤ 0
            · simp [h1, h2, h3, h4, h5] at h
            by_cases h6 : c.DefaultCurrency = ""
            · simp [h1, h2, h3, h4, h5, h6] at h
            exact ⟨(leZero_eq_false_iff _ hnan).mp h1, not_le.mp h2, not_le.mp h3,
              not_le.mp h4, not_le.mp h5, h6⟩
      · rintro ⟨h1, h2, h3, h4, h5, h6⟩
        rw [ieee_Validate_of_positive c (isPos_leZero _ h1) h2 h3 h4 h5 h6]
    · intro h1
      have hle : c.MonthlySalary.leZero = true := by
        cases hl : c.MonthlySalary.leZero with
        | true => rfl
        | false => rw [(leZero_eq_false_iff _ hnan).mp hl] at h1; exact absurd h1 (by decide)
      simp [IEEE.BillingConfig.Validate, hle]
  · intro h1 h2
    simp [IEEE.BillingConfig.Validate, isPos_leZero _ h1, h2]
  · intro h1 h2 h3
    simp [IEEE.BillingConfig.Validate, isPos_leZero _ h1, not_le.mpr h2, h3]
  · intro h1 h2 h3 h4
    simp [IEEE.BillingConfig.Validate, isPos_leZero _ h1, not_le.mpr h2, not_le.mpr h3, h4]
  · intro h1 h2 h3 h4 h5
    simp [IEEE.BillingConfig.Validate, isPos_leZero _ h1, not_le.mpr h2, not_le.mpr h3,
      not_le.mpr h4, h5]
  · intro h1 h2 h3 h4 h5 h6
    simp [IEEE.BillingConfig.Validate, isPos_leZero _ h1, not_le.mpr h2, not_le.mpr h3,
      not_le.mpr h4, not_le.mpr h5, h6]

/-- Claim C17 as stated fails on a NaN salary, for which MonthlySalary <= 0 is false: on the
default configuration with MonthlySalary = NaN the salary is not greater than 0 and Validate
succeeds; with WeeklyHours = 0 besides, the error is the one for weekly hours and not the one
for the monthly salary, the first violated condition. -/
theorem Validate_accepts_nan :
    ({ IEEE.NewBillingConfig with MonthlySalary := .nan } : IEEE.BillingConfig).MonthlySalary.isPos
      = false ∧
    ({ IEEE.NewBillingConfig with MonthlySalary := .nan } : IEEE.BillingConfig).Validate.2
      = none ∧
    ({ IEEE.NewBillingConfig with MonthlySalary := .nan, WeeklyHours := 0 } :
      IEEE.BillingConfig).Validate.2 = some .weeklyHoursInvalid := by
  refine ⟨by decide!, by decide!, by decide!⟩

/-- Claim C17 on a configuration with WeeklyHours = 0 and WorkDays = -1: the error is the one
for weekly hours, the first violated condition. -/
theorem Validate_contract_witness :
    ({ IEEE.NewBillingConfig with WeeklyHours := 0, WorkDays := -1 } :
      IEEE.BillingConfig).Validate.2 = some .weeklyHoursInvalid :=
  (Validate_contract { IEEE.NewBillingConfig with WeeklyHours := 0, WorkDays := -1 }).2.2.1
    (by decide!) (by decide)

/-! ## The amount over binary64 -/

theorem ieee_Calculate_ok_fields (c : Calculator) (st : IEEE.Store) (now : Int) (input : TimeInput)
    (currency : String) (r : IEEE.CalculationResult)
    (h : IEEE.Calculator.Calculate c st now input currency = .ok r) :
    c.ValidateInput now input = .ok () ∧
    parseMonths now input.Months [] = .ok r.MonthDetails ∧
    r.TotalHours = sumInts input.Hours 0 ∧ r.TotalDays = sumInts input.Days 0 ∧
    r.TotalWeeks = sumInts input.Weeks 0 ∧ r.Currency = currency ∧
    r.TotalAmount = Float64.mul (Float64.ofInt r.TotalTime) (st c.config).HourlyRate := by
  unfold IEEE.Calculator.Calculate at h
  cases hv : c.ValidateInput now input with
  | error err => rw [hv] at h; simp at h
  | ok u =>
      rw [hv] at h
      cases hp : parseMonths now input.Months [] with
      | error err => rw [hp] at h; simp at h
      | ok monthDetails =>
          rw [hp] at h
          simp only [Except.ok.injEq] at h
          subst h
          exact ⟨rfl, rfl, rfl, rfl, rfl, rfl, rfl⟩

theorem ieee_Store_SetMonthlySalary_ok (st0 st : IEEE.Store) (p : ConfigPtr) (v : Float64)
    (hset : IEEE.Store.SetMonthlySalary st0 p v = (st, none)) :
    v.leZero = false ∧
      st p = IEEE.BillingConfig.calculateRates { st0 p with MonthlySalary := v } := by
  have h1 := congrArg Prod.fst hset
  have h2 := congrArg Prod.snd hset
  simp only [IEEE.Store.SetMonthlySalary] at h1 h2
  cases hle : v.leZero with
  | true => simp [IEEE.BillingConfig.SetMonthlySalary, hle] at h2
  | false =>
      refine ⟨rfl, ?_⟩
      rw [← h1]
      simp [IEEE.BillingConfig.SetMonthlySalary, hle]

/-- Claim C2, as the code has it: on success TotalAmount is the binary64 product of
float64(TotalTime) and the HourlyRate that the configuration holds when Calculate is called.
float64(TotalTime) is TotalTime itself when its magnitude is at most 2^53, and TotalAmount is
then, for a finite rate, the exact product of TotalTime and the rate rounded to the nearest
binary64. When the configuration is the outcome of a successful SetMonthlySalary made through
the calculator's pointer, the rate used is the one derived from the new salary, the binary64
quotient of the salary by float64(MonthlyHours). -/
theorem Calculate_amount (c : Calculator) (st : IEEE.Store) (now : Int) (input : TimeInput)
    (currency : String) (r : IEEE.CalculationResult)
    (h : IEEE.Calculator.Calculate c st now input currency = .ok r) :
    r.TotalAmount = Float64.mul (Float64.ofInt r.TotalTime) (st c.config).HourlyRate ∧
    (|r.TotalTime| ≤ 9007199254740992 →
      Float64.ofInt r.TotalTime = .fin (r.TotalTime : Rat) ∧
      ∀ rate : Rat, (st c.config).HourlyRate = .fin rate →
        r.TotalAmount
          = Float64.round (xor (decide ((r.TotalTime : Rat) < 0)) (decide (rate < 0)))
              |(r.TotalTime : Rat) * rate|) ∧
    ∀ (st0 : IEEE.Store) (salary : Float64),
      IEEE.Store.SetMonthlySalary st0 c.config salary = (st, none) →
      (st c.config).MonthlySalary = salary ∧
      (st c.config).HourlyRate
        = Float64.div salary
            (Float64.ofInt (goMul (st0 c.config).WeeklyHours (st0 c.config).WeeksPerMonth)) ∧
      r.TotalAmount = Float64.mul (Float64.ofInt r.TotalTime)
        (Float64.div salary
          (Float64.ofInt (goMul (st0 c.config).WeeklyHours (st0 c.config).WeeksPerMonth))) := by
  have hamount := (ieee_Calculate_ok_fields c st now input currency r h).2.2.2.2.2.2
  refine ⟨hamount, ?_, ?_⟩
  · intro hsmall
    have hex := ofInt_exact r.TotalTime hsmall
    refine ⟨hex, ?_⟩
    intro rate hrate
    rw [hamount, hex, hrate]
    rfl
  · intro st0 salary hset
    obtain ⟨-, hnew⟩ := ieee_Store_SetMonthlySalary_ok st0 st c.config salary hset
    have hrate : (st c.config).HourlyRate
        = Float64.div salary
            (Float64.ofInt (goMul (st0 c.config).WeeklyHours (st0 c.config).WeeksPerMonth)) := by
      rw [hnew]
      rfl
    refine ⟨by rw [hnew]; rfl, hrate, ?_⟩
    rw [hamount, hrate]

/-- Claim C2 as stated fails where float64(TotalTime) is not TotalTime: on the default
configuration, whose HourlyRate is 13.75, hours [9007199254740993] gives
TotalTime = 9007199254740993 = 2^53 + 1 and TotalAmount = 123848989752688640, which is
9007199254740992 * 13.75 and not TotalTime * 13.75 = 123848989752688653.75. The product is
rounded as well: after SetMonthlySalary(16) the rate is the binary64 nearest to 0.1, and
hours [3] gives the binary64 0.3000000000000000444, which is not 3 times that rate. -/
theorem Calculate_amount_not_exact :
    (∃ r, IEEE.Calculator.Calculate (NewCalculator 0) IEEE.defaultStore 2025
        ⟨[9007199254740993], [], [], []⟩ "U$S" = .ok r ∧
      r.TotalTime = 9007199254740993 ∧
      (IEEE.defaultStore 0).HourlyRate = .fin (55 / 4) ∧
      r.TotalAmount = .fin 123848989752688640 ∧
      r.TotalAmount ≠ .fin ((r.TotalTime : Rat) * (55 / 4))) ∧
    (∃ st r, IEEE.Store.SetMonthlySalary IEEE.defaultStore 0 (.fin 16) = (st, none) ∧
      IEEE.Calculator.Calculate (NewCalculator 0) st 2025 ⟨[3], [], [], []⟩ "U$S" = .ok r ∧
      r.TotalTime = 3 ∧
      (st 0).HourlyRate = .fin (3602879701896397 / 36028797018963968) ∧
      r.TotalAmount = .fin (1351079888211149 / 4503599627370496) ∧
      r.TotalAmount ≠ .fin ((r.TotalTime : Rat) * (3602879701896397 / 36028797018963968))) :=
  ⟨⟨_, rfl, by decide!, by decide!, by decide!, by decide!⟩,
    ⟨_, _, rfl, rfl, by decide!, by decide!, by decide!, by decide!⟩⟩

/-- Claim C2 at the spec's example: the default configuration with days [5, 3] gives
TotalTime = 64 and TotalAmount = 64 * 13.75 = 880; after the salary is set to 4400 through the
same pointer, the same calculator gives 64 * 27.5 = 1760; and after SetWeeklyHours(
4611686018427387904), which leaves MonthlyHours = 0, and SetMonthlySalary(2200), the rate and
the amount for hours [1] are the positive infinity. -/
theorem Calculate_amount_witness :
    (∃ r, IEEE.Calculator.Calculate (NewCalculator 0) IEEE.defaultStore 2025
        ⟨[], [5, 3], [], []⟩ "EUR" = .ok r ∧
      r.TotalTime = 64 ∧ r.TotalAmount = .fin 880) ∧
    (∃ st r, IEEE.Store.SetMonthlySalary IEEE.defaultStore 0 (.fin 4400) = (st, none) ∧
      IEEE.Calculator.Calculate (NewCalculator 0) st 2025 ⟨[], [5, 3], [], []⟩ "EUR" = .ok r ∧
      r.TotalTime = 64 ∧ (st 0).HourlyRate = .fin (55 / 2) ∧ r.TotalAmount = .fin 1760) ∧
    (∃ st r, IEEE.Store.SetMonthlySalary
        (IEEE.Store.SetWeeklyHours IEEE.defaultStore 0 4611686018427387904).1 0 (.fin 2200)
        = (st, none) ∧
      IEEE.Calculator.Calculate (NewCalculator 0) st 2025 ⟨[1], [], [], []⟩ "EUR" = .ok r ∧
      (st 0).MonthlyHours = 0 ∧ (st 0).HourlyRate = .inf false ∧ r.TotalAmount = .inf false) :=
  ⟨⟨_, rfl, by decide!,
      (Calculate_amount (NewCalculator 0) IEEE.defaultStore 2025 ⟨[], [5, 3], [], []⟩ "EUR" _
        rfl).1.trans (by decide!)⟩,
    ⟨_, _, rfl, rfl, by decide!,
      ((Calculate_amount (NewCalculator 0) _ 2025 ⟨[], [5, 3], [], []⟩ "EUR" _ rfl).2.2
        IEEE.defaultStore (.fin 4400) rfl).2.1.trans (by decide!),
      ((Calculate_amount (NewCalculator 0) _ 2025 ⟨[], [5, 3], [], []⟩ "EUR" _ rfl).2.2
        IEEE.defaultStore (.fin 4400) rfl).2.2.trans (by decide!)⟩,
    ⟨_, _, rfl, rfl, by decide!,
      ((Calculate_amount (NewCalculator 0) _ 2025 ⟨[1], [], [], []⟩ "EUR" _ rfl).2.2
        (IEEE.Store.SetWeeklyHours IEEE.defaultStore 0 4611686018427387904).1 (.fin 2200)
        rfl).2.1.trans (by decide!),
      ((Calculate_amount (NewCalculator 0) _ 2025 ⟨[1], [], [], []⟩ "EUR" _ rfl).2.2
        (IEEE.Store.SetWeeklyHours IEEE.defaultStore 0 4611686018427387904).1 (.fin 2200)
        rfl).2.2.trans (by decide!)⟩⟩

/-! ## GetMonthSummary -/

/-- Claim C21, as the code has it: when ParseMonth succeeds GetMonthSummary returns, with no
error, exactly "Mes <input>: <days> días × <hoursPerDay> horas = <hours> horas →
<currency> <amount>", where the raw specifier follows the word Mes and a blank, days is the
day count of the month, hours is days * HoursPerDay in Go's 64-bit int (the exact product
whenever it fits) and amount is the binary64 product float64(hours) * HourlyRate printed with
the verb %.2f; when ParseMonth fails it returns that error and the empty string. -/
theorem GetMonthSummary_line (c : Calculator) (st : IEEE.Store) (now : Int) (monthInput : String)
    (currency : String) :
    (∀ info, ParseMonth now monthInput = .ok info →
      IEEE.Calculator.GetMonthSummary c st now monthInput currency
        = ("Mes " ++ monthInput ++ ": " ++ formatInt info.Days ++ " días × "
            ++ formatInt (st c.config).HoursPerDay ++ " horas = "
            ++ formatInt (wrapInt (info.Days * (st c.config).HoursPerDay)) ++ " horas → "
            ++ currency ++ " "
            ++ (Float64.mul (Float64.ofInt (wrapInt (info.Days * (st c.config).HoursPerDay)))
                (st c.config).HourlyRate).format2, none) ∧
      (InIntRange (info.Days * (st c.config).HoursPerDay) →
        IEEE.Calculator.GetMonthSummary c st now monthInput currency
          = ("Mes " ++ monthInput ++ ": " ++ formatInt info.Days ++ " días × "
              ++ formatInt (st c.config).HoursPerDay ++ " horas = "
              ++ formatInt (info.Days * (st c.config).HoursPerDay) ++ " horas → "
              ++ currency ++ " "
              ++ (Float64.mul (Float64.ofInt (info.Days * (st c.config).HoursPerDay))
                  (st c.config).HourlyRate).format2, none))) ∧
    (∀ err, ParseMonth now monthInput = .error err →
      IEEE.Calculator.GetMonthSummary c st now monthInput currency = ("", some err)) := by
  constructor
  · intro info hp
    have h1 : IEEE.Calculator.GetMonthSummary c st now monthInput currency
        = ("Mes " ++ monthInput ++ ": " ++ formatInt info.Days ++ " días × "
            ++ formatInt (st c.config).HoursPerDay ++ " horas = "
            ++ formatInt (wrapInt (info.Days * (st c.config).HoursPerDay)) ++ " horas → "
            ++ currency ++ " "
            ++ (Float64.mul (Float64.ofInt (wrapInt (info.Days * (st c.config).HoursPerDay)))
                (st c.config).HourlyRate).format2, none) := by
      simp only [IEEE.Calculator.GetMonthSummary, hp]
      rfl
    refine ⟨h1, ?_⟩
    intro hr
    rw [h1, wrapInt_of_range hr]
  · intro err hp
    simp only [IEEE.Calculator.GetMonthSummary, hp]

set_option maxRecDepth 100000 in
/-- Claim C21 as stated fails: for "2024-02" and "U$S" on the default configuration the
returned line begins with "Mes " and not with the raw specifier; with
HoursPerDay = 4611686018427387904 the hours printed are 4611686018427387904, not
29 * HoursPerDay; and after SetWeeklyHours(4611686018427387904), which leaves
MonthlyHours = 0, the amount is the positive infinity and prints as +Inf, with no decimals. -/
theorem GetMonthSummary_not_spec_line :
    IEEE.Calculator.GetMonthSummary (NewCalculator 0) IEEE.defaultStore 2025 "2024-02" "U$S"
      = ("Mes 2024-02: 29 días × 8 horas = 232 horas → U$S 3190.00", none) ∧
    (IEEE.Calculator.GetMonthSummary (NewCalculator 0) IEEE.defaultStore 2025 "2024-02" "U$S").1
      ≠ "2024-02: 29 días × 8 horas = 232 horas → U$S 3190.00" ∧
    ¬("2024-02".data <+:
      (IEEE.Calculator.GetMonthSummary (NewCalculator 0) IEEE.defaultStore 2025 "2024-02"
        "U$S").1.data) ∧
    IEEE.Calculator.GetMonthSummary (NewCalculator 0)
        (fun _ => { IEEE.NewBillingConfig with HoursPerDay := 4611686018427387904 }) 2025
        "2024-02" "U$S"
      = ("Mes 2024-02: 29 días × 4611686018427387904 horas = 4611686018427387904 horas → "
          ++ "U$S 63410682753376583680.00", none) ∧
    IEEE.Calculator.GetMonthSummary (NewCalculator 0)
        (fun _ => IEEE.runOps IEEE.NewBillingConfig [.setWeeklyHours 4611686018427387904]) 2025
        "2024-02" "U$S"
      = ("Mes 2024-02: 29 días × 8 horas = 232 horas → U$S +Inf", none) := by
  refine ⟨by decide!, by decide!, by decide!, by decide!, by decide!⟩

set_option maxRecDepth 100000 in
/-- Claim C21 at the tested inputs: "01" read in 2031 with "EUR" gives the line for 31 days,
and "invalid" gives the parse error and the empty string. After SetMonthlySalary(1) and
SetWeeklyHours(80) the rate is the binary64 nearest to 1/320 and the amount of "2024-02"
prints as 0.73; after SetWeeklyHours(4611686018427387904) the rate is the positive infinity
and the amount prints as +Inf. -/
theorem GetMonthSummary_line_witness :
    ParseMonth 2031 "01" = .ok ⟨"01", 31, 2031, 1⟩ ∧
    IEEE.Calculator.GetMonthSummary (NewCalculator 0) IEEE.defaultStore 2031 "01" "EUR"
      = ("Mes 01: 31 días × 8 horas = 248 horas → EUR 3410.00", none) ∧
    IEEE.Calculator.GetMonthSummary (NewCalculator 0) IEEE.defaultStore 2031 "invalid" "USD"
      = ("", some (.invalidFormat "invalid")) ∧
    IEEE.Calculator.GetMonthSummary (NewCalculator 0)
        (fun _ => IEEE.runOps IEEE.NewBillingConfig
          [.setMonthlySalary (.fin 1), .setWeeklyHours 80]) 2025 "2024-02" "U$S"
      = ("Mes 2024-02: 29 días × 8 horas = 232 horas → U$S 0.73", none) ∧
    IEEE.Calculator.GetMonthSummary (NewCalculator 0)
        (fun _ => IEEE.runOps IEEE.NewBillingConfig [.setWeeklyHours 4611686018427387904]) 2025
        "2024-02" "U$S"
      = ("Mes 2024-02: 29 días × 8 horas = 232 horas → U$S +Inf", none) :=
  ⟨by decide,
    (((GetMonthSummary_line (NewCalculator 0) IEEE.defaultStore 2031 "01" "EUR").1
      ⟨"01", 31, 2031, 1⟩ (by decide)).2 (by decide)).trans (by decide!),
    (GetMonthSummary_line (NewCalculator 0) IEEE.defaultStore 2031 "invalid" "USD").2
      (.invalidFormat "invalid") (by decide),
    (((GetMonthSummary_line (NewCalculator 0) _ 2025 "2024-02" "U$S").1
      ⟨"2024-02", 29, 2024, 2⟩ (by decide)).2 (by decide)).trans (by decide!),
    (((GetMonthSummary_line (NewCalculator 0) _ 2025 "2024-02" "U$S").1
      ⟨"2024-02", 29, 2024, 2⟩ (by decide)).2 (by decide)).trans (by decide!)⟩

/-! ## The rates table over binary64 -/

/-- Claim C22, as the code has it: the output of FormatRates holds a line for the monthly
salary, the weekly hours, the work days and the hours per day, a line for the currency, and a
line for each of the hourly, daily, weekly and monthly rates, every money value printed with
the verb %.2f after the given currency (a NaN or an infinity prints as NaN, +Inf or -Inf);
weeks per month is not printed, the output being the same whatever that field holds. -/
theorem FormatRates_dump (c : Calculator) (st : IEEE.Store) (currency : String) :
    Contains (IEEE.Calculator.FormatRates c st currency)
      ("  Salario mensual: " ++ currency ++ " " ++ (st c.config).MonthlySalary.format2
        ++ "\n") ∧
    Contains (IEEE.Calculator.FormatRates c st currency)
      ("  Horas semanales: " ++ formatInt (st c.config).WeeklyHours ++ "\n") ∧
    Contains (IEEE.Calculator.FormatRates c st currency)
      ("  Días laborales: " ++ formatInt (st c.config).WorkDays ++ "\n") ∧
    Contains (IEEE.Calculator.FormatRates c st currency)
      ("  Horas por día: " ++ formatInt (st c.config).HoursPerDay ++ "\n") ∧
    Contains (IEEE.Calculator.FormatRates c st currency) ("  Moneda: " ++ currency ++ "\n") ∧
    Contains (IEEE.Calculator.FormatRates c st currency)
      ("  Por hora: " ++ currency ++ " " ++ (st c.config).HourlyRate.format2 ++ "\n") ∧
    Contains (IEEE.Calculator.FormatRates c st currency)
      ("  Por día: " ++ currency ++ " " ++ (st c.config).DailyRate.format2 ++ "\n") ∧
    Contains (IEEE.Calculator.FormatRates c st currency)
      ("  Por semana: " ++ currency ++ " " ++ (st c.config).WeeklyRate.format2 ++ "\n") ∧
    Contains (IEEE.Calculator.FormatRates c st currency)
      ("  Por mes: " ++ currency ++ " " ++ (st c.config).MonthlySalary.format2 ++ "\n") ∧
    ∀ k : Int,
      IEEE.Calculator.FormatRates c
          (Function.update st c.config { st c.config with WeeksPerMonth := k }) currency
        = IEEE.Calculator.FormatRates c st currency := by
  refine ⟨?_, ?_, ?_, ?_, ?_, ?_, ?_, ?_, ?_, ?_⟩
  · exact contains_join_of_mem (by simp [IEEE.Calculator.formatRatesWrites])
  · exact contains_join_of_mem (by simp [IEEE.Calculator.formatRatesWrites])
  · exact contains_join_of_mem (by simp [IEEE.Calculator.formatRatesWrites])
  · exact contains_join_of_mem (by simp [IEEE.Calculator.formatRatesWrites])
  · exact contains_join_of_mem (by simp [IEEE.Calculator.formatRatesWrites])
  · exact contains_join_of_mem (by simp [IEEE.Calculator.formatRatesWrites])
  · exact contains_join_of_mem (by simp [IEEE.Calculator.formatRatesWrites])
  · exact contains_join_of_mem (by simp [IEEE.Calculator.formatRatesWrites])
  · exact contains_join_of_mem (by simp [IEEE.Calculator.formatRatesWrites])
  · intro k
    simp only [IEEE.Calculator.FormatRates, IEEE.Calculator.formatRatesWrites,
      Function.update_same]

set_option maxRecDepth 100000 in
/-- Claim C22 as stated fails for weeks per month: FormatRates gives the same output for the
default configuration and for the one whose WeeksPerMonth is 5 instead of 4. It fails as well
for a rate that is not finite: after SetWeeklyHours(4611686018427387904), which leaves
MonthlyHours = 0, the three rate lines read +Inf, with no decimals. -/
theorem FormatRates_ignores_weeksPerMonth :
    ({ IEEE.NewBillingConfig with WeeksPerMonth := 5 } : IEEE.BillingConfig).WeeksPerMonth
      ≠ IEEE.NewBillingConfig.WeeksPerMonth ∧
    IEEE.Calculator.FormatRates (NewCalculator 0)
        (fun _ => { IEEE.NewBillingConfig with WeeksPerMonth := 5 }) "EUR"
      = IEEE.Calculator.FormatRates (NewCalculator 0) IEEE.defaultStore "EUR" ∧
    IEEE.Calculator.FormatRates (NewCalculator 0)
        (fun _ => IEEE.runOps IEEE.NewBillingConfig [.setWeeklyHours 4611686018427387904]) "EUR"
      = "=== TABLA DE TARIFAS ===\n\nConfiguración base:\n  Salario mensual: EUR 2200.00\n"
        ++ "  Horas semanales: 4611686018427387904\n  Días laborales: 5\n  Horas por día: 8\n"
        ++ "  Moneda: EUR\n\nTarifas calculadas:\n  Por hora: EUR +Inf\n  Por día: EUR +Inf\n"
        ++ "  Por semana: EUR +Inf\n  Por mes: EUR 2200.00\n\n" :=
  ⟨by decide, rfl, by decide!⟩

set_option maxRecDepth 100000 in
/-- Claim C22 on three configurations with "EUR": the whole output on the default one; after
SetMonthlySalary(4) the hourly rate is the binary64 nearest to 0.025 and its line reads 0.03;
after SetWeeklyHours(4611686018427387904), which leaves MonthlyHours = 0, the hourly rate line
reads +Inf. -/
theorem FormatRates_dump_witness :
    IEEE.Calculator.FormatRates (NewCalculator 0) IEEE.defaultStore "EUR"
      = "=== TABLA DE TARIFAS ===\n\nConfiguración base:\n  Salario mensual: EUR 2200.00\n"
        ++ "  Horas semanales: 40\n  Días laborales: 5\n  Horas por día: 8\n  Moneda: EUR\n"
        ++ "\nTarifas calculadas:\n  Por hora: EUR 13.75\n  Por día: EUR 110.00\n"
        ++ "  Por semana: EUR 550.00\n  Por mes: EUR 2200.00\n\n" ∧
    Contains (IEEE.Calculator.FormatRates (NewCalculator 0) IEEE.defaultStore "EUR")
      ("  Por hora: " ++ "EUR" ++ " " ++ (IEEE.defaultStore 0).HourlyRate.format2 ++ "\n") ∧
    "  Por hora: " ++ "EUR" ++ " " ++ (IEEE.defaultStore 0).HourlyRate.format2 ++ "\n"
      = "  Por hora: EUR 13.75\n" ∧
    Contains (IEEE.Calculator.FormatRates (NewCalculator 0)
        (fun _ => IEEE.runOps IEEE.NewBillingConfig [.setMonthlySalary (.fin 4)]) "EUR")
      "  Por hora: EUR 0.03\n" ∧
    Contains (IEEE.Calculator.FormatRates (NewCalculator 0)
        (fun _ => IEEE.runOps IEEE.NewBillingConfig [.setWeeklyHours 4611686018427387904]) "EUR")
      "  Por hora: EUR +Inf\n" :=
  ⟨by decide!,
    (FormatRates_dump (NewCalculator 0) IEEE.defaultStore "EUR").2.2.2.2.2.1,
    by decide!, by decide!, by decide!⟩

/-! ## Lines of a text -/

theorem splitOn_lines (ls : List (List Char)) (h : ∀ l ∈ ls, '\n' ∉ l) :
    ((ls.map (· ++ ['\n'])).flatten).splitOn '\n' = ls ++ [[]] := by
  induction ls with
  | nil => rfl
  | cons l rest ih =>
      have hl : ∀ x ∈ l, ¬((x == '\n') = true) := by
        intro x hx hxe
        have : x = '\n' := by simpa using hxe
        exact h l (List.mem_cons_self _ _) (this ▸ hx)
      have e : ((l :: rest).map (· ++ ['\n'])).flatten
          = l ++ '\n' :: (rest.map (· ++ ['\n'])).flatten := by
        simp
      rw [e]
      have hs := List.splitOnP_first (· == '\n') l hl '\n' (by decide)
        ((rest.map (· ++ ['\n'])).flatten)
      simp only [List.splitOn] at ih ⊢
      rw [hs, ih (fun x hx => h x (List.mem_cons_of_mem _ hx))]
      rfl

theorem splitOn_tail_of_newline (p t line : List Char) (h : line ∈ t.splitOn '\n') :
    line ∈ ((p ++ '\n' :: t).splitOn '\n').tail := by
  simp only [List.splitOn] at h ⊢
  induction p with
  | nil =>
      rw [List.nil_append, List.splitOnP_cons, if_pos (by decide)]
      exact h
  | cons x p ih =>
      rw [List.cons_append, List.splitOnP_cons]
      split
      · exact List.mem_of_mem_tail ih
      · cases hs : List.splitOnP (· == '\n') (p ++ '\n' :: t) with
        | nil => rw [hs] at ih; simp at ih
        | cons a as => rw [hs] at ih; simpa [List.modifyHead] using ih

theorem splitOn_head_starts (lbl t : List Char) (h : '\n' ∉ lbl) :
    ∃ line rest, (lbl ++ t).splitOn '\n' = line :: rest ∧ lbl <+: line := by
  simp only [List.splitOn]
  induction lbl with
  | nil =>
      cases hs : List.splitOnP (· == '\n') ([] ++ t) with
      | nil => exact absurd hs (List.splitOnP_ne_nil _ _)
      | cons a as => exact ⟨a, as, rfl, List.nil_prefix⟩
  | cons x l ih =>
      have hx : ¬((x == '\n') = true) := by
        intro hxe
        have : x = '\n' := by simpa using hxe
        exact h (this ▸ List.mem_cons_self _ _)
      obtain ⟨line, rest, hline, hpre⟩ := ih (fun hm => h (List.mem_cons_of_mem _ hm))
      rw [List.cons_append, List.splitOnP_cons, if_neg hx, hline]
      exact ⟨x :: line, rest, rfl, by simpa using hpre⟩

theorem hasLine_of_starts (pre lbl t : List Char) (hpre : pre = [] ∨ ∃ p, pre = p ++ ['\n'])
    (h : '\n' ∉ lbl) : ∃ line ∈ (pre ++ (lbl ++ t)).splitOn '\n', lbl <+: line := by
  obtain ⟨line, rest, hline, hstarts⟩ := splitOn_head_starts lbl t h
  have hmem : line ∈ (lbl ++ t).splitOn '\n' := by rw [hline]; exact List.mem_cons_self _ _
  rcases hpre with rfl | ⟨p, rfl⟩
  · exact ⟨line, by simpa using hmem, hstarts⟩
  · refine ⟨line, ?_, hstarts⟩
    have := splitOn_tail_of_newline p (lbl ++ t) line hmem
    rw [List.append_assoc]
    exact List.mem_of_mem_tail this

theorem no_newline_append {a b : List Char} (ha : '\n' ∉ a) (hb : '\n' ∉ b) : '\n' ∉ a ++ b := by
  simp [ha, hb]

/-! ## Printed numbers hold no line break -/

theorem digitChar_ne_newline (k : Nat) (hk : k < 10) : Nat.digitChar k ≠ '\n' := by
  interval_cases k <;> decide

theorem toDigitsCore_no_newline (fuel n : Nat) (ds : List Char) (h : '\n' ∉ ds) :
    '\n' ∉ Nat.toDigitsCore 10 fuel n ds := by
  induction fuel generalizing n ds with
  | zero => simpa [Nat.toDigitsCore] using h
  | succ fuel ih =>
      have hd : '\n' ∉ Nat.digitChar (n % 10) :: ds := by
        intro hm
        rcases List.mem_cons.mp hm with e | e
        · exact digitChar_ne_newline _ (Nat.mod_lt _ (by decide)) e.symm
        · exact h e
      simp only [Nat.toDigitsCore]
      split
      · exact hd
      · exact ih _ _ hd

theorem natToString_no_newline (n : Nat) : '\n' ∉ (toString n).data := by
  show '\n' ∉ (Nat.repr n).data
  simp only [Nat.repr, Nat.toDigits, List.asString]
  exact toDigitsCore_no_newline _ _ [] (by simp)

theorem formatInt_no_newline (n : Int) : '\n' ∉ (formatInt n).data := by
  unfold formatInt
  cases n with
  | ofNat m => exact natToString_no_newline m
  | negSucc m =>
      show '\n' ∉ ("-" ++ toString (m + 1)).data
      rw [String.data_append]
      exact no_newline_append (by decide) (natToString_no_newline _)

theorem formatFloat2_no_newline (q : Rat) : '\n' ∉ (formatFloat2 q).data := by
  simp only [formatFloat2]
  split
  · simp only [String.data_append]
    exact no_newline_append (by decide) (no_newline_append (no_newline_append
      (no_newline_append (natToString_no_newline _) (by decide)) (natToString_no_newline _))
      (natToString_no_newline _))
  · simp only [String.data_append]
    exact no_newline_append (no_newline_append
      (no_newline_append (natToString_no_newline _) (by decide)) (natToString_no_newline _))
      (natToString_no_newline _)

theorem format2_no_newline (x : Float64) : '\n' ∉ x.format2.data := by
  cases x with
  | nan => decide
  | inf neg => cases neg <;> decide
  | negZero => decide
  | fin q => exact formatFloat2_no_newline q

/-! ## The lines of the output of FormatResult -/

theorem isDigit_ne_newline {c : Char} (h : c.isDigit = true) : c ≠ '\n' := by
  rintro rfl
  simp [Char.isDigit] at h

theorem ParseMonth_ok_input (now : Int) (input : String) (info : MonthInfo)
    (h : ParseMonth now input = .ok info) :
    info.Input = input ∧ ((∃ y m, IsYearMonthForm input y m) ∨ ∃ m, IsMonthForm input m) := by
  have key : ∀ (year month : Int),
      (if month < 1 ∨ month > 12 then (.error (.invalidMonth month) : Except Error MonthInfo)
        else .ok { Input := input, Days := GetDaysInMonth month year, Year := year,
                   Month := month }) = .ok info → info.Input = input := by
    intro year month hk
    by_cases hr : month < 1 ∨ month > 12
    · rw [if_pos hr] at hk; cases hk
    · rw [if_neg hr] at hk
      simp only [Except.ok.injEq] at hk
      subst hk
      rfl
  cases hre : yearMonthRegex input with
  | some ab =>
      obtain ⟨m1, m2⟩ := ab
      have hform := yearMonthRegex_some hre
      cases hy : Atoi m1 with
      | none => simp only [ParseMonth, hre, hy] at h; cases h
      | some year =>
          cases hm : Atoi m2 with
          | none => simp only [ParseMonth, hre, hy, hm] at h; cases h
          | some month =>
              simp only [ParseMonth, hre, hy, hm] at h
              exact ⟨key year month h, Or.inl ⟨_, _, hform⟩⟩
  | none =>
      cases hre2 : monthRegex input with
      | none => simp only [ParseMonth, hre, hre2] at h; cases h
      | some m1 =>
          have hform := monthRegex_some hre2
          cases hm : Atoi m1 with
          | none => simp only [ParseMonth, hre, hre2, hm] at h; cases h
          | some month =>
              simp only [ParseMonth, hre, hre2, hm] at h
              exact ⟨key now month h, Or.inr ⟨_, hform⟩⟩

theorem ParseMonth_ok_no_newline (now : Int) (input : String) (info : MonthInfo)
    (h : ParseMonth now input = .ok info) : '\n' ∉ info.Input.data := by
  obtain ⟨hin, hform⟩ := ParseMonth_ok_input now input info h
  rw [hin]
  rcases hform with ⟨y, m, hd, -, hy, -, hm⟩ | ⟨m, hd, -, hm⟩
  · rw [hd]
    intro hmem
    rcases List.mem_append.mp hmem with h1 | h1
    · exact isDigit_ne_newline (hy _ h1) rfl
    · rcases List.mem_cons.mp h1 with h2 | h2
      · exact absurd h2 (by decide)
      · exact isDigit_ne_newline (hm _ h2) rfl
  · rw [hd]
    intro hmem
    exact isDigit_ne_newline (hm _ hmem) rfl

theorem parseMonths_no_newline (now : Int) (months : List String) (result : List MonthInfo)
    (h : parseMonths now months [] = .ok result) : ∀ m ∈ result, '\n' ∉ m.Input.data := by
  obtain ⟨infos, hres, hmap⟩ := parseMonths_ok now months [] result h
  rw [List.nil_append] at hres
  subst hres
  intro m hm
  have hmem : (Except.ok m : Except Error MonthInfo) ∈ result.map .ok := List.mem_map_of_mem _ hm
  rw [← hmap] at hmem
  obtain ⟨s, -, hs⟩ := List.mem_map.mp hmem
  exact ParseMonth_ok_no_newline now s m hs

theorem intercalate_go_no_newline (sep : String) (hsep : '\n' ∉ sep.data) (parts : List String)
    (acc : String) (hacc : '\n' ∉ acc.data) (hparts : ∀ p ∈ parts, '\n' ∉ p.data) :
    '\n' ∉ (String.intercalate.go acc sep parts).data := by
  induction parts generalizing acc with
  | nil => simpa [String.intercalate.go] using hacc
  | cons a rest ih =>
      simp only [String.intercalate.go]
      refine ih _ ?_ (fun p hp => hparts p (List.mem_cons_of_mem _ hp))
      simp only [String.data_append]
      exact no_newline_append (no_newline_append hacc hsep) (hparts a (List.mem_cons_self _ _))

theorem intercalate_no_newline (sep : String) (hsep : '\n' ∉ sep.data) (parts : List String)
    (hparts : ∀ p ∈ parts, '\n' ∉ p.data) : '\n' ∉ (sep.intercalate parts).data := by
  cases parts with
  | nil => simp [String.intercalate]
  | cons a rest =>
      simp only [String.intercalate]
      exact intercalate_go_no_newline sep hsep rest a (hparts a (List.mem_cons_self _ _))
        (fun p hp => hparts p (List.mem_cons_of_mem _ hp))

theorem monthParts_no_newline (details : List MonthInfo)
    (h : ∀ m ∈ details, '\n' ∉ m.Input.data) : ∀ p ∈ monthParts details, '\n' ∉ p.data := by
  intro p hp
  obtain ⟨m, hm, rfl⟩ := List.mem_map.mp hp
  simp only [String.data_append]
  exact no_newline_append (no_newline_append (no_newline_append (h m hm) (by decide))
    (formatInt_no_newline _)) (by decide)

theorem ieee_monthsLine_no_newline (config : IEEE.BillingConfig) (result : IEEE.CalculationResult)
    (h : ∀ m ∈ result.MonthDetails, '\n' ∉ m.Input.data) :
    '\n' ∉ (IEEE.monthsLine config result).data := by
  simp only [IEEE.monthsLine, String.data_append]
  have h1 := intercalate_no_newline ", " (by decide) _ (monthParts_no_newline _ h)
  have f := formatInt_no_newline
  have d1 : '\n' ∉ "  Meses: ".data := by decide
  have d2 : '\n' ∉ " = ".data := by decide
  have d3 : '\n' ∉ " días × ".data := by decide
  have d4 : '\n' ∉ " horas = ".data := by decide
  have d5 : '\n' ∉ " horas".data := by decide
  simp only [List.mem_append, not_or]
  exact ⟨⟨⟨⟨⟨⟨⟨⟨d1, h1⟩, d2⟩, f _⟩, d3⟩, f _⟩, d4⟩, f _⟩, d5⟩

theorem ieee_weeksLine_no_newline (config : IEEE.BillingConfig) (result : IEEE.CalculationResult) :
    '\n' ∉ (IEEE.weeksLine config result).data := by
  simp only [IEEE.weeksLine, String.data_append]
  have f := formatInt_no_newline
  have d1 : '\n' ∉ "  Semanas: ".data := by decide
  have d2 : '\n' ∉ " × ".data := by decide
  have d4 : '\n' ∉ " horas = ".data := by decide
  have d5 : '\n' ∉ " horas".data := by decide
  simp only [List.mem_append, not_or]
  exact ⟨⟨⟨⟨⟨⟨d1, f _⟩, d2⟩, f _⟩, d4⟩, f _⟩, d5⟩

theorem ieee_daysLine_no_newline (config : IEEE.BillingConfig) (result : IEEE.CalculationResult) :
    '\n' ∉ (IEEE.daysLine config result).data := by
  simp only [IEEE.daysLine, String.data_append]
  have f := formatInt_no_newline
  have d1 : '\n' ∉ "  Días: ".data := by decide
  have d2 : '\n' ∉ " × ".data := by decide
  have d4 : '\n' ∉ " horas = ".data := by decide
  have d5 : '\n' ∉ " horas".data := by decide
  simp only [List.mem_append, not_or]
  exact ⟨⟨⟨⟨⟨⟨d1, f _⟩, d2⟩, f _⟩, d4⟩, f _⟩, d5⟩

theorem ieee_hoursLine_no_newline (result : IEEE.CalculationResult) :
    '\n' ∉ (IEEE.hoursLine result).data := by
  simp only [IEEE.hoursLine, String.data_append]
  have d1 : '\n' ∉ "  Horas adicionales: ".data := by decide
  have d5 : '\n' ∉ " horas".data := by decide
  simp only [List.mem_append, not_or]
  exact ⟨⟨d1, formatInt_no_newline _⟩, d5⟩

theorem formatResultLines_no_newline (c : Calculator) (st : IEEE.Store)
    (result : IEEE.CalculationResult) (hcur : '\n' ∉ result.Currency.data)
    (hin : ∀ m ∈ result.MonthDetails, '\n' ∉ m.Input.data) :
    ∀ l ∈ IEEE.Calculator.formatResultLines c st result, '\n' ∉ l.data := by
  intro l hl
  simp only [IEEE.Calculator.formatResultLines, List.mem_append, mem_ite_singleton,
    List.mem_cons, List.mem_singleton, List.not_mem_nil, or_false] at hl
  rcases hl with (((((rfl | rfl | rfl) | ⟨-, rfl⟩) | ⟨-, rfl⟩) | ⟨-, rfl⟩) | ⟨-, rfl⟩) |
    (rfl | rfl | rfl | rfl | rfl)
  · decide
  · decide
  · decide
  · exact ieee_monthsLine_no_newline _ _ hin
  · exact ieee_weeksLine_no_newline _ _
  · exact ieee_daysLine_no_newline _ _
  · exact ieee_hoursLine_no_newline _
  · decide
  · decide
  · simp only [String.data_append]
    exact no_newline_append (by decide) (formatInt_no_newline _)
  · simp only [String.data_append]
    exact no_newline_append (no_newline_append (no_newline_append (by decide) hcur) (by decide))
      (format2_no_newline _)
  · simp only [String.data_append]
    exact no_newline_append (no_newline_append (no_newline_append (by decide) hcur) (by decide))
      (format2_no_newline _)

theorem FormatResult_data (c : Calculator) (st : IEEE.Store) (result : IEEE.CalculationResult) :
    (IEEE.Calculator.FormatResult c st result).data
      = (((IEEE.Calculator.formatResultLines c st result).map String.data).map
          (· ++ ['\n'])).flatten := by
  simp only [IEEE.Calculator.FormatResult, IEEE.Calculator.formatResultWrites,
    IEEE.Calculator.formatResultLines, String.data_join]
  by_cases h1 : result.MonthDetails.length > 0 <;> by_cases h2 : result.TotalWeeks > 0 <;>
    by_cases h3 : result.TotalDays > 0 <;> by_cases h4 : result.TotalHours > 0 <;>
    simp [h1, h2, h3, h4, String.data_append]

theorem FormatResult_textLines (c : Calculator) (st : IEEE.Store)
    (result : IEEE.CalculationResult) (hcur : '\n' ∉ result.Currency.data)
    (hin : ∀ m ∈ result.MonthDetails, '\n' ∉ m.Input.data) :
    textLines (IEEE.Calculator.FormatResult c st result)
      = (IEEE.Calculator.formatResultLines c st result).map String.data ++ [[]] := by
  unfold textLines
  rw [FormatResult_data]
  apply splitOn_lines
  intro l hl
  obtain ⟨s, hs, rfl⟩ := List.mem_map.mp hl
  exact formatResultLines_no_newline c st result hcur hin s hs

theorem ieee_monthsLine_starts (config : IEEE.BillingConfig) (result : IEEE.CalculationResult) :
    "  Meses: ".data <+: (IEEE.monthsLine config result).data := by
  simp only [IEEE.monthsLine, String.data_append, List.append_assoc]
  exact List.prefix_append _ _

theorem ieee_weeksLine_starts (config : IEEE.BillingConfig) (result : IEEE.CalculationResult) :
    "  Semanas: ".data <+: (IEEE.weeksLine config result).data := by
  simp only [IEEE.weeksLine, String.data_append, List.append_assoc]
  exact List.prefix_append _ _

theorem ieee_daysLine_starts (config : IEEE.BillingConfig) (result : IEEE.CalculationResult) :
    "  Días: ".data <+: (IEEE.daysLine config result).data := by
  simp only [IEEE.daysLine, String.data_append, List.append_assoc]
  exact List.prefix_append _ _

theorem ieee_hoursLine_starts (result : IEEE.CalculationResult) :
    "  Horas adicionales: ".data <+: (IEEE.hoursLine result).data := by
  simp only [IEEE.hoursLine, String.data_append, List.append_assoc]
  exact List.prefix_append _ _

theorem formatResultLines_take3 (c : Calculator) (st : IEEE.Store)
    (result : IEEE.CalculationResult) (l : String)
    (hl : l ∈ IEEE.Calculator.formatResultLines c st result) :
    l.data = [] ∨ l.data.take 3 = ['=', '=', '='] ∨ l.data.take 3 = ['D', 'e', 's'] ∨
    (result.MonthDetails ≠ [] ∧ l.data.take 3 = [' ', ' ', 'M']) ∨
    (0 < result.TotalWeeks ∧ l.data.take 3 = [' ', ' ', 'S']) ∨
    (0 < result.TotalDays ∧ l.data.take 3 = [' ', ' ', 'D']) ∨
    (0 < result.TotalHours ∧ l.data.take 3 = [' ', ' ', 'H']) ∨
    l.data.take 3 = ['R', 'E', 'S'] ∨ l.data.take 3 = [' ', ' ', 'T'] := by
  simp only [IEEE.Calculator.formatResultLines, List.mem_append, mem_ite_singleton,
    List.mem_cons, List.mem_singleton, List.not_mem_nil, or_false] at hl
  rcases hl with (((((rfl | rfl | rfl) | ⟨hc, rfl⟩) | ⟨hc, rfl⟩) | ⟨hc, rfl⟩) | ⟨hc, rfl⟩) |
    (rfl | rfl | rfl | rfl | rfl)
  · right; left; decide
  · left; rfl
  · right; right; left; decide
  · right; right; right; left
    refine ⟨fun h => by simp [h] at hc, ?_⟩
    rw [take3_of_starts (by decide) (ieee_monthsLine_starts _ _)]; decide
  · right; right; right; right; left
    refine ⟨hc, ?_⟩
    rw [take3_of_starts (by decide) (ieee_weeksLine_starts _ _)]; decide
  · right; right; right; right; right; left
    refine ⟨hc, ?_⟩
    rw [take3_of_starts (by decide) (ieee_daysLine_starts _ _)]; decide
  · right; right; right; right; right; right; left
    refine ⟨hc, ?_⟩
    rw [take3_of_starts (by decide) (ieee_hoursLine_starts _)]; decide
  · left; rfl
  · right; right; right; right; right; right; right; left; decide
  · right; right; right; right; right; right; right; right
    simp only [String.data_append, List.append_assoc]
    rw [List.take_append_of_le_length (by decide)]; decide
  · right; right; right; right; right; right; right; right
    simp only [String.data_append, List.append_assoc]
    rw [List.take_append_of_le_length (by decide)]; decide
  · right; right; right; right; right; right; right; right
    simp only [String.data_append, List.append_assoc]
    rw [List.take_append_of_le_length (by decide)]; decide

theorem hasLine_in_lines (c : Calculator) (st : IEEE.Store) (result : IEEE.CalculationResult)
    (label : String) (hlab : 3 ≤ label.data.length) (hcur : '\n' ∉ result.Currency.data)
    (hin : ∀ m ∈ result.MonthDetails, '\n' ∉ m.Input.data)
    (h : HasLineStarting (IEEE.Calculator.FormatResult c st result) label) :
    ∃ l ∈ IEEE.Calculator.formatResultLines c st result,
      l.data ≠ [] ∧ l.data.take 3 = label.data.take 3 := by
  obtain ⟨line, hline, hstarts⟩ := h
  rw [FormatResult_textLines c st result hcur hin] at hline
  rcases List.mem_append.mp hline with h1 | h1
  · obtain ⟨l, hl, rfl⟩ := List.mem_map.mp h1
    refine ⟨l, hl, ?_, take3_of_starts hlab hstarts⟩
    intro he
    rw [he] at hstarts
    have := List.prefix_nil.mp hstarts
    rw [this] at hlab
    simp at hlab
  · have he : line = [] := by simpa using h1
    rw [he] at hstarts
    have := List.prefix_nil.mp hstarts
    rw [this] at hlab
    simp at hlab

theorem flatten_ends_newline (xs : List (List Char)) (h : ∀ x ∈ xs, ∃ p, x = p ++ ['\n']) :
    xs.flatten = [] ∨ ∃ p, xs.flatten = p ++ ['\n'] := by
  induction xs with
  | nil => left; rfl
  | cons x rest ih =>
      right
      obtain ⟨p, rfl⟩ := h x (List.mem_cons_self _ _)
      rcases ih (fun y hy => h y (List.mem_cons_of_mem _ hy)) with h0 | ⟨q, hq⟩
      · exact ⟨p, by simp [h0]⟩
      · exact ⟨p ++ ['\n'] ++ q, by simp [hq]⟩

theorem hasLine_of_write (ws : List String) (w label : String)
    (hws : ∀ x ∈ ws, ∃ p, x.data = p ++ ['\n']) (hw : w ∈ ws) (hl : label.data <+: w.data)
    (hnl : '\n' ∉ label.data) : HasLineStarting (String.join ws) label := by
  obtain ⟨ws1, ws2, rfl⟩ := List.append_of_mem hw
  obtain ⟨r, hr⟩ := hl
  have hpre := flatten_ends_newline (ws1.map String.data) (by
    intro x hx
    obtain ⟨s, hs, rfl⟩ := List.mem_map.mp hx
    exact hws s (List.mem_append_left _ hs))
  have hdata : (String.join (ws1 ++ w :: ws2)).data
      = (ws1.map String.data).flatten
        ++ (label.data ++ (r ++ (ws2.map String.data).flatten)) := by
    rw [String.data_join]
    simp [← hr]
  unfold HasLineStarting textLines
  rw [hdata]
  exact hasLine_of_starts _ _ _ hpre hnl

theorem formatResultWrites_end (c : Calculator) (st : IEEE.Store)
    (result : IEEE.CalculationResult) :
    ∀ w ∈ IEEE.Calculator.formatResultWrites c st result, ∃ p, w.data = p ++ ['\n'] := by
  intro w hw
  simp only [IEEE.Calculator.formatResultWrites, List.mem_append, mem_ite_singleton,
    List.mem_cons, List.mem_singleton, List.not_mem_nil, or_false] at hw
  rcases hw with ((((((rfl | rfl) | ⟨-, rfl⟩) | ⟨-, rfl⟩) | ⟨-, rfl⟩) | ⟨-, rfl⟩) |
    (rfl | rfl | rfl | rfl))
  · exact ⟨"=== CÁLCULO DE FACTURACIÓN ===\n".data, by decide⟩
  · exact ⟨"Desglose de tiempo trabajado:".data, by decide⟩
  · exact ⟨_, String.data_append _ _⟩
  · exact ⟨_, String.data_append _ _⟩
  · exact ⟨_, String.data_append _ _⟩
  · exact ⟨_, String.data_append _ _⟩
  · exact ⟨"\nRESUMEN:".data, by decide⟩
  · exact ⟨_, String.data_append _ _⟩
  · exact ⟨_, String.data_append _ _⟩
  · exact ⟨_, String.data_append _ _⟩

theorem hasLine_months_iff (c : Calculator) (st : IEEE.Store) (result : IEEE.CalculationResult) :
    (result.MonthDetails ≠ [] →
      HasLineStarting (IEEE.Calculator.FormatResult c st result) "  Meses: ") ∧
    ('\n' ∉ result.Currency.data → (∀ m ∈ result.MonthDetails, '\n' ∉ m.Input.data) →
      HasLineStarting (IEEE.Calculator.FormatResult c st result) "  Meses: " →
      result.MonthDetails ≠ []) := by
  constructor
  · intro hne
    have hlen : result.MonthDetails.length > 0 := List.length_pos.mpr hne
    refine hasLine_of_write _ (IEEE.monthsLine (st c.config) result ++ "\n") _
      (formatResultWrites_end c st result) (by simp [IEEE.Calculator.formatResultWrites, hlen])
      ?_ (by decide)
    rw [String.data_append]
    exact (ieee_monthsLine_starts _ _).trans (List.prefix_append _ _)
  · intro hcur hin h
    obtain ⟨l, hl, hne, h3⟩ := hasLine_in_lines c st result _ (by decide) hcur hin h
    rcases formatResultLines_take3 c st result l hl with h0 | h | h | ⟨hc, -⟩ | ⟨-, h⟩ |
      ⟨-, h⟩ | ⟨-, h⟩ | h | h
    all_goals first
      | exact hc
      | exact absurd h0 hne
      | (rw [h] at h3; exact absurd h3 (by decide))

theorem hasLine_weeks_iff (c : Calculator) (st : IEEE.Store) (result : IEEE.CalculationResult) :
    (0 < result.TotalWeeks →
      HasLineStarting (IEEE.Calculator.FormatResult c st result) "  Semanas: ") ∧
    ('\n' ∉ result.Currency.data → (∀ m ∈ result.MonthDetails, '\n' ∉ m.Input.data) →
      HasLineStarting (IEEE.Calculator.FormatResult c st result) "  Semanas: " →
      0 < result.TotalWeeks) := by
  constructor
  · intro hpos
    refine hasLine_of_write _ (IEEE.weeksLine (st c.config) result ++ "\n") _
      (formatResultWrites_end c st result) (by simp [IEEE.Calculator.formatResultWrites, hpos])
      ?_ (by decide)
    rw [String.data_append]
    exact (ieee_weeksLine_starts _ _).trans (List.prefix_append _ _)
  · intro hcur hin h
    obtain ⟨l, hl, hne, h3⟩ := hasLine_in_lines c st result _ (by decide) hcur hin h
    rcases formatResultLines_take3 c st result l hl with h0 | h | h | ⟨-, h⟩ | ⟨hc, -⟩ |
      ⟨-, h⟩ | ⟨-, h⟩ | h | h
    all_goals first
      | exact hc
      | exact absurd h0 hne
      | (rw [h] at h3; exact absurd h3 (by decide))

theorem hasLine_days_iff (c : Calculator) (st : IEEE.Store) (result : IEEE.CalculationResult) :
    (0 < result.TotalDays →
      HasLineStarting (IEEE.Calculator.FormatResult c st result) "  Días: ") ∧
    ('\n' ∉ result.Currency.data → (∀ m ∈ result.MonthDetails, '\n' ∉ m.Input.data) →
      HasLineStarting (IEEE.Calculator.FormatResult c st result) "  Días: " →
      0 < result.TotalDays) := by
  constructor
  · intro hpos
    refine hasLine_of_write _ (IEEE.daysLine (st c.config) result ++ "\n") _
      (formatResultWrites_end c st result) (by simp [IEEE.Calculator.formatResultWrites, hpos])
      ?_ (by decide)
    rw [String.data_append]
    exact (ieee_daysLine_starts _ _).trans (List.prefix_append _ _)
  · intro hcur hin h
    obtain ⟨l, hl, hne, h3⟩ := hasLine_in_lines c st result _ (by decide) hcur hin h
    rcases formatResultLines_take3 c st result l hl with h0 | h | h | ⟨-, h⟩ | ⟨-, h⟩ |
      ⟨hc, -⟩ | ⟨-, h⟩ | h | h
    all_goals first
      | exact hc
      | exact absurd h0 hne
      | (rw [h] at h3; exact absurd h3 (by decide))

theorem hasLine_hours_iff (c : Calculator) (st : IEEE.Store) (result : IEEE.CalculationResult) :
    (0 < result.TotalHours →
      HasLineStarting (IEEE.Calculator.FormatResult c st result) "  Horas adicionales: ") ∧
    ('\n' ∉ result.Currency.data → (∀ m ∈ result.MonthDetails, '\n' ∉ m.Input.data) →
      HasLineStarting (IEEE.Calculator.FormatResult c st result) "  Horas adicionales: " →
      0 < result.TotalHours) := by
  constructor
  · intro hpos
    refine hasLine_of_write _ (IEEE.hoursLine result ++ "\n") _
      (formatResultWrites_end c st result) (by simp [IEEE.Calculator.formatResultWrites, hpos])
      ?_ (by decide)
    rw [String.data_append]
    exact (ieee_hoursLine_starts _).trans (List.prefix_append _ _)
  · intro hcur hin h
    obtain ⟨l, hl, hne, h3⟩ := hasLine_in_lines c st result _ (by decide) hcur hin h
    rcases formatResultLines_take3 c st result l hl with h0 | h | h | ⟨-, h⟩ | ⟨-, h⟩ |
      ⟨-, h⟩ | ⟨hc, -⟩ | h | h
    all_goals first
      | exact hc
      | exact absurd h0 hne
      | (rw [h] at h3; exact absurd h3 (by decide))

/-- Claim C20, as the code has it, a line of the output being a piece between two line breaks.
The output of FormatResult has a line starting with "  Meses: " whenever MonthDetails is
non-empty, and lines starting with "  Semanas: ", "  Días: " and "  Horas adicionales: "
whenever TotalWeeks, TotalDays, TotalHours respectively is greater than 0. When neither the
Currency nor the Input of a month holds a line break, these are equivalences, so each of the
three lines is present only if its total is nonzero. For a result returned by a successful
Calculate whose currency holds no line break, the months line is present if and only if
MonthDetails is non-empty, and each of the three lines if and only if its total is nonzero,
provided the sum of the corresponding input fits in the 64-bit range of Go's int. -/
theorem FormatResult_lines (c : Calculator) (st : IEEE.Store) (result : IEEE.CalculationResult) :
    (result.MonthDetails ≠ [] →
      HasLineStarting (IEEE.Calculator.FormatResult c st result) "  Meses: ") ∧
    (0 < result.TotalWeeks →
      HasLineStarting (IEEE.Calculator.FormatResult c st result) "  Semanas: ") ∧
    (0 < result.TotalDays →
      HasLineStarting (IEEE.Calculator.FormatResult c st result) "  Días: ") ∧
    (0 < result.TotalHours →
      HasLineStarting (IEEE.Calculator.FormatResult c st result) "  Horas adicionales: ") ∧
    ('\n' ∉ result.Currency.data → (∀ m ∈ result.MonthDetails, '\n' ∉ m.Input.data) →
      (HasLineStarting (IEEE.Calculator.FormatResult c st result) "  Meses: " ↔
        result.MonthDetails ≠ []) ∧
      (HasLineStarting (IEEE.Calculator.FormatResult c st result) "  Semanas: " ↔
        0 < result.TotalWeeks) ∧
      (HasLineStarting (IEEE.Calculator.FormatResult c st result) "  Días: " ↔
        0 < result.TotalDays) ∧
      (HasLineStarting (IEEE.Calculator.FormatResult c st result) "  Horas adicionales: " ↔
        0 < result.TotalHours)) ∧
    ∀ (now : Int) (input : TimeInput) (currency : String),
      IEEE.Calculator.Calculate c st now input currency = .ok result →
      '\n' ∉ currency.data →
      (HasLineStarting (IEEE.Calculator.FormatResult c st result) "  Meses: " ↔
        result.MonthDetails ≠ []) ∧
      (InIntRange input.Weeks.sum →
        (HasLineStarting (IEEE.Calculator.FormatResult c st result) "  Semanas: " ↔
          result.TotalWeeks ≠ 0)) ∧
      (InIntRange input.Days.sum →
        (HasLineStarting (IEEE.Calculator.FormatResult c st result) "  Días: " ↔
          result.TotalDays ≠ 0)) ∧
      (InIntRange input.Hours.sum →
        (HasLineStarting (IEEE.Calculator.FormatResult c st result) "  Horas adicionales: " ↔
          result.TotalHours ≠ 0)) := by
  have hm := hasLine_months_iff c st result
  have hw := hasLine_weeks_iff c st result
  have hd := hasLine_days_iff c st result
  have hh := hasLine_hours_iff c st result
  refine ⟨hm.1, hw.1, hd.1, hh.1, ?_, ?_⟩
  · intro hcur hin
    exact ⟨⟨hm.2 hcur hin, hm.1⟩, ⟨hw.2 hcur hin, hw.1⟩, ⟨hd.2 hcur hin, hd.1⟩,
      ⟨hh.2 hcur hin, hh.1⟩⟩
  · intro now input currency hcalc hcur0
    obtain ⟨hv, hp, a2, a3, a4, a5, -⟩ := ieee_Calculate_ok_fields c st now input currency result hcalc
    have hcur : '\n' ∉ result.Currency.data := by rw [a5]; exact hcur0
    have hin := parseMonths_no_newline now input.Months result.MonthDetails hp
    obtain ⟨v1, v2, v3, -⟩ := (ValidateInput_ok_iff_checks c now input).mp hv
    have s1 := sum_nonneg_of_forall v1
    have s2 := sum_nonneg_of_forall v2
    have s3 := sum_nonneg_of_forall v3
    rw [sumInts_zero] at a2 a3 a4
    refine ⟨⟨hm.2 hcur hin, hm.1⟩, ?_, ?_, ?_⟩
    · intro hr
      rw [wrapInt_of_range hr] at a4
      constructor
      · intro h
        have := hw.2 hcur hin h
        omega
      · intro h
        exact hw.1 (by omega)
    · intro hr
      rw [wrapInt_of_range hr] at a3
      constructor
      · intro h
        have := hd.2 hcur hin h
        omega
      · intro h
        exact hd.1 (by omega)
    · intro hr
      rw [wrapInt_of_range hr] at a2
      constructor
      · intro h
        have := hh.2 hcur hin h
        omega
      · intro h
        exact hh.1 (by omega)

set_option maxRecDepth 100000 in
/-- Claim C20 as stated fails twice. Calculate succeeds on hours [9223372036854775807, 1] with
TotalHours = -9223372036854775808, which is nonzero, and the output of FormatResult has no
additional-hours line for that result. And Calculate succeeds on an empty input with the
currency "X", a line break and "  Semanas: 9 × 40 horas = 360 horas =": TotalWeeks is 0 and
the output of FormatResult has a line starting with "  Semanas: ". -/
theorem FormatResult_lines_fail :
    (∃ r, IEEE.Calculator.Calculate (NewCalculator 0) IEEE.defaultStore 2025
        ⟨[9223372036854775807, 1], [], [], []⟩ "U$S" = .ok r ∧
      r.TotalHours ≠ 0 ∧
      ¬HasLineStarting (IEEE.Calculator.FormatResult (NewCalculator 0) IEEE.defaultStore r)
        "  Horas adicionales: ") ∧
    (∃ r, IEEE.Calculator.Calculate (NewCalculator 0) IEEE.defaultStore 2025
        ⟨[], [], [], []⟩ "X\n  Semanas: 9 × 40 horas = 360 horas =" = .ok r ∧
      r.TotalWeeks = 0 ∧
      HasLineStarting (IEEE.Calculator.FormatResult (NewCalculator 0) IEEE.defaultStore r)
        "  Semanas: ") :=
  ⟨⟨_, rfl, by decide!, by decide!⟩, ⟨_, rfl, by decide!, by decide!⟩⟩

/-- Claim C20 at the result of the test: with one month, TotalWeeks = 1, TotalDays = 5 and
TotalHours = 10 the four lines are in the output; with no month and TotalDays = 0 the months
line and the days line are not. -/
theorem FormatResult_lines_witness :
    HasLineStarting (IEEE.Calculator.FormatResult (NewCalculator 0) IEEE.defaultStore
      ⟨[⟨"2024-01", 31, 0, 0⟩], 1, 5, 10, 338, .fin (9295 / 2), "U$S"⟩) "  Meses: " ∧
    HasLineStarting (IEEE.Calculator.FormatResult (NewCalculator 0) IEEE.defaultStore
      ⟨[⟨"2024-01", 31, 0, 0⟩], 1, 5, 10, 338, .fin (9295 / 2), "U$S"⟩) "  Semanas: " ∧
    HasLineStarting (IEEE.Calculator.FormatResult (NewCalculator 0) IEEE.defaultStore
      ⟨[⟨"2024-01", 31, 0, 0⟩], 1, 5, 10, 338, .fin (9295 / 2), "U$S"⟩)
      "  Horas adicionales: " ∧
    ¬HasLineStarting (IEEE.Calculator.FormatResult (NewCalculator 0) IEEE.defaultStore
      ⟨[], 1, 0, 10, 50, .fin (1375 / 2), "U$S"⟩) "  Meses: " ∧
    ¬HasLineStarting (IEEE.Calculator.FormatResult (NewCalculator 0) IEEE.defaultStore
      ⟨[], 1, 0, 10, 50, .fin (1375 / 2), "U$S"⟩) "  Días: " :=
  ⟨(FormatResult_lines _ _ _).1 (by decide),
    (FormatResult_lines _ _ _).2.1 (by decide),
    (FormatResult_lines _ _ _).2.2.2.1 (by decide),
    fun h => absurd (((FormatResult_lines _ _ _).2.2.2.2.1 (by decide) (by decide)).1.mp h)
      (by decide),
    fun h => absurd (((FormatResult_lines _ _ _).2.2.2.2.1 (by decide) (by decide)).2.2.1.mp h)
      (by decide)⟩

end Billctl
